import Mathlib

/-!
# Audio recorder (JUCE): shallow embedding and verified properties

The repository holds two variants of `AudioRecorderComponent`:

* `LZarins` : the multi-take recorder (`Audio_recorder_DAW_L_Zarins_part/Main.cpp`),
* `KERoke`  : the single-take recorder (`Audio_recorder_DAW_K_E_Roke_part/Main.cpp`).

Modelling conventions.

* `float` / `double` values are exact rationals (`ℚ`).
* `int64_t` arithmetic is integer arithmetic followed by `wrapInt64`;
  an `int` compared with a `size_t` is first converted with `toSizeT`.
* Every object created with `new` gets a fresh address from the counter `nextAddr`;
  raw pointers are these addresses.
* The outcome of the two library calls that may fail in `startRecording`
  (`createOutputStream`, `createWriterFor`), the clock and the documents directory are
  inputs of the call (`StartEnv`).
* `AlertWindow::showAsync` appends to the log `alerts`; a delete confirmation stays in
  `pendingDeletes` until the user answers it.
* Component geometry (`setSize`, `setBounds`, `repaint`, `updateLayout`) is not read by the
  recording logic and is left out.
* For the two threads of the multi-take recorder, `getNextAudioBlock` and `stopRecording` are
  also given step by step (`audioStep`, `controlStep`): one step per member access and per
  acquire or release of `writerLock`, interleaved by a schedule.
-/

namespace Juce

/-- Reading of an integer as an `int64_t` (wrap-around in two-complement form). -/
def wrapInt64 (x : Int) : Int := (x + 2 ^ 63) % 2 ^ 64 - 2 ^ 63

/-- Conversion of an `int` to a 64-bit `size_t`, as done when an `int` is compared with
`vector::size()`. -/
def toSizeT (x : Int) : Nat := (x % 2 ^ 64).toNat

/-- Apply `f` to the element at position `i` (nothing happens outside the list). -/
def modifyAt {α : Type} (f : α → α) : List α → Nat → List α
  | [], _ => []
  | x :: xs, 0 => f x :: xs
  | x :: xs, n + 1 => x :: modifyAt f xs n

/-- A `juce::File`: the components of its path. -/
structure File where
  components : List String
deriving DecidableEq, Repr

/-- `File::getChildFile`. -/
def File.getChildFile (f : File) (name : String) : File := ⟨f.components ++ [name]⟩

/-- `File::deleteFile`, on the list of the files that exist. -/
def deleteFile (disk : List File) (f : File) : List File := disk.filter fun g => g ≠ f

/-- `File::getFileName`: the last component of the path. -/
def File.getFileName (f : File) : String := f.components.getLastD ""

/-- A reading of the clock, broken down in local time. -/
structure Time where
  year : Nat
  month : Nat
  day : Nat
  hours : Nat
  minutes : Nat
  seconds : Nat
  milliseconds : Nat
deriving DecidableEq, Repr

/-- Two decimal digits, zero padded. -/
def pad2 (n : Nat) : String := if n < 10 then "0" ++ toString n else toString n

/-- `Time::formatted("%Y%m%d_%H%M%S")`. -/
def Time.formatted (t : Time) : String :=
  toString t.year ++ pad2 t.month ++ pad2 t.day ++ "_" ++
    pad2 t.hours ++ pad2 t.minutes ++ pad2 t.seconds

/-- A clock reading truncated to the whole second: year, month, day, hours, minutes, seconds. -/
def Time.toSecond (t : Time) : Nat × Nat × Nat × Nat × Nat × Nat :=
  (t.year, t.month, t.day, t.hours, t.minutes, t.seconds)

/-- A reading a clock can give: month, day, hours, minutes and seconds in their ranges. -/
def Time.Valid (t : Time) : Prop :=
  t.month ≤ 12 ∧ t.day ≤ 31 ∧ t.hours ≤ 23 ∧ t.minutes ≤ 59 ∧ t.seconds ≤ 60

instance (t : Time) : Decidable t.Valid := by
  unfold Time.Valid
  infer_instance

/-- The value of a decimal digit character. -/
def digitVal (c : Char) : Nat := c.toNat - 48

/-- The number written by a list of decimal digit characters. -/
def digitsVal (cs : List Char) : Nat := cs.foldl (fun acc c => acc * 10 + digitVal c) 0

/-- A `juce::AudioBuffer<float>`: one list of samples per channel. -/
structure AudioBuffer where
  channels : List (List ℚ)
deriving DecidableEq, Repr

/-- The sample of `channel` at `index`; a read outside the buffer is modelled as `0`. -/
def AudioBuffer.getSample (b : AudioBuffer) (channel : Nat) (index : Int) : ℚ :=
  if index < 0 then 0 else (b.channels.getD channel []).getD index.toNat 0

/-- `AudioBuffer::getReadPointer(channel, sampleIndex)`: the pointer is the function that
reads relative to `sampleIndex`. -/
def AudioBuffer.getReadPointer (b : AudioBuffer) (channel : Nat) (sampleIndex : Int) :
    Int → ℚ :=
  fun i => b.getSample channel (sampleIndex + i)

/-- The `numSamples` frames of every one of the first `numChannels` channels, starting at
`start`. -/
def AudioBuffer.frames (b : AudioBuffer) (numChannels : Nat) (start numSamples : Int) :
    List (List ℚ) :=
  (List.range numChannels).map fun ch =>
    (List.range numSamples.toNat).map fun (i : Nat) => b.getReadPointer ch start (i : Int)

/-- `juce::AudioSourceChannelInfo`. -/
structure AudioSourceChannelInfo where
  buffer : AudioBuffer
  startSample : Int
  numSamples : Int
deriving DecidableEq, Repr

/-- `AudioSourceChannelInfo::clearActiveBufferRegion`: the buffer handed back to the device. -/
def AudioSourceChannelInfo.clearActiveBufferRegion (b : AudioSourceChannelInfo) : AudioBuffer :=
  ⟨b.buffer.channels.map fun ch =>
    (List.range ch.length).map fun (i : Nat) =>
      if b.startSample ≤ (i : Int) ∧ (i : Int) < b.startSample + b.numSamples then 0
      else ch.getD i 0⟩

/-- The writer returned by `WavAudioFormat::createWriterFor`. -/
structure AudioFormatWriter where
  file : File
  sampleRate : ℚ
  numChannels : Nat
  bitsPerSample : Nat
  metadata : List (String × String)
  qualityOptionIndex : Int
deriving DecidableEq, Repr

/-- An `AudioFormatWriter::ThreadedWriter`, with the blocks handed to `write`, oldest first. -/
structure ThreadedWriter where
  addr : Nat
  writer : AudioFormatWriter
  numSamplesToBuffer : Nat
  received : List (List (List ℚ))
deriving DecidableEq, Repr

/-- `ThreadedWriter::write(data, numSamples)`: the frames `[0, numSamples)` of the channel
pointers in `data`. -/
def ThreadedWriter.write (w : ThreadedWriter) (data : AudioBuffer) (numSamples : Int) :
    ThreadedWriter :=
  { w with received := w.received ++ [data.frames w.writer.numChannels 0 numSamples] }

/-- One `addBlock` call received by a thumbnail. -/
structure ThumbnailBlock where
  sampleNumberInSource : Int
  frames : List (List ℚ)
deriving DecidableEq, Repr

/-- A `juce::AudioThumbnail`. -/
structure AudioThumbnail where
  addr : Nat
  sourceSamplesPerThumbnailSample : Nat
  cacheAddr : Nat
  numChannels : Nat
  sampleRate : ℚ
  blocks : List ThumbnailBlock
  source : Option File
deriving DecidableEq, Repr

/-- `AudioThumbnail::reset(numChannels, sampleRate)`. -/
def AudioThumbnail.reset (t : AudioThumbnail) (numChannels : Nat) (sampleRate : ℚ) :
    AudioThumbnail :=
  { t with numChannels := numChannels, sampleRate := sampleRate, blocks := [], source := none }

/-- `AudioThumbnail::addBlock(sampleNumberInSource, incoming, startOffsetInBuffer, numSamples)`. -/
def AudioThumbnail.addBlock (t : AudioThumbnail) (sampleNumberInSource : Int)
    (incoming : AudioBuffer) (startOffsetInBuffer numSamples : Int) : AudioThumbnail :=
  { t with blocks := t.blocks ++
      [⟨sampleNumberInSource, incoming.frames t.numChannels startOffsetInBuffer numSamples⟩] }

/-- `AudioThumbnail::setSource(new FileInputSource(file))`. -/
def AudioThumbnail.setSource (t : AudioThumbnail) (file : File) : AudioThumbnail :=
  { t with source := some file, blocks := [] }

/-- A `juce::AudioThumbnailCache`. -/
structure AudioThumbnailCache where
  addr : Nat
  maxNumThumbsToStore : Nat
deriving DecidableEq, Repr

/-- The meter loop `for (i = 0; i < numSamples; ++i) sum += abs(channelData[i])`. -/
def sumAbs (channelData : Int → ℚ) (numSamples : Int) : ℚ :=
  (List.range numSamples.toNat).foldl (fun sum (i : Nat) => sum + |channelData (i : Int)|) 0

/-- What `startRecording` reads from outside the component. -/
structure StartEnv where
  userDocumentsDirectory : File
  currentTime : Time
  streamCreated : Bool
  writerCreated : Bool
deriving DecidableEq, Repr

end Juce

/-! ## The multi-take recorder (`Audio_recorder_DAW_L_Zarins_part/Main.cpp`) -/

namespace LZarins

open Juce

/-- `RecordingDisplayPanel`: the index of the recording it shows. -/
structure RecordingDisplayPanel where
  recordingIndex : Int
deriving DecidableEq, Repr

/-- `RecordingDisplayPanel::setRecordingIndex`. -/
def RecordingDisplayPanel.setRecordingIndex (_d : RecordingDisplayPanel) (newIndex : Int) :
    RecordingDisplayPanel :=
  ⟨newIndex⟩

/-- `RecordingTrack` (the stateless `TrackControlsPanel` is left out). -/
structure RecordingTrack where
  addr : Nat
  trackIndex : Int
  display : RecordingDisplayPanel
deriving DecidableEq, Repr

/-- The constructor `RecordingTrack(owner, index)`, for the object placed at `addr`. -/
def RecordingTrack.new (addr : Nat) (index : Int) : RecordingTrack :=
  ⟨addr, index, ⟨index⟩⟩

/-- `RecordingTrack::setTrackIndex`. -/
def RecordingTrack.setTrackIndex (t : RecordingTrack) (newIndex : Int) : RecordingTrack :=
  { t with trackIndex := newIndex, display := t.display.setRecordingIndex newIndex }

/-- `RecordingsContainer`: the vector of track pointers. -/
structure RecordingsContainer where
  tracks : List RecordingTrack
deriving DecidableEq, Repr

/-- `RecordingsContainer::addRecordingTrack`. -/
def RecordingsContainer.addRecordingTrack (c : RecordingsContainer) (track : RecordingTrack) :
    RecordingsContainer :=
  ⟨c.tracks ++ [track]⟩

/-- The loop of `removeRecordingTrack`: erase the first entry equal to the pointer `track`. -/
def eraseFirstTrack (track : Nat) : List RecordingTrack → List RecordingTrack
  | [] => []
  | t :: ts => if t.addr = track then ts else t :: eraseFirstTrack track ts

/-- `RecordingsContainer::removeRecordingTrack`. -/
def RecordingsContainer.removeRecordingTrack (c : RecordingsContainer) (track : Nat) :
    RecordingsContainer :=
  ⟨eraseFirstTrack track c.tracks⟩

/-- The loop `for (i = 0; i < remainingTracks.size(); i++) remainingTracks[i]->setTrackIndex(i)`,
started at loop counter `i`. -/
def reindexFrom (i : Nat) : List RecordingTrack → List RecordingTrack
  | [] => []
  | t :: ts => t.setTrackIndex (i : Int) :: reindexFrom (i + 1) ts

/-- `EditingToolsPanel`: whether its two buttons are enabled. -/
structure EditingToolsPanel where
  recordButtonEnabled : Bool
  stopButtonEnabled : Bool
deriving DecidableEq, Repr

/-- `EditingToolsPanel::updateRecordingState`. -/
def EditingToolsPanel.updateRecordingState (_p : EditingToolsPanel) (isRecording : Bool) :
    EditingToolsPanel :=
  ⟨!isRecording, isRecording⟩

/-- A message box shown with `AlertWindow::showAsync`. -/
inductive Alert where
  | maximumRecordings
  | saveRecording (fileName : String)
  | deleteRecording (index : Int)
deriving DecidableEq, Repr

/-- The members of `AudioRecorderComponent`, followed by the parts of the outside world the
component acts on: the message boxes shown, the delete confirmations still open, the files on
disk, the writers already closed, and the next free address. -/
structure AudioRecorderComponent where
  editingTools : EditingToolsPanel
  recordingsContainer : RecordingsContainer
  recordingThumbnails : List AudioThumbnail
  recordingCaches : List AudioThumbnailCache
  recordingFiles : List File
  backgroundThreadRunning : Bool
  threadedWriter : Option ThreadedWriter
  activeWriter : Option Nat
  isRecording : Bool
  sampleRate : ℚ
  currentLevel : ℚ
  nextSampleNum : Int
  playheadPosition : ℚ
  currentRecordingIndex : Int
  alerts : List Alert
  pendingDeletes : List Int
  disk : List File
  closedWriters : List ThreadedWriter
  nextAddr : Nat
deriving DecidableEq, Repr

/-- The state left by the constructor and the member initialisers. -/
def AudioRecorderComponent.new : AudioRecorderComponent where
  editingTools := ⟨true, false⟩
  recordingsContainer := ⟨[]⟩
  recordingThumbnails := []
  recordingCaches := []
  recordingFiles := []
  backgroundThreadRunning := false
  threadedWriter := none
  activeWriter := none
  isRecording := false
  sampleRate := 44100
  currentLevel := 0
  nextSampleNum := 0
  playheadPosition := 0
  currentRecordingIndex := -1
  alerts := []
  pendingDeletes := []
  disk := []
  closedWriters := []
  nextAddr := 0

/-- `prepareToPlay`. -/
def prepareToPlay (s : AudioRecorderComponent) (_samplesPerBlockExpected : Int)
    (sampleRate : ℚ) : AudioRecorderComponent :=
  { s with sampleRate := sampleRate }

/-- `activeWriter.load()->write(...)`: the write reaches the object the pointer names. -/
def writeActive (s : AudioRecorderComponent) (data : AudioBuffer) (numSamples : Int) :
    Option ThreadedWriter :=
  s.threadedWriter.map fun w =>
    if s.activeWriter = some w.addr then w.write data numSamples else w

/-- `getNextAudioBlock`: the new state of the component. -/
def getNextAudioBlock (s : AudioRecorderComponent) (bufferToFill : AudioSourceChannelInfo) :
    AudioRecorderComponent :=
  if s.isRecording then
    let s1 : AudioRecorderComponent :=
      if s.activeWriter ≠ none then
        let sw := { s with threadedWriter := writeActive s bufferToFill.buffer bufferToFill.numSamples }
        let st :=
          if 0 ≤ sw.currentRecordingIndex ∧
              sw.currentRecordingIndex.toNat < sw.recordingThumbnails.length then
            { sw with recordingThumbnails :=
                (modifyAt (fun t => t.addBlock sw.nextSampleNum bufferToFill.buffer
                    bufferToFill.startSample bufferToFill.numSamples)
                  sw.recordingThumbnails sw.currentRecordingIndex.toNat) }
          else sw
        let n := wrapInt64 (st.nextSampleNum + bufferToFill.numSamples)
        { st with nextSampleNum := n, playheadPosition := (n : ℚ) / st.sampleRate }
      else s
    let channelData := bufferToFill.buffer.getReadPointer 0 bufferToFill.startSample
    let sum := sumAbs channelData bufferToFill.numSamples
    { s1 with currentLevel := sum / (bufferToFill.numSamples : ℚ) }
  else s

/-- `getNextAudioBlock`: the buffer handed back (`clearActiveBufferRegion`). -/
def getNextAudioBlockOutput (_s : AudioRecorderComponent)
    (bufferToFill : AudioSourceChannelInfo) : AudioBuffer :=
  bufferToFill.clearActiveBufferRegion

/-- `timerCallback`. -/
def timerCallback (s : AudioRecorderComponent) : AudioRecorderComponent :=
  { s with editingTools := s.editingTools.updateRecordingState s.isRecording }

/-- The file `startRecording` chooses for the new take. -/
def newRecordingFile (env : StartEnv) : File :=
  env.userDocumentsDirectory.getChildFile ("Recording_" ++ env.currentTime.formatted ++ ".wav")

/-- `startRecording`. -/
def startRecording (s : AudioRecorderComponent) (env : StartEnv) : AudioRecorderComponent :=
  if s.recordingThumbnails.length ≥ 6 then
    { s with alerts := s.alerts ++ [Alert.maximumRecordings] }
  else if !s.isRecording then
    let parentDir := env.userDocumentsDirectory
    let newRecording :=
      parentDir.getChildFile ("Recording_" ++ env.currentTime.formatted ++ ".wav")
    let s0 := if newRecording ∈ s.disk then { s with disk := deleteFile s.disk newRecording } else s
    if env.streamCreated then
      let s1 := { s0 with disk := newRecording :: s0.disk }
      if env.writerCreated then
        let writer : AudioFormatWriter := ⟨newRecording, s1.sampleRate, 2, 16, [], 0⟩
        let newCache : AudioThumbnailCache := ⟨s1.nextAddr, 5⟩
        let newThumbnail : AudioThumbnail :=
          (AudioThumbnail.mk (s1.nextAddr + 1) 2048 newCache.addr 0 0 [] none).reset 2
            s1.sampleRate
        let s2 := { s1 with
          recordingCaches := s1.recordingCaches ++ [newCache],
          recordingThumbnails := s1.recordingThumbnails ++ [newThumbnail],
          recordingFiles := s1.recordingFiles ++ [newRecording] }
        let s3 := { s2 with
          currentRecordingIndex := (s2.recordingThumbnails.length : Int) - 1 }
        let newTrack := RecordingTrack.new (s1.nextAddr + 2) s3.currentRecordingIndex
        let s4 := { s3 with
          recordingsContainer := s3.recordingsContainer.addRecordingTrack newTrack }
        let s5 := { s4 with nextSampleNum := 0, playheadPosition := 0 }
        let s6 := { s5 with backgroundThreadRunning := true }
        let s7 := { s6 with
          threadedWriter := some ⟨s1.nextAddr + 3, writer, 32768, []⟩,
          closedWriters := s6.closedWriters ++ s6.threadedWriter.toList,
          nextAddr := s1.nextAddr + 4 }
        let s8 := { s7 with activeWriter := s7.threadedWriter.map fun (w : ThreadedWriter) => w.addr }
        { s8 with isRecording := true }
      else s1
    else s0
  else s

/-- `showSaveDialog`. -/
def showSaveDialog (s : AudioRecorderComponent) : AudioRecorderComponent :=
  let fileName :=
    if 0 ≤ s.currentRecordingIndex ∧ s.currentRecordingIndex.toNat < s.recordingFiles.length then
      (s.recordingFiles.getD s.currentRecordingIndex.toNat ⟨[]⟩).getFileName
    else "unknown"
  { s with alerts := s.alerts ++ [Alert.saveRecording fileName] }

/-- `stopRecording`. -/
def stopRecording (s : AudioRecorderComponent) : AudioRecorderComponent :=
  if s.isRecording then
    let s1 := { s with isRecording := false }
    let s2 := { s1 with activeWriter := none }
    let s3 := { s2 with
      threadedWriter := none,
      closedWriters := s2.closedWriters ++ s2.threadedWriter.toList }
    let s4 :=
      if 0 ≤ s3.currentRecordingIndex ∧
          s3.currentRecordingIndex.toNat < s3.recordingFiles.length then
        let lastFile := s3.recordingFiles.getD s3.currentRecordingIndex.toNat ⟨[]⟩
        if lastFile ∈ s3.disk then
          { s3 with recordingThumbnails :=
              (modifyAt (fun t => t.setSource lastFile) s3.recordingThumbnails
                s3.currentRecordingIndex.toNat) }
        else s3
      else s3
    showSaveDialog s4
  else s

/-- `deleteRecording(index)`: the guards and the confirmation box; the box stays open until
answered. -/
def deleteRecording (s : AudioRecorderComponent) (index : Int) : AudioRecorderComponent :=
  if index < 0 then s
  else if toSizeT index ≥ s.recordingsContainer.tracks.length then s
  else
    { s with
      alerts := s.alerts ++ [Alert.deleteRecording index],
      pendingDeletes := s.pendingDeletes ++ [index] }

/-- First block of the callback: `if (index < tracks.size())` remove `tracks[index]` from the
container and delete it. -/
def deleteTrackAt (s : AudioRecorderComponent) (i : Nat) : AudioRecorderComponent :=
  match s.recordingsContainer.tracks.get? i with
  | some trackToDelete =>
    { s with recordingsContainer :=
        s.recordingsContainer.removeRecordingTrack trackToDelete.addr }
  | none => s

/-- Second block of the callback: `if (index < recordingThumbnails.size())` delete and erase
the thumbnail. -/
def deleteThumbnailAt (s : AudioRecorderComponent) (i : Nat) : AudioRecorderComponent :=
  if i < s.recordingThumbnails.length then
    { s with recordingThumbnails := s.recordingThumbnails.eraseIdx i }
  else s

/-- Third block of the callback: `if (index < recordingCaches.size())` delete and erase the
cache. -/
def deleteCacheAt (s : AudioRecorderComponent) (i : Nat) : AudioRecorderComponent :=
  if i < s.recordingCaches.length then
    { s with recordingCaches := s.recordingCaches.eraseIdx i }
  else s

/-- Fourth block of the callback: `if (index < recordingFiles.size())` delete the file from
the disk when it exists and erase it from the vector. -/
def deleteFileAt (s : AudioRecorderComponent) (i : Nat) : AudioRecorderComponent :=
  match s.recordingFiles.get? i with
  | some fileToDelete =>
    { s with
      disk := if fileToDelete ∈ s.disk then deleteFile s.disk fileToDelete else s.disk,
      recordingFiles := s.recordingFiles.eraseIdx i }
  | none => s

/-- Last block of the callback: every remaining track gets its position as index. -/
def reindexTracks (s : AudioRecorderComponent) : AudioRecorderComponent :=
  { s with recordingsContainer := ⟨reindexFrom 0 s.recordingsContainer.tracks⟩ }

/-- The callback passed to `showAsync` by `deleteRecording(index)`, run with the button
number `result`. -/
def deleteRecordingCallback (s : AudioRecorderComponent) (index : Int) (result : Int) :
    AudioRecorderComponent :=
  if result = 1 then
    let i := toSizeT index
    reindexTracks (deleteFileAt (deleteCacheAt (deleteThumbnailAt (deleteTrackAt s i) i) i) i)
  else s

/-- The user answers the `k`-th open delete confirmation with button `result`. -/
def answerDelete (s : AudioRecorderComponent) (k : Nat) (result : Int) :
    AudioRecorderComponent :=
  match s.pendingDeletes.get? k with
  | some index =>
    deleteRecordingCallback { s with pendingDeletes := s.pendingDeletes.eraseIdx k } index result
  | none => s

/-- A confirmed delete: `deleteRecording(index)` and, when the box was opened, the answer
"Yes" (button 1) to it. -/
def confirmedDelete (s : AudioRecorderComponent) (index : Int) : AudioRecorderComponent :=
  let s1 := deleteRecording s index
  if s1.pendingDeletes.length = s.pendingDeletes.length + 1 then
    answerDelete s1 s.pendingDeletes.length 1
  else s1

/-- The calls the component receives from its environment. -/
inductive Op where
  | prepareToPlay (samplesPerBlockExpected : Int) (sampleRate : ℚ)
  | getNextAudioBlock (bufferToFill : AudioSourceChannelInfo)
  | timerCallback
  | startRecording (env : StartEnv)
  | stopRecording
  | deleteRecording (index : Int)
  | answerDelete (k : Nat) (result : Int)

/-- One call. -/
def step (s : AudioRecorderComponent) : Op → AudioRecorderComponent
  | .prepareToPlay n r => prepareToPlay s n r
  | .getNextAudioBlock b => getNextAudioBlock s b
  | .timerCallback => timerCallback s
  | .startRecording env => startRecording s env
  | .stopRecording => stopRecording s
  | .deleteRecording i => deleteRecording s i
  | .answerDelete k r => answerDelete s k r

/-- A sequence of calls. -/
def run (s : AudioRecorderComponent) (ops : List Op) : AudioRecorderComponent :=
  ops.foldl step s

/-- The states the component can be in: those a sequence of calls leads to from the
constructor. -/
def Reachable (s : AudioRecorderComponent) : Prop :=
  ∃ ops : List Op, run AudioRecorderComponent.new ops = s

/-- The blocks of a list delivered one after the other. -/
def deliver (s : AudioRecorderComponent) (blocks : List AudioSourceChannelInfo) :
    AudioRecorderComponent :=
  blocks.foldl getNextAudioBlock s

/-- The rate most recently passed to `prepareToPlay` in a sequence of calls, 44100 when it was
never called. -/
def lastPreparedRate (ops : List Op) : ℚ :=
  ops.foldl (fun rate op => match op with
    | .prepareToPlay _ sampleRate => sampleRate
    | _ => rate) 44100

/-- Position equals display index: the track at position `i` and its display panel carry the
index `i`. -/
def Indexed (ts : List RecordingTrack) : Prop :=
  ∀ (i : Nat) (t : RecordingTrack), ts.get? i = some t →
    t.trackIndex = (i : Int) ∧ t.display.recordingIndex = (i : Int)

/-- The shape of the registry kept by every call: the four collections have the same length,
the tracks are distinct live objects, and position equals display index. -/
structure WellFormed (s : AudioRecorderComponent) : Prop where
  caches : s.recordingCaches.length = s.recordingThumbnails.length
  files : s.recordingFiles.length = s.recordingThumbnails.length
  tracks : s.recordingsContainer.tracks.length = s.recordingThumbnails.length
  fresh : ∀ t ∈ s.recordingsContainer.tracks, t.addr < s.nextAddr
  distinct : (s.recordingsContainer.tracks.map fun t => t.addr).Nodup
  indexed : Indexed s.recordingsContainer.tracks

/-- The list `new` is the list `old` without its entry at position `i`: the entries before `i`
keep their position and the entries after `i` move down by one. -/
def RemovedAt {α : Type} (i : Nat) (old new : List α) : Prop :=
  new.length + 1 = old.length ∧
  (∀ j, j < i → new.get? j = old.get? j) ∧
  (∀ j, i ≤ j → new.get? j = old.get? (j + 1))

/-- What the `startRecording` calls of a sequence of calls read from outside, in order. -/
def startEnvs : List Op → List StartEnv
  | [] => []
  | .startRecording env :: ops => env :: startEnvs ops
  | _ :: ops => startEnvs ops

/-- The files chosen by the `startRecording` calls of a sequence of calls, in order. -/
def startedFiles (ops : List Op) : List File :=
  (startEnvs ops).map newRecordingFile

/-- The thumbnail at each position was built on the cache at the same position. -/
def Paired (s : AudioRecorderComponent) : Prop :=
  (s.recordingThumbnails.map fun t => t.cacheAddr) = s.recordingCaches.map fun c => c.addr

/-! ### Element accesses

The functions below are the same code with every element access `v[i]` into
`recordingThumbnails`, `recordingCaches`, `recordingFiles` and the track list made explicit:
`v.get? i` is `none` when `i` is outside the vector, and the function then has no result. -/

/-- `getNextAudioBlock`, with the access `recordingThumbnails[currentRecordingIndex]` checked. -/
def getNextAudioBlockChecked (s : AudioRecorderComponent)
    (bufferToFill : AudioSourceChannelInfo) : Option AudioRecorderComponent :=
  if s.isRecording then
    let s1 : Option AudioRecorderComponent :=
      if s.activeWriter ≠ none then
        let sw := { s with threadedWriter := writeActive s bufferToFill.buffer bufferToFill.numSamples }
        let st : Option AudioRecorderComponent :=
          if 0 ≤ sw.currentRecordingIndex ∧
              sw.currentRecordingIndex.toNat < sw.recordingThumbnails.length then
            (sw.recordingThumbnails.get? sw.currentRecordingIndex.toNat).map fun _ =>
              { sw with recordingThumbnails :=
                  (modifyAt (fun t => t.addBlock sw.nextSampleNum bufferToFill.buffer
                      bufferToFill.startSample bufferToFill.numSamples)
                    sw.recordingThumbnails sw.currentRecordingIndex.toNat) }
          else some sw
        st.map fun st =>
          let n := wrapInt64 (st.nextSampleNum + bufferToFill.numSamples)
          { st with nextSampleNum := n, playheadPosition := (n : ℚ) / st.sampleRate }
      else some s
    s1.map fun s1 =>
      let channelData := bufferToFill.buffer.getReadPointer 0 bufferToFill.startSample
      let sum := sumAbs channelData bufferToFill.numSamples
      { s1 with currentLevel := sum / (bufferToFill.numSamples : ℚ) }
  else some s

/-- `showSaveDialog`, with the access `recordingFiles[currentRecordingIndex]` checked. -/
def showSaveDialogChecked (s : AudioRecorderComponent) : Option AudioRecorderComponent :=
  let fileName : Option String :=
    if 0 ≤ s.currentRecordingIndex ∧ s.currentRecordingIndex.toNat < s.recordingFiles.length then
      (s.recordingFiles.get? s.currentRecordingIndex.toNat).map fun f => f.getFileName
    else some "unknown"
  fileName.map fun fileName => { s with alerts := s.alerts ++ [Alert.saveRecording fileName] }

/-- `stopRecording`, with the accesses `recordingFiles[currentRecordingIndex]` and
`recordingThumbnails[currentRecordingIndex]` checked; the guard in front of both compares the
index with `recordingFiles.size()` only. -/
def stopRecordingChecked (s : AudioRecorderComponent) : Option AudioRecorderComponent :=
  if s.isRecording then
    let s1 := { s with isRecording := false }
    let s2 := { s1 with activeWriter := none }
    let s3 := { s2 with
      threadedWriter := none,
      closedWriters := s2.closedWriters ++ s2.threadedWriter.toList }
    let s4 : Option AudioRecorderComponent :=
      if 0 ≤ s3.currentRecordingIndex ∧
          s3.currentRecordingIndex.toNat < s3.recordingFiles.length then
        (s3.recordingFiles.get? s3.currentRecordingIndex.toNat).bind fun lastFile =>
          if lastFile ∈ s3.disk then
            (s3.recordingThumbnails.get? s3.currentRecordingIndex.toNat).map fun _ =>
              { s3 with recordingThumbnails :=
                  (modifyAt (fun t => t.setSource lastFile) s3.recordingThumbnails
                    s3.currentRecordingIndex.toNat) }
          else some s3
      else some s3
    s4.bind showSaveDialogChecked
  else some s

/-- `getThumbnail(index)`: the inner `none` is the null pointer returned by the two guards. -/
def getThumbnailChecked (s : AudioRecorderComponent) (index : Int) :
    Option (Option AudioThumbnail) :=
  if index < 0 then some none
  else if toSizeT index ≥ s.recordingThumbnails.length then some none
  else (s.recordingThumbnails.get? (toSizeT index)).map some

/-- First block of the callback, with the access `tracks[index]` checked. -/
def deleteTrackAtChecked (s : AudioRecorderComponent) (i : Nat) :
    Option AudioRecorderComponent :=
  if i < s.recordingsContainer.tracks.length then
    (s.recordingsContainer.tracks.get? i).map fun trackToDelete =>
      { s with recordingsContainer :=
          s.recordingsContainer.removeRecordingTrack trackToDelete.addr }
  else some s

/-- Second block of the callback, with the access `recordingThumbnails[index]` checked. -/
def deleteThumbnailAtChecked (s : AudioRecorderComponent) (i : Nat) :
    Option AudioRecorderComponent :=
  if i < s.recordingThumbnails.length then
    (s.recordingThumbnails.get? i).map fun _ =>
      { s with recordingThumbnails := s.recordingThumbnails.eraseIdx i }
  else some s

/-- Third block of the callback, with the access `recordingCaches[index]` checked. -/
def deleteCacheAtChecked (s : AudioRecorderComponent) (i : Nat) :
    Option AudioRecorderComponent :=
  if i < s.recordingCaches.length then
    (s.recordingCaches.get? i).map fun _ =>
      { s with recordingCaches := s.recordingCaches.eraseIdx i }
  else some s

/-- Fourth block of the callback, with the access `recordingFiles[index]` checked. -/
def deleteFileAtChecked (s : AudioRecorderComponent) (i : Nat) :
    Option AudioRecorderComponent :=
  if i < s.recordingFiles.length then
    (s.recordingFiles.get? i).map fun fileToDelete =>
      { s with
        disk := if fileToDelete ∈ s.disk then deleteFile s.disk fileToDelete else s.disk,
        recordingFiles := s.recordingFiles.eraseIdx i }
  else some s

/-- The confirmation callback of `deleteRecording(index)`, with its accesses checked (the
loops of `removeRecordingTrack` and of the reindexing run below the size of the track list). -/
def deleteRecordingCallbackChecked (s : AudioRecorderComponent) (index : Int) (result : Int) :
    Option AudioRecorderComponent :=
  if result = 1 then
    let i := toSizeT index
    ((((deleteTrackAtChecked s i).bind fun s1 => deleteThumbnailAtChecked s1 i).bind
      fun s2 => deleteCacheAtChecked s2 i).bind fun s3 => deleteFileAtChecked s3 i).map
        reindexTracks
  else some s

/-! ### The audio thread and the control thread, step by step

`getNextAudioBlock` runs on the audio thread and `stopRecording` on the control thread. Each
read or write of a member, and each acquire and release of `writerLock`, is one step; a
schedule chooses which thread makes the next step. -/

/-- The two threads. -/
inductive Thread where
  | audio
  | control
deriving DecidableEq, Repr

/-- Where the audio thread stands in `getNextAudioBlock`. -/
inductive AudioPc where
  | idle
  | testRecording
  | lock
  | testWriter
  | write
  | addBlock
  | advance
  | playhead
  | level
  | unlock
  | clear
deriving DecidableEq, Repr

/-- The audio thread holds `writerLock`: from after `ScopedLock sl(writerLock)` to the end of
the `if (isRecording)` block. -/
def AudioPc.inCritical : AudioPc → Bool
  | .testWriter | .write | .addBlock | .advance | .playhead | .level | .unlock => true
  | _ => false

/-- The audio thread is inside `if (activeWriter.load() != nullptr)`. -/
def AudioPc.writing : AudioPc → Bool
  | .write | .addBlock | .advance | .playhead => true
  | _ => false

/-- Where the control thread stands in `stopRecording`. -/
inductive StopPc where
  | testRecording
  | clearFlag
  | lock
  | clearWriter
  | unlock
  | resetWriter
  | finish
  | done
deriving DecidableEq, Repr

/-- The component shared by the two threads, the owner of `writerLock`, the position of each
thread, the blocks the device still delivers (the first one is the block of the call in
progress), whether `activeWriter = nullptr` of `stopRecording` has run, and the number of
`write` calls made so far. -/
structure Threads where
  component : AudioRecorderComponent
  writerLock : Option Thread
  audioPc : AudioPc
  blocks : List AudioSourceChannelInfo
  stopPc : StopPc
  cleared : Bool
  writeSteps : Nat
deriving DecidableEq, Repr

/-- The end of `stopRecording`, after `threadedWriter.reset()`: the file of the take is loaded
into its thumbnail and the save dialog is shown. -/
def finishStop (s3 : AudioRecorderComponent) : AudioRecorderComponent :=
  let s4 :=
    if 0 ≤ s3.currentRecordingIndex ∧
        s3.currentRecordingIndex.toNat < s3.recordingFiles.length then
      let lastFile := s3.recordingFiles.getD s3.currentRecordingIndex.toNat ⟨[]⟩
      if lastFile ∈ s3.disk then
        { s3 with recordingThumbnails :=
            (modifyAt (fun t => t.setSource lastFile) s3.recordingThumbnails
              s3.currentRecordingIndex.toNat) }
      else s3
    else s3
  showSaveDialog s4

/-- One step of the audio thread in `getNextAudioBlock`; `none` when the thread cannot move
(no block to process, or `writerLock` held by the other thread). -/
def audioStep (t : Threads) : Option Threads :=
  match t.blocks with
  | [] => none
  | bufferToFill :: rest =>
    match t.audioPc with
    | .idle => some { t with audioPc := .testRecording }
    | .testRecording =>
      some { t with audioPc := if t.component.isRecording then .lock else .clear }
    | .lock =>
      if t.writerLock = none then
        some { t with writerLock := some .audio, audioPc := .testWriter }
      else none
    | .testWriter =>
      some { t with audioPc := if t.component.activeWriter ≠ none then .write else .level }
    | .write =>
      some { t with
        component := { t.component with
          threadedWriter :=
            writeActive t.component bufferToFill.buffer bufferToFill.numSamples },
        writeSteps := t.writeSteps + 1,
        audioPc := .addBlock }
    | .addBlock =>
      some { t with
        component :=
          if 0 ≤ t.component.currentRecordingIndex ∧
              t.component.currentRecordingIndex.toNat <
                t.component.recordingThumbnails.length then
            { t.component with recordingThumbnails :=
                (modifyAt (fun th => th.addBlock t.component.nextSampleNum bufferToFill.buffer
                    bufferToFill.startSample bufferToFill.numSamples)
                  t.component.recordingThumbnails t.component.currentRecordingIndex.toNat) }
          else t.component,
        audioPc := .advance }
    | .advance =>
      some { t with
        component := { t.component with
          nextSampleNum := wrapInt64 (t.component.nextSampleNum + bufferToFill.numSamples) },
        audioPc := .playhead }
    | .playhead =>
      some { t with
        component := { t.component with
          playheadPosition := (t.component.nextSampleNum : ℚ) / t.component.sampleRate },
        audioPc := .level }
    | .level =>
      some { t with
        component := { t.component with
          currentLevel :=
            sumAbs (bufferToFill.buffer.getReadPointer 0 bufferToFill.startSample)
              bufferToFill.numSamples / (bufferToFill.numSamples : ℚ) },
        audioPc := .unlock }
    | .unlock => some { t with writerLock := none, audioPc := .clear }
    | .clear => some { t with blocks := rest, audioPc := .idle }

/-- One step of the control thread in `stopRecording`; `none` when the thread cannot move
(the call has returned, or `writerLock` is held by the other thread). -/
def controlStep (t : Threads) : Option Threads :=
  match t.stopPc with
  | .testRecording =>
    some { t with stopPc := if t.component.isRecording then .clearFlag else .done }
  | .clearFlag =>
    some { t with component := { t.component with isRecording := false }, stopPc := .lock }
  | .lock =>
    if t.writerLock = none then
      some { t with writerLock := some .control, stopPc := .clearWriter }
    else none
  | .clearWriter =>
    some { t with
      component := { t.component with activeWriter := none },
      cleared := true,
      stopPc := .unlock }
  | .unlock => some { t with writerLock := none, stopPc := .resetWriter }
  | .resetWriter =>
    some { t with
      component := { t.component with
        threadedWriter := none,
        closedWriters := t.component.closedWriters ++ t.component.threadedWriter.toList },
      stopPc := .finish }
  | .finish => some { t with component := finishStop t.component, stopPc := .done }
  | .done => none

/-- One step of the chosen thread; a thread that cannot move leaves everything as it is. -/
def threadStep (t : Threads) : Thread → Threads
  | .audio => (audioStep t).getD t
  | .control => (controlStep t).getD t

/-- A schedule: the threads make their steps in the order of the list. -/
def schedule (t : Threads) (order : List Thread) : Threads :=
  order.foldl threadStep t

/-- The start: the audio thread is about to process `blocks`, the control thread is about to
call `stopRecording`, and `writerLock` is free. -/
def Threads.start (c : AudioRecorderComponent) (blocks : List AudioSourceChannelInfo) :
    Threads :=
  ⟨c, none, .idle, blocks, .testRecording, false, 0⟩

/-- The blocks handed to the writers so far, closed writers first. -/
def writtenBlocks (c : AudioRecorderComponent) : List (List (List (List ℚ))) :=
  (c.closedWriters ++ c.threadedWriter.toList).map fun w => w.received

/-- What the two threads keep true in every schedule: `writerLock` is held by the audio thread
exactly inside its locked block and by the control thread exactly around
`activeWriter = nullptr`; the audio thread is inside `if (activeWriter.load() != nullptr)` only
while the pointer is not null; and the pointer is null once `stopRecording` has cleared it. -/
structure LockInvariant (t : Threads) : Prop where
  audio : t.writerLock = some .audio ↔ t.audioPc.inCritical = true
  control : t.writerLock = some .control ↔ (t.stopPc = .clearWriter ∨ t.stopPc = .unlock)
  writing : t.audioPc.writing = true → t.component.activeWriter ≠ none
  cleared : t.cleared = true → t.component.activeWriter = none

end LZarins

/-! ## The single-take recorder (`Audio_recorder_DAW_K_E_Roke_part/Main.cpp`) -/

namespace KERoke

open Juce

/-- The members of `AudioRecorderComponent`, followed by the files on disk, the writers
already closed and the next free address. -/
structure AudioRecorderComponent where
  recordButtonEnabled : Bool
  stopButtonEnabled : Bool
  thumbnailCache : AudioThumbnailCache
  thumbnail : AudioThumbnail
  backgroundThreadRunning : Bool
  threadedWriter : Option ThreadedWriter
  lastRecording : File
  activeWriter : Option Nat
  isRecording : Bool
  sampleRate : ℚ
  currentLevel : ℚ
  nextSampleNum : Int
  playheadPosition : ℚ
  disk : List File
  closedWriters : List ThreadedWriter
  nextAddr : Nat
deriving DecidableEq, Repr

/-- The state left by the constructor and the member initialisers. -/
def AudioRecorderComponent.new : AudioRecorderComponent where
  recordButtonEnabled := true
  stopButtonEnabled := false
  thumbnailCache := ⟨0, 5⟩
  thumbnail := ⟨1, 2048, 0, 0, 0, [], none⟩
  backgroundThreadRunning := false
  threadedWriter := none
  lastRecording := ⟨[]⟩
  activeWriter := none
  isRecording := false
  sampleRate := 44100
  currentLevel := 0
  nextSampleNum := 0
  playheadPosition := 0
  disk := []
  closedWriters := []
  nextAddr := 2

/-- `prepareToPlay`. -/
def prepareToPlay (s : AudioRecorderComponent) (_samplesPerBlockExpected : Int)
    (sampleRate : ℚ) : AudioRecorderComponent :=
  { s with sampleRate := sampleRate }

/-- `activeWriter.load()->write(...)`: the write reaches the object the pointer names. -/
def writeActive (s : AudioRecorderComponent) (data : AudioBuffer) (numSamples : Int) :
    Option ThreadedWriter :=
  s.threadedWriter.map fun w =>
    if s.activeWriter = some w.addr then w.write data numSamples else w

/-- `getNextAudioBlock`: the new state of the component. -/
def getNextAudioBlock (s : AudioRecorderComponent) (bufferToFill : AudioSourceChannelInfo) :
    AudioRecorderComponent :=
  if s.isRecording then
    let s1 : AudioRecorderComponent :=
      if s.activeWriter ≠ none then
        let sw := { s with threadedWriter := writeActive s bufferToFill.buffer bufferToFill.numSamples }
        let st := { sw with thumbnail :=
          (sw.thumbnail.addBlock sw.nextSampleNum bufferToFill.buffer bufferToFill.startSample
            bufferToFill.numSamples) }
        let n := wrapInt64 (st.nextSampleNum + bufferToFill.numSamples)
        { st with nextSampleNum := n, playheadPosition := (n : ℚ) / st.sampleRate }
      else s
    let channelData := bufferToFill.buffer.getReadPointer 0 bufferToFill.startSample
    let sum := sumAbs channelData bufferToFill.numSamples
    { s1 with currentLevel := sum / (bufferToFill.numSamples : ℚ) }
  else s

/-- `startRecording` (the directory made by `createDirectory` is not tracked on `disk`). -/
def startRecording (s : AudioRecorderComponent) (env : StartEnv) : AudioRecorderComponent :=
  if !s.isRecording then
    let parentDir := env.userDocumentsDirectory
    let recordingsFolder := parentDir.getChildFile "JUCE_records"
    let sl := { s with lastRecording :=
      (recordingsFolder.getChildFile ("Recording_" ++ env.currentTime.formatted ++ ".wav")) }
    let s0 :=
      if sl.lastRecording ∈ sl.disk then { sl with disk := deleteFile sl.disk sl.lastRecording }
      else sl
    if env.streamCreated then
      let s1 := { s0 with disk := s0.lastRecording :: s0.disk }
      if env.writerCreated then
        let writer : AudioFormatWriter := ⟨s1.lastRecording, s1.sampleRate, 2, 16, [], 0⟩
        let s2 := { s1 with thumbnail := s1.thumbnail.reset 2 s1.sampleRate }
        let s3 := { s2 with nextSampleNum := 0, playheadPosition := 0 }
        let s4 := { s3 with backgroundThreadRunning := true }
        let s5 := { s4 with
          threadedWriter := some ⟨s4.nextAddr, writer, 32768, []⟩,
          closedWriters := s4.closedWriters ++ s4.threadedWriter.toList,
          nextAddr := s4.nextAddr + 1 }
        let s6 := { s5 with activeWriter := s5.threadedWriter.map fun (w : ThreadedWriter) => w.addr }
        { s6 with isRecording := true, recordButtonEnabled := false, stopButtonEnabled := true }
      else s1
    else s0
  else s

/-- `stopRecording`. -/
def stopRecording (s : AudioRecorderComponent) : AudioRecorderComponent :=
  if s.isRecording then
    let s1 := { s with isRecording := false }
    let s2 := { s1 with activeWriter := none }
    { s2 with
      threadedWriter := none,
      closedWriters := s2.closedWriters ++ s2.threadedWriter.toList }
  else s

/-- The calls the component receives from its environment. -/
inductive Op where
  | prepareToPlay (samplesPerBlockExpected : Int) (sampleRate : ℚ)
  | getNextAudioBlock (bufferToFill : AudioSourceChannelInfo)
  | startRecording (env : StartEnv)
  | stopRecording

/-- One call. -/
def step (s : AudioRecorderComponent) : Op → AudioRecorderComponent
  | .prepareToPlay n r => prepareToPlay s n r
  | .getNextAudioBlock b => getNextAudioBlock s b
  | .startRecording env => startRecording s env
  | .stopRecording => stopRecording s

/-- A sequence of calls. -/
def run (s : AudioRecorderComponent) (ops : List Op) : AudioRecorderComponent :=
  ops.foldl step s

/-- The states the component can be in. -/
def Reachable (s : AudioRecorderComponent) : Prop :=
  ∃ ops : List Op, run AudioRecorderComponent.new ops = s

/-- The blocks of a list delivered one after the other. -/
def deliver (s : AudioRecorderComponent) (blocks : List AudioSourceChannelInfo) :
    AudioRecorderComponent :=
  blocks.foldl getNextAudioBlock s

/-- The rate most recently passed to `prepareToPlay` in a sequence of calls, 44100 when it was
never called. -/
def lastPreparedRate (ops : List Op) : ℚ :=
  ops.foldl (fun rate op => match op with
    | .prepareToPlay _ sampleRate => sampleRate
    | _ => rate) 44100

/-- A click on one of the two buttons of the window. -/
inductive Click where
  | record (env : StartEnv)
  | stop

/-- One click: the `onClick` of a button runs only when the button is enabled. -/
def click (s : AudioRecorderComponent) : Click → AudioRecorderComponent
  | .record env => if s.recordButtonEnabled then startRecording s env else s
  | .stop => if s.stopButtonEnabled then stopRecording s else s

/-- A sequence of clicks. -/
def clicks (s : AudioRecorderComponent) (cs : List Click) : AudioRecorderComponent :=
  cs.foldl click s

/-- The states a sequence of clicks on Record and Stop leads to from the constructor. -/
def ReachableByClicks (s : AudioRecorderComponent) : Prop :=
  ∃ cs : List Click, clicks AudioRecorderComponent.new cs = s

end KERoke

/-! ## Example inputs -/

namespace Example

open Juce

/-- A stereo block of 512 frames of silence. -/
def block512 : AudioSourceChannelInfo :=
  ⟨⟨[List.replicate 512 0, List.replicate 512 0]⟩, 0, 512⟩

/-- Ten blocks of 512 frames. -/
def tenBlocks : List AudioSourceChannelInfo := List.replicate 10 block512

/-- A start at which the output stream and the WAV writer are created. -/
def startOk : StartEnv :=
  ⟨⟨["home", "Documents"]⟩, ⟨2024, 5, 17, 9, 30, 0, 0⟩, true, true⟩

/-- A start at which the output stream cannot be created. -/
def startNoStream : StartEnv :=
  ⟨⟨["home", "Documents"]⟩, ⟨2024, 5, 17, 9, 30, 0, 0⟩, false, true⟩

/-- The multi-take recorder configured at 44100 Hz and started. -/
def startedAt44100 : LZarins.AudioRecorderComponent :=
  LZarins.startRecording (LZarins.prepareToPlay LZarins.AudioRecorderComponent.new 512 44100)
    startOk

/-- The multi-take recorder configured at 44100 Hz, started, after nine blocks of 512 frames. -/
def afterNineBlocks : LZarins.AudioRecorderComponent :=
  LZarins.deliver startedAt44100 (List.replicate 9 block512)

/-- A successful start at second `sec` of 09:30 on 17 May 2024. -/
def startAt (sec : Nat) : StartEnv :=
  ⟨⟨["home", "Documents"]⟩, ⟨2024, 5, 17, 9, 30, sec, 0⟩, true, true⟩

/-- Six takes recorded one after the other, each started and stopped. -/
def sixTakesOps : List LZarins.Op :=
  [.startRecording (startAt 0), .stopRecording, .startRecording (startAt 1), .stopRecording,
   .startRecording (startAt 2), .stopRecording, .startRecording (startAt 3), .stopRecording,
   .startRecording (startAt 4), .stopRecording, .startRecording (startAt 5), .stopRecording]

/-- The multi-take recorder after `sixTakesOps`. -/
def sixTakes : LZarins.AudioRecorderComponent :=
  LZarins.run LZarins.AudioRecorderComponent.new sixTakesOps

/-- The multi-take recorder after one take was started and stopped. -/
def recordedOnce : LZarins.AudioRecorderComponent :=
  LZarins.run LZarins.AudioRecorderComponent.new [.startRecording startOk, .stopRecording]

/-- The single-take recorder started after construction. -/
def startedSingle : KERoke.AudioRecorderComponent :=
  KERoke.startRecording KERoke.AudioRecorderComponent.new startOk

/-- Six takes recorded, then the take at index 2 deleted (request and confirmation). -/
def fiveTakes : LZarins.AudioRecorderComponent :=
  LZarins.run LZarins.AudioRecorderComponent.new
    (sixTakesOps ++ [.deleteRecording 2, .answerDelete 0 1])

/-- A successful start half a second after `startAt 0`, within the same second. -/
def startAtHalf : StartEnv :=
  ⟨⟨["home", "Documents"]⟩, ⟨2024, 5, 17, 9, 30, 0, 500⟩, true, true⟩

/-- A take recorded and stopped, and a second take started within the same second. -/
def sameSecondTwice : LZarins.AudioRecorderComponent :=
  LZarins.run LZarins.AudioRecorderComponent.new
    [.startRecording (startAt 0), .stopRecording, .startRecording startAtHalf]

/-- The single-take recorder after a click on Record and a click on Stop. -/
def stoppedSingle : KERoke.AudioRecorderComponent :=
  KERoke.clicks KERoke.AudioRecorderComponent.new [.record startOk, .stop]

/-- Take 0 recorded and stopped, take 1 started, and take 0 deleted while take 1 is being
recorded: `currentRecordingIndex` is still 1 and the registry holds one take. -/
def staleIndex : LZarins.AudioRecorderComponent :=
  LZarins.run LZarins.AudioRecorderComponent.new
    [.startRecording (startAt 0), .stopRecording, .startRecording (startAt 1),
     .deleteRecording 0, .answerDelete 0 1]

/-- A state no sequence of calls leads to: one file and no thumbnail, recording index 0. -/
def noThumbnail : LZarins.AudioRecorderComponent :=
  { LZarins.AudioRecorderComponent.new with
    isRecording := true,
    currentRecordingIndex := 0,
    recordingFiles := [⟨["home", "a.wav"]⟩],
    disk := [⟨["home", "a.wav"]⟩] }

/-- A schedule for two blocks: the audio thread reads `isRecording` for the first block, the
control thread then sets `isRecording = false`, the audio thread finishes the first block, and
the control thread takes the lock and clears `activeWriter`. -/
def stopDuringFirstBlock : List LZarins.Thread :=
  [.audio, .audio, .control, .control] ++ List.replicate 9 .audio ++ [.control, .control]

/-- The rest of the schedule: the audio thread processes the second block and the control
thread finishes `stopRecording`. -/
def secondBlockAfterClear : List LZarins.Thread :=
  List.replicate 11 .audio ++ List.replicate 3 .control

/-- The two threads at the start, on a recorder recording its first take and two blocks of
512 frames to come. -/
def recordingThreads : LZarins.Threads :=
  LZarins.Threads.start startedAt44100 [block512, block512]

/-- A block of three frames on two channels, read from frame 1. -/
def block3 : AudioSourceChannelInfo :=
  ⟨⟨[[9, 1, -2, 3, 7], [5, 5, 5, 5, 5]]⟩, 1, 3⟩

end Example

/-! ## Auxiliary facts -/

namespace Juce

theorem wrapInt64_of_fits (x : Int) (h : -2 ^ 63 ≤ x ∧ x < 2 ^ 63) : wrapInt64 x = x := by
  unfold wrapInt64
  rw [Int.emod_eq_of_lt (by omega) (by omega)]
  omega

theorem wrapInt64_fits (x : Int) : -2 ^ 63 ≤ wrapInt64 x ∧ wrapInt64 x < 2 ^ 63 := by
  unfold wrapInt64
  have h1 := Int.emod_nonneg (x + 2 ^ 63) (by norm_num : (2 : Int) ^ 64 ≠ 0)
  have h2 := Int.emod_lt_of_pos (x + 2 ^ 63) (by norm_num : (0 : Int) < 2 ^ 64)
  omega

theorem wrapInt64_add_wrap (a b : Int) : wrapInt64 (wrapInt64 a + b) = wrapInt64 (a + b) := by
  unfold wrapInt64
  have h : (a + 2 ^ 63) % 2 ^ 64 - 2 ^ 63 + b + 2 ^ 63 = (a + 2 ^ 63) % 2 ^ 64 + b := by ring
  rw [h, Int.emod_add_emod]
  congr 2
  ring

theorem length_modifyAt {α : Type} (f : α → α) (xs : List α) (i : Nat) :
    (modifyAt f xs i).length = xs.length := by
  induction xs generalizing i with
  | nil => rfl
  | cons x xs ih =>
    cases i with
    | zero => rfl
    | succ n => simp [modifyAt, ih]

end Juce

namespace LZarins

open Juce

theorem getNextAudioBlock_isRecording (s : AudioRecorderComponent) (b : AudioSourceChannelInfo) :
    (getNextAudioBlock s b).isRecording = s.isRecording := by
  unfold getNextAudioBlock
  dsimp only
  split_ifs <;> rfl

theorem getNextAudioBlock_activeWriter (s : AudioRecorderComponent) (b : AudioSourceChannelInfo) :
    (getNextAudioBlock s b).activeWriter = s.activeWriter := by
  unfold getNextAudioBlock
  dsimp only
  split_ifs <;> rfl

theorem getNextAudioBlock_sampleRate (s : AudioRecorderComponent) (b : AudioSourceChannelInfo) :
    (getNextAudioBlock s b).sampleRate = s.sampleRate := by
  unfold getNextAudioBlock
  dsimp only
  split_ifs <;> rfl

theorem getNextAudioBlock_nextSampleNum (s : AudioRecorderComponent) (b : AudioSourceChannelInfo)
    (hrec : s.isRecording = true) (hw : s.activeWriter ≠ none) :
    (getNextAudioBlock s b).nextSampleNum = wrapInt64 (s.nextSampleNum + b.numSamples) := by
  unfold getNextAudioBlock
  dsimp only
  rw [if_pos hrec, if_pos hw]
  split_ifs <;> rfl

theorem getNextAudioBlock_playheadPosition (s : AudioRecorderComponent)
    (b : AudioSourceChannelInfo) (hrec : s.isRecording = true) (hw : s.activeWriter ≠ none) :
    (getNextAudioBlock s b).playheadPosition =
      ((getNextAudioBlock s b).nextSampleNum : ℚ) / s.sampleRate := by
  unfold getNextAudioBlock
  dsimp only
  rw [if_pos hrec, if_pos hw]
  split_ifs <;> rfl

theorem deliver_isRecording (s : AudioRecorderComponent) (blocks : List AudioSourceChannelInfo) :
    (deliver s blocks).isRecording = s.isRecording := by
  induction blocks generalizing s with
  | nil => rfl
  | cons b bs ih =>
    show (deliver (getNextAudioBlock s b) bs).isRecording = _
    rw [ih, getNextAudioBlock_isRecording]

theorem deliver_activeWriter (s : AudioRecorderComponent) (blocks : List AudioSourceChannelInfo) :
    (deliver s blocks).activeWriter = s.activeWriter := by
  induction blocks generalizing s with
  | nil => rfl
  | cons b bs ih =>
    show (deliver (getNextAudioBlock s b) bs).activeWriter = _
    rw [ih, getNextAudioBlock_activeWriter]

theorem deliver_sampleRate (s : AudioRecorderComponent) (blocks : List AudioSourceChannelInfo) :
    (deliver s blocks).sampleRate = s.sampleRate := by
  induction blocks generalizing s with
  | nil => rfl
  | cons b bs ih =>
    show (deliver (getNextAudioBlock s b) bs).sampleRate = _
    rw [ih, getNextAudioBlock_sampleRate]

theorem deliver_nextSampleNum (s : AudioRecorderComponent) (blocks : List AudioSourceChannelInfo)
    (hrec : s.isRecording = true) (hw : s.activeWriter ≠ none)
    (hfit : -2 ^ 63 ≤ s.nextSampleNum ∧ s.nextSampleNum < 2 ^ 63) :
    (deliver s blocks).nextSampleNum =
      wrapInt64 (s.nextSampleNum + (blocks.map fun b => b.numSamples).sum) := by
  induction blocks generalizing s with
  | nil =>
    show s.nextSampleNum = _
    rw [List.map_nil, List.sum_nil, add_zero, wrapInt64_of_fits _ hfit]
  | cons b bs ih =>
    show (deliver (getNextAudioBlock s b) bs).nextSampleNum = _
    rw [ih _ (by rw [getNextAudioBlock_isRecording, hrec])
      (by rw [getNextAudioBlock_activeWriter]; exact hw)
      (by rw [getNextAudioBlock_nextSampleNum s b hrec hw]; exact wrapInt64_fits _),
      getNextAudioBlock_nextSampleNum s b hrec hw, List.map_cons, List.sum_cons,
      wrapInt64_add_wrap, add_assoc]

theorem startRecording_started (s : AudioRecorderComponent) (env : StartEnv)
    (h0 : s.isRecording = false) (h1 : (startRecording s env).isRecording = true) :
    (startRecording s env).nextSampleNum = 0 ∧ (startRecording s env).activeWriter ≠ none := by
  unfold startRecording at h1 ⊢
  dsimp only at h1 ⊢
  split_ifs at h1 ⊢ <;> simp_all

end LZarins

namespace KERoke

open Juce

theorem getNextAudioBlock_isRecording_single (s : AudioRecorderComponent) (b : AudioSourceChannelInfo) :
    (getNextAudioBlock s b).isRecording = s.isRecording := by
  unfold getNextAudioBlock
  dsimp only
  split_ifs <;> rfl

theorem getNextAudioBlock_activeWriter_single (s : AudioRecorderComponent) (b : AudioSourceChannelInfo) :
    (getNextAudioBlock s b).activeWriter = s.activeWriter := by
  unfold getNextAudioBlock
  dsimp only
  split_ifs <;> rfl

theorem getNextAudioBlock_sampleRate_single (s : AudioRecorderComponent) (b : AudioSourceChannelInfo) :
    (getNextAudioBlock s b).sampleRate = s.sampleRate := by
  unfold getNextAudioBlock
  dsimp only
  split_ifs <;> rfl

theorem getNextAudioBlock_nextSampleNum_single (s : AudioRecorderComponent) (b : AudioSourceChannelInfo)
    (hrec : s.isRecording = true) (hw : s.activeWriter ≠ none) :
    (getNextAudioBlock s b).nextSampleNum = wrapInt64 (s.nextSampleNum + b.numSamples) := by
  unfold getNextAudioBlock
  dsimp only
  rw [if_pos hrec, if_pos hw]

theorem getNextAudioBlock_playheadPosition_single (s : AudioRecorderComponent)
    (b : AudioSourceChannelInfo) (hrec : s.isRecording = true) (hw : s.activeWriter ≠ none) :
    (getNextAudioBlock s b).playheadPosition =
      ((getNextAudioBlock s b).nextSampleNum : ℚ) / s.sampleRate := by
  unfold getNextAudioBlock
  dsimp only
  rw [if_pos hrec, if_pos hw]

theorem deliver_isRecording_single (s : AudioRecorderComponent) (blocks : List AudioSourceChannelInfo) :
    (deliver s blocks).isRecording = s.isRecording := by
  induction blocks generalizing s with
  | nil => rfl
  | cons b bs ih =>
    show (deliver (getNextAudioBlock s b) bs).isRecording = _
    rw [ih, getNextAudioBlock_isRecording_single]

theorem deliver_activeWriter_single (s : AudioRecorderComponent) (blocks : List AudioSourceChannelInfo) :
    (deliver s blocks).activeWriter = s.activeWriter := by
  induction blocks generalizing s with
  | nil => rfl
  | cons b bs ih =>
    show (deliver (getNextAudioBlock s b) bs).activeWriter = _
    rw [ih, getNextAudioBlock_activeWriter_single]

theorem deliver_sampleRate_single (s : AudioRecorderComponent) (blocks : List AudioSourceChannelInfo) :
    (deliver s blocks).sampleRate = s.sampleRate := by
  induction blocks generalizing s with
  | nil => rfl
  | cons b bs ih =>
    show (deliver (getNextAudioBlock s b) bs).sampleRate = _
    rw [ih, getNextAudioBlock_sampleRate_single]

theorem deliver_nextSampleNum_single (s : AudioRecorderComponent) (blocks : List AudioSourceChannelInfo)
    (hrec : s.isRecording = true) (hw : s.activeWriter ≠ none)
    (hfit : -2 ^ 63 ≤ s.nextSampleNum ∧ s.nextSampleNum < 2 ^ 63) :
    (deliver s blocks).nextSampleNum =
      wrapInt64 (s.nextSampleNum + (blocks.map fun b => b.numSamples).sum) := by
  induction blocks generalizing s with
  | nil =>
    show s.nextSampleNum = _
    rw [List.map_nil, List.sum_nil, add_zero, wrapInt64_of_fits _ hfit]
  | cons b bs ih =>
    show (deliver (getNextAudioBlock s b) bs).nextSampleNum = _
    rw [ih _ (by rw [getNextAudioBlock_isRecording_single, hrec])
      (by rw [getNextAudioBlock_activeWriter_single]; exact hw)
      (by rw [getNextAudioBlock_nextSampleNum_single s b hrec hw]; exact wrapInt64_fits _),
      getNextAudioBlock_nextSampleNum_single s b hrec hw, List.map_cons, List.sum_cons,
      wrapInt64_add_wrap, add_assoc]

theorem startRecording_started_single (s : AudioRecorderComponent) (env : StartEnv)
    (h0 : s.isRecording = false) (h1 : (startRecording s env).isRecording = true) :
    (startRecording s env).nextSampleNum = 0 ∧ (startRecording s env).activeWriter ≠ none := by
  unfold startRecording at h1 ⊢
  dsimp only at h1 ⊢
  split_ifs at h1 ⊢ <;> simp_all

end KERoke

namespace Juce

theorem sumAbs_eq_sum (channelData : Int → ℚ) (numSamples : Int) :
    sumAbs channelData numSamples =
      ∑ i in Finset.range numSamples.toNat, |channelData (i : Int)| := by
  unfold sumAbs
  induction numSamples.toNat with
  | zero => simp
  | succ n ih => rw [List.range_succ, List.foldl_append, ih, Finset.sum_range_succ]; rfl

end Juce

namespace LZarins

open Juce

theorem getNextAudioBlock_currentLevel (s : AudioRecorderComponent) (b : AudioSourceChannelInfo)
    (hrec : s.isRecording = true) :
    (getNextAudioBlock s b).currentLevel =
      sumAbs (b.buffer.getReadPointer 0 b.startSample) b.numSamples / (b.numSamples : ℚ) := by
  unfold getNextAudioBlock
  dsimp only
  rw [if_pos hrec]

end LZarins

namespace KERoke

open Juce

theorem getNextAudioBlock_currentLevel_single (s : AudioRecorderComponent)
    (b : AudioSourceChannelInfo) (hrec : s.isRecording = true) :
    (getNextAudioBlock s b).currentLevel =
      sumAbs (b.buffer.getReadPointer 0 b.startSample) b.numSamples / (b.numSamples : ℚ) := by
  unfold getNextAudioBlock
  dsimp only
  rw [if_pos hrec]

end KERoke

namespace LZarins

open Juce

theorem getNextAudioBlock_thumbnails_length (s : AudioRecorderComponent)
    (b : AudioSourceChannelInfo) :
    (getNextAudioBlock s b).recordingThumbnails.length = s.recordingThumbnails.length := by
  unfold getNextAudioBlock
  dsimp only
  split_ifs <;> first | rfl | simp [length_modifyAt]

theorem startRecording_thumbnails_length_le (s : AudioRecorderComponent) (env : StartEnv)
    (h : s.recordingThumbnails.length ≤ 6) :
    (startRecording s env).recordingThumbnails.length ≤ 6 := by
  unfold startRecording
  dsimp only
  split_ifs <;> first | exact h | (simp; omega)

theorem stopRecording_thumbnails_length (s : AudioRecorderComponent) :
    (stopRecording s).recordingThumbnails.length = s.recordingThumbnails.length := by
  unfold stopRecording showSaveDialog
  dsimp only
  split_ifs <;> first | rfl | simp [length_modifyAt]

theorem deleteRecording_thumbnails (s : AudioRecorderComponent) (index : Int) :
    (deleteRecording s index).recordingThumbnails = s.recordingThumbnails := by
  unfold deleteRecording
  split_ifs <;> rfl

theorem deleteTrackAt_thumbnails (s : AudioRecorderComponent) (i : Nat) :
    (deleteTrackAt s i).recordingThumbnails = s.recordingThumbnails := by
  unfold deleteTrackAt
  split <;> rfl

theorem deleteCacheAt_thumbnails (s : AudioRecorderComponent) (i : Nat) :
    (deleteCacheAt s i).recordingThumbnails = s.recordingThumbnails := by
  unfold deleteCacheAt
  split_ifs <;> rfl

theorem deleteFileAt_thumbnails (s : AudioRecorderComponent) (i : Nat) :
    (deleteFileAt s i).recordingThumbnails = s.recordingThumbnails := by
  unfold deleteFileAt
  split <;> rfl

theorem deleteThumbnailAt_thumbnails (s : AudioRecorderComponent) (i : Nat) :
    (deleteThumbnailAt s i).recordingThumbnails = s.recordingThumbnails.eraseIdx i := by
  unfold deleteThumbnailAt
  split_ifs with h
  · rfl
  · exact (List.eraseIdx_of_length_le (not_lt.mp h)).symm

theorem deleteRecordingCallback_thumbnails (s : AudioRecorderComponent) (index : Int) :
    (deleteRecordingCallback s index 1).recordingThumbnails =
      s.recordingThumbnails.eraseIdx (toSizeT index) := by
  unfold deleteRecordingCallback
  rw [if_pos rfl]
  show (deleteFileAt _ _).recordingThumbnails = _
  rw [deleteFileAt_thumbnails, deleteCacheAt_thumbnails, deleteThumbnailAt_thumbnails,
    deleteTrackAt_thumbnails]

theorem deleteRecordingCallback_thumbnails_length_le (s : AudioRecorderComponent)
    (index result : Int) :
    (deleteRecordingCallback s index result).recordingThumbnails.length ≤
      s.recordingThumbnails.length := by
  by_cases h : result = 1
  · subst h
    rw [deleteRecordingCallback_thumbnails, List.length_eraseIdx]
    split_ifs <;> omega
  · unfold deleteRecordingCallback
    rw [if_neg h]

theorem answerDelete_thumbnails_length_le (s : AudioRecorderComponent) (k : Nat)
    (result : Int) :
    (answerDelete s k result).recordingThumbnails.length ≤ s.recordingThumbnails.length := by
  unfold answerDelete
  split
  · exact deleteRecordingCallback_thumbnails_length_le _ _ _
  · exact le_rfl

theorem step_thumbnails_length_le (s : AudioRecorderComponent) (op : Op)
    (h : s.recordingThumbnails.length ≤ 6) : (step s op).recordingThumbnails.length ≤ 6 := by
  cases op with
  | prepareToPlay n r => exact h
  | getNextAudioBlock b =>
    show (getNextAudioBlock s b).recordingThumbnails.length ≤ 6
    rw [getNextAudioBlock_thumbnails_length]; exact h
  | timerCallback => exact h
  | startRecording env => exact startRecording_thumbnails_length_le s env h
  | stopRecording =>
    show (stopRecording s).recordingThumbnails.length ≤ 6
    rw [stopRecording_thumbnails_length]; exact h
  | deleteRecording i =>
    show (deleteRecording s i).recordingThumbnails.length ≤ 6
    rw [deleteRecording_thumbnails]; exact h
  | answerDelete k r => exact le_trans (answerDelete_thumbnails_length_le s k r) h

theorem run_thumbnails_length_le (s : AudioRecorderComponent) (ops : List Op)
    (h : s.recordingThumbnails.length ≤ 6) : (run s ops).recordingThumbnails.length ≤ 6 := by
  induction ops generalizing s with
  | nil => exact h
  | cons op ops ih => exact ih (step s op) (step_thumbnails_length_le s op h)

end LZarins

namespace LZarins

open Juce

theorem startRecording_success (s : AudioRecorderComponent) (env : StartEnv)
    (hlen : s.recordingThumbnails.length < 6) (hrec : s.isRecording = false)
    (hs : env.streamCreated = true) (hw : env.writerCreated = true) :
    (startRecording s env).isRecording = true ∧
    (startRecording s env).nextSampleNum = 0 ∧
    (startRecording s env).playheadPosition = 0 ∧
    (startRecording s env).activeWriter = some (s.nextAddr + 3) ∧
    (startRecording s env).threadedWriter =
      some ⟨s.nextAddr + 3, ⟨newRecordingFile env, s.sampleRate, 2, 16, [], 0⟩, 32768, []⟩ ∧
    (startRecording s env).currentRecordingIndex = (s.recordingThumbnails.length : Int) ∧
    (startRecording s env).recordingThumbnails =
      s.recordingThumbnails ++ [⟨s.nextAddr + 1, 2048, s.nextAddr, 2, s.sampleRate, [], none⟩] ∧
    (startRecording s env).recordingCaches = s.recordingCaches ++ [⟨s.nextAddr, 5⟩] ∧
    (startRecording s env).recordingFiles = s.recordingFiles ++ [newRecordingFile env] ∧
    (startRecording s env).recordingsContainer.tracks =
      s.recordingsContainer.tracks ++
        [RecordingTrack.new (s.nextAddr + 2) (s.recordingThumbnails.length : Int)] := by
  unfold startRecording
  dsimp only
  rw [if_neg (by omega), hrec, hs, hw]
  simp only [Bool.not_false, if_true]
  split_ifs <;>
    simp [AudioThumbnail.reset, RecordingsContainer.addRecordingTrack, newRecordingFile]

end LZarins

namespace Juce

theorem toSizeT_of_nonneg (x : Int) (h0 : 0 ≤ x) (h1 : x < 2 ^ 64) : toSizeT x = x.toNat := by
  unfold toSizeT
  rw [Int.emod_eq_of_lt h0 h1]

end Juce

namespace LZarins

open Juce

theorem length_eraseFirstTrack (a : Nat) (ts : List RecordingTrack)
    (h : ∃ t ∈ ts, t.addr = a) : (eraseFirstTrack a ts).length + 1 = ts.length := by
  induction ts with
  | nil => simp at h
  | cons t ts ih =>
    unfold eraseFirstTrack
    split_ifs with hta
    · rfl
    · obtain ⟨u, hu, hua⟩ := h
      rcases List.mem_cons.mp hu with rfl | hu
      · exact absurd hua hta
      · rw [List.length_cons, ih ⟨u, hu, hua⟩, List.length_cons]

theorem length_reindexFrom (i : Nat) (ts : List RecordingTrack) :
    (reindexFrom i ts).length = ts.length := by
  induction ts generalizing i with
  | nil => rfl
  | cons t ts ih => simp [reindexFrom, ih]

theorem deleteTrackAt_tracks_length (s : AudioRecorderComponent) (i : Nat)
    (h : i < s.recordingsContainer.tracks.length) :
    (deleteTrackAt s i).recordingsContainer.tracks.length + 1 =
      s.recordingsContainer.tracks.length := by
  unfold deleteTrackAt
  rw [List.get?_eq_get h]
  exact length_eraseFirstTrack _ _ ⟨_, List.get_mem _ _ _, rfl⟩

theorem deleteThumbnailAt_other (s : AudioRecorderComponent) (i : Nat) :
    (deleteThumbnailAt s i).recordingsContainer = s.recordingsContainer ∧
    (deleteThumbnailAt s i).recordingCaches = s.recordingCaches ∧
    (deleteThumbnailAt s i).recordingFiles = s.recordingFiles ∧
    (deleteThumbnailAt s i).isRecording = s.isRecording := by
  unfold deleteThumbnailAt
  split_ifs <;> exact ⟨rfl, rfl, rfl, rfl⟩

theorem deleteTrackAt_other (s : AudioRecorderComponent) (i : Nat) :
    (deleteTrackAt s i).recordingCaches = s.recordingCaches ∧
    (deleteTrackAt s i).recordingFiles = s.recordingFiles ∧
    (deleteTrackAt s i).isRecording = s.isRecording := by
  unfold deleteTrackAt
  split <;> exact ⟨rfl, rfl, rfl⟩

theorem deleteCacheAt_other (s : AudioRecorderComponent) (i : Nat) :
    (deleteCacheAt s i).recordingsContainer = s.recordingsContainer ∧
    (deleteCacheAt s i).recordingFiles = s.recordingFiles ∧
    (deleteCacheAt s i).isRecording = s.isRecording := by
  unfold deleteCacheAt
  split_ifs <;> exact ⟨rfl, rfl, rfl⟩

theorem deleteCacheAt_caches (s : AudioRecorderComponent) (i : Nat) :
    (deleteCacheAt s i).recordingCaches = s.recordingCaches.eraseIdx i := by
  unfold deleteCacheAt
  split_ifs with h
  · rfl
  · exact (List.eraseIdx_of_length_le (not_lt.mp h)).symm

theorem deleteFileAt_other (s : AudioRecorderComponent) (i : Nat) :
    (deleteFileAt s i).recordingsContainer = s.recordingsContainer ∧
    (deleteFileAt s i).recordingCaches = s.recordingCaches ∧
    (deleteFileAt s i).isRecording = s.isRecording := by
  unfold deleteFileAt
  split <;> exact ⟨rfl, rfl, rfl⟩

theorem deleteFileAt_files (s : AudioRecorderComponent) (i : Nat) :
    (deleteFileAt s i).recordingFiles = s.recordingFiles.eraseIdx i := by
  unfold deleteFileAt
  split
  · rfl
  · next h => exact (List.eraseIdx_of_length_le (List.get?_eq_none.mp h)).symm

theorem deleteRecordingCallback_yes (s : AudioRecorderComponent) (index : Int) :
    (deleteRecordingCallback s index 1).recordingCaches =
      s.recordingCaches.eraseIdx (toSizeT index) ∧
    (deleteRecordingCallback s index 1).recordingFiles =
      s.recordingFiles.eraseIdx (toSizeT index) ∧
    (deleteRecordingCallback s index 1).isRecording = s.isRecording ∧
    (deleteRecordingCallback s index 1).recordingsContainer.tracks =
      reindexFrom 0 (deleteTrackAt s (toSizeT index)).recordingsContainer.tracks := by
  unfold deleteRecordingCallback
  rw [if_pos rfl]
  dsimp only [reindexTracks]
  rw [(deleteFileAt_other _ _).2.1, deleteFileAt_files, (deleteFileAt_other _ _).2.2,
    (deleteFileAt_other _ _).1, deleteCacheAt_caches, (deleteCacheAt_other _ _).2.1,
    (deleteCacheAt_other _ _).2.2, (deleteCacheAt_other _ _).1,
    (deleteThumbnailAt_other _ _).2.1, (deleteThumbnailAt_other _ _).2.2.1,
    (deleteThumbnailAt_other _ _).2.2.2, (deleteThumbnailAt_other _ _).1,
    (deleteTrackAt_other _ _).1, (deleteTrackAt_other _ _).2.1, (deleteTrackAt_other _ _).2.2]
  exact ⟨rfl, rfl, rfl, rfl⟩

theorem confirmedDelete_eq (s : AudioRecorderComponent) (index : Int) (h0 : 0 ≤ index)
    (h1 : toSizeT index < s.recordingsContainer.tracks.length) :
    confirmedDelete s index =
      deleteRecordingCallback { s with alerts := s.alerts ++ [Alert.deleteRecording index] }
        index 1 := by
  have hd : deleteRecording s index =
      { s with
        alerts := s.alerts ++ [Alert.deleteRecording index],
        pendingDeletes := s.pendingDeletes ++ [index] } := by
    unfold deleteRecording
    rw [if_neg (by omega), if_neg (by omega)]
  unfold confirmedDelete
  dsimp only
  rw [hd]
  simp [answerDelete, List.eraseIdx_append_of_length_le]

end LZarins

namespace LZarins

open Juce

theorem stopRecording_isRecording (s : AudioRecorderComponent) :
    (stopRecording s).isRecording = false := by
  unfold stopRecording showSaveDialog
  dsimp only
  split_ifs <;> simp_all

theorem stopRecording_of_not_recording (s : AudioRecorderComponent)
    (h : s.isRecording = false) : stopRecording s = s := by
  unfold stopRecording
  rw [h]
  rfl

end LZarins

namespace KERoke

open Juce

theorem startRecording_success_single (s : AudioRecorderComponent) (env : StartEnv)
    (hrec : s.isRecording = false) (hs : env.streamCreated = true)
    (hw : env.writerCreated = true) :
    (startRecording s env).isRecording = true ∧
    (startRecording s env).nextSampleNum = 0 ∧
    (startRecording s env).playheadPosition = 0 ∧
    (startRecording s env).activeWriter = some s.nextAddr ∧
    (startRecording s env).threadedWriter =
      some ⟨s.nextAddr, ⟨(startRecording s env).lastRecording, s.sampleRate, 2, 16, [], 0⟩,
        32768, []⟩ := by
  unfold startRecording
  dsimp only
  rw [hrec, hs, hw]
  simp only [Bool.not_false, if_true]
  split_ifs <;> simp

theorem stopRecording_isRecording_single (s : AudioRecorderComponent) :
    (stopRecording s).isRecording = false := by
  unfold stopRecording
  dsimp only
  split_ifs <;> simp_all

theorem stopRecording_of_not_recording_single (s : AudioRecorderComponent)
    (h : s.isRecording = false) : stopRecording s = s := by
  unfold stopRecording
  rw [h]
  rfl

end KERoke

namespace LZarins

open Juce

theorem startRecording_failure (s : AudioRecorderComponent) (env : StartEnv)
    (h : env.streamCreated = false ∨ env.writerCreated = false) :
    (startRecording s env).isRecording = s.isRecording ∧
    (startRecording s env).activeWriter = s.activeWriter ∧
    (startRecording s env).threadedWriter = s.threadedWriter ∧
    (startRecording s env).recordingThumbnails = s.recordingThumbnails ∧
    (startRecording s env).recordingCaches = s.recordingCaches ∧
    (startRecording s env).recordingFiles = s.recordingFiles ∧
    (startRecording s env).recordingsContainer = s.recordingsContainer ∧
    (startRecording s env).currentRecordingIndex = s.currentRecordingIndex ∧
    (startRecording s env).nextSampleNum = s.nextSampleNum ∧
    (startRecording s env).playheadPosition = s.playheadPosition := by
  unfold startRecording
  dsimp only
  rcases h with h | h
  · rw [h]
    split_ifs <;> simp_all
  · rw [h]
    split_ifs <;> simp_all

end LZarins

namespace LZarins

open Juce

theorem getNextAudioBlock_of_not_recording (s : AudioRecorderComponent)
    (b : AudioSourceChannelInfo) (h : s.isRecording = false) : getNextAudioBlock s b = s := by
  unfold getNextAudioBlock
  rw [h]
  rfl

theorem deliver_of_not_recording (s : AudioRecorderComponent)
    (blocks : List AudioSourceChannelInfo) (h : s.isRecording = false) :
    deliver s blocks = s := by
  induction blocks with
  | nil => rfl
  | cons b bs ih =>
    show deliver (getNextAudioBlock s b) bs = s
    rw [getNextAudioBlock_of_not_recording s b h, ih]

theorem stopRecording_writers (s : AudioRecorderComponent) (h : s.isRecording = true) :
    (stopRecording s).activeWriter = none ∧ (stopRecording s).threadedWriter = none := by
  unfold stopRecording showSaveDialog
  dsimp only
  rw [if_pos h]
  split_ifs <;> exact ⟨rfl, rfl⟩

end LZarins

namespace KERoke

open Juce

theorem getNextAudioBlock_of_not_recording_single (s : AudioRecorderComponent)
    (b : AudioSourceChannelInfo) (h : s.isRecording = false) : getNextAudioBlock s b = s := by
  unfold getNextAudioBlock
  rw [h]
  rfl

theorem deliver_of_not_recording_single (s : AudioRecorderComponent)
    (blocks : List AudioSourceChannelInfo) (h : s.isRecording = false) :
    deliver s blocks = s := by
  induction blocks with
  | nil => rfl
  | cons b bs ih =>
    show deliver (getNextAudioBlock s b) bs = s
    rw [getNextAudioBlock_of_not_recording_single s b h, ih]

theorem stopRecording_writers_single (s : AudioRecorderComponent) (h : s.isRecording = true) :
    (stopRecording s).activeWriter = none ∧ (stopRecording s).threadedWriter = none := by
  unfold stopRecording
  dsimp only
  rw [if_pos h]
  exact ⟨rfl, rfl⟩

end KERoke

namespace LZarins

open Juce

theorem startRecording_sampleRate (s : AudioRecorderComponent) (env : StartEnv) :
    (startRecording s env).sampleRate = s.sampleRate := by
  unfold startRecording
  dsimp only
  split_ifs <;> rfl

theorem stopRecording_sampleRate (s : AudioRecorderComponent) :
    (stopRecording s).sampleRate = s.sampleRate := by
  unfold stopRecording showSaveDialog
  dsimp only
  split_ifs <;> rfl

theorem deleteRecording_sampleRate (s : AudioRecorderComponent) (index : Int) :
    (deleteRecording s index).sampleRate = s.sampleRate := by
  unfold deleteRecording
  split_ifs <;> rfl

theorem deleteRecordingCallback_sampleRate (s : AudioRecorderComponent) (index result : Int) :
    (deleteRecordingCallback s index result).sampleRate = s.sampleRate := by
  unfold deleteRecordingCallback reindexTracks deleteFileAt deleteCacheAt deleteThumbnailAt
    deleteTrackAt
  dsimp only
  split_ifs <;> (repeat' split) <;> rfl

theorem answerDelete_sampleRate (s : AudioRecorderComponent) (k : Nat) (result : Int) :
    (answerDelete s k result).sampleRate = s.sampleRate := by
  unfold answerDelete
  split
  · rw [deleteRecordingCallback_sampleRate]
  · rfl

theorem run_sampleRate (s : AudioRecorderComponent) (ops : List Op) :
    (run s ops).sampleRate =
      ops.foldl (fun rate op => match op with
        | .prepareToPlay _ sampleRate => sampleRate
        | _ => rate) s.sampleRate := by
  induction ops generalizing s with
  | nil => rfl
  | cons op ops ih =>
    show (run (step s op) ops).sampleRate = _
    rw [ih, List.foldl_cons]
    congr 1
    cases op with
    | prepareToPlay n r => rfl
    | getNextAudioBlock b => exact getNextAudioBlock_sampleRate s b
    | timerCallback => rfl
    | startRecording env => exact startRecording_sampleRate s env
    | stopRecording => exact stopRecording_sampleRate s
    | deleteRecording i => exact deleteRecording_sampleRate s i
    | answerDelete k r => exact answerDelete_sampleRate s k r

end LZarins

namespace KERoke

open Juce

theorem startRecording_sampleRate_single (s : AudioRecorderComponent) (env : StartEnv) :
    (startRecording s env).sampleRate = s.sampleRate := by
  unfold startRecording
  dsimp only
  split_ifs <;> rfl

theorem stopRecording_sampleRate_single (s : AudioRecorderComponent) :
    (stopRecording s).sampleRate = s.sampleRate := by
  unfold stopRecording
  dsimp only
  split_ifs <;> rfl

theorem run_sampleRate_single (s : AudioRecorderComponent) (ops : List Op) :
    (run s ops).sampleRate =
      ops.foldl (fun rate op => match op with
        | .prepareToPlay _ sampleRate => sampleRate
        | _ => rate) s.sampleRate := by
  induction ops generalizing s with
  | nil => rfl
  | cons op ops ih =>
    show (run (step s op) ops).sampleRate = _
    rw [ih, List.foldl_cons]
    congr 1
    cases op with
    | prepareToPlay n r => rfl
    | getNextAudioBlock b => exact getNextAudioBlock_sampleRate_single s b
    | startRecording env => exact startRecording_sampleRate_single s env
    | stopRecording => exact stopRecording_sampleRate_single s

end KERoke

namespace LZarins

open Juce

theorem map_eraseIdx {α β : Type} (f : α → β) (xs : List α) (i : Nat) :
    (xs.eraseIdx i).map f = (xs.map f).eraseIdx i := by
  induction xs generalizing i with
  | nil => rfl
  | cons x xs ih =>
    cases i with
    | zero => rfl
    | succ n => simp [List.eraseIdx, ih]

theorem removedAt_eraseIdx {α : Type} (i : Nat) (xs : List α) (h : i < xs.length) :
    RemovedAt i xs (xs.eraseIdx i) := by
  refine ⟨?_, fun j hj => ?_, fun j hj => ?_⟩
  · rw [List.length_eraseIdx, if_pos h]
    omega
  · simp only [List.get?_eq_getElem?]
    exact List.getElem?_eraseIdx_of_lt xs i j hj
  · simp only [List.get?_eq_getElem?]
    exact List.getElem?_eraseIdx_of_ge xs i j hj

theorem map_addr_reindexFrom (k : Nat) (ts : List RecordingTrack) :
    (reindexFrom k ts).map (fun t => t.addr) = ts.map fun t => t.addr := by
  induction ts generalizing k with
  | nil => rfl
  | cons t ts ih => simp [reindexFrom, RecordingTrack.setTrackIndex, ih]

theorem reindexFrom_get? (k : Nat) (ts : List RecordingTrack) (i : Nat) (t : RecordingTrack)
    (h : (reindexFrom k ts).get? i = some t) :
    t.trackIndex = ((k + i : Nat) : Int) ∧ t.display.recordingIndex = ((k + i : Nat) : Int) := by
  induction ts generalizing k i with
  | nil => simp [reindexFrom] at h
  | cons u us ih =>
    cases i with
    | zero =>
      simp only [reindexFrom, List.get?_cons_zero, Option.some.injEq] at h
      subst h
      exact ⟨rfl, rfl⟩
    | succ j =>
      simp only [reindexFrom, List.get?_cons_succ] at h
      have := ih (k + 1) j h
      rw [show k + (j + 1) = k + 1 + j by omega]
      exact this

theorem indexed_reindexFrom (ts : List RecordingTrack) : Indexed (reindexFrom 0 ts) := by
  intro i t h
  have := reindexFrom_get? 0 ts i t h
  rwa [Nat.zero_add] at this

theorem reindexFrom_eq_self (k : Nat) (ts : List RecordingTrack)
    (h : ∀ (i : Nat) (t : RecordingTrack), ts.get? i = some t →
      t.trackIndex = ((k + i : Nat) : Int) ∧ t.display.recordingIndex = ((k + i : Nat) : Int)) :
    reindexFrom k ts = ts := by
  induction ts generalizing k with
  | nil => rfl
  | cons u us ih =>
    have h0 := h 0 u rfl
    have hrest : reindexFrom (k + 1) us = us := by
      apply ih
      intro i t hi
      have := h (i + 1) t hi
      rwa [show k + (i + 1) = k + 1 + i by omega] at this
    unfold reindexFrom
    rw [hrest]
    congr 1
    obtain ⟨a, ti, ⟨ri⟩⟩ := u
    simp only [Nat.add_zero] at h0
    simp only [RecordingTrack.setTrackIndex, RecordingDisplayPanel.setRecordingIndex, h0.1, h0.2]

theorem reindexFrom_of_indexed (ts : List RecordingTrack) (h : Indexed ts) :
    reindexFrom 0 ts = ts := by
  apply reindexFrom_eq_self
  intro i t hi
  rw [Nat.zero_add]
  exact h i t hi

theorem eraseFirstTrack_eq_eraseIdx (ts : List RecordingTrack) (i : Nat) (t : RecordingTrack)
    (hnd : (ts.map fun t => t.addr).Nodup) (h : ts.get? i = some t) :
    eraseFirstTrack t.addr ts = ts.eraseIdx i := by
  induction ts generalizing i with
  | nil => simp at h
  | cons u us ih =>
    rw [List.map_cons, List.nodup_cons] at hnd
    cases i with
    | zero =>
      simp only [List.get?_cons_zero, Option.some.injEq] at h
      subst h
      simp [eraseFirstTrack]
    | succ j =>
      simp only [List.get?_cons_succ] at h
      have hne : u.addr ≠ t.addr := by
        intro he
        apply hnd.1
        rw [he]
        exact List.mem_map.mpr ⟨t, List.get?_mem h, rfl⟩
      unfold eraseFirstTrack
      rw [if_neg hne, ih j hnd.2 h]
      rfl

end LZarins

namespace LZarins

open Juce

theorem deleteTrackAt_eq (s : AudioRecorderComponent) (i : Nat) :
    deleteTrackAt s i =
      { s with recordingsContainer :=
          ⟨(s.recordingsContainer.tracks.get? i).elim s.recordingsContainer.tracks
            fun t => eraseFirstTrack t.addr s.recordingsContainer.tracks⟩ } := by
  unfold deleteTrackAt
  cases s.recordingsContainer.tracks.get? i <;> rfl

theorem deleteThumbnailAt_eq (s : AudioRecorderComponent) (i : Nat) :
    deleteThumbnailAt s i =
      { s with recordingThumbnails := s.recordingThumbnails.eraseIdx i } := by
  unfold deleteThumbnailAt
  split_ifs with h
  · rfl
  · rw [List.eraseIdx_of_length_le (not_lt.mp h)]

theorem deleteCacheAt_eq (s : AudioRecorderComponent) (i : Nat) :
    deleteCacheAt s i = { s with recordingCaches := s.recordingCaches.eraseIdx i } := by
  unfold deleteCacheAt
  split_ifs with h
  · rfl
  · rw [List.eraseIdx_of_length_le (not_lt.mp h)]

theorem deleteFileAt_eq (s : AudioRecorderComponent) (i : Nat) :
    deleteFileAt s i =
      { s with
        recordingFiles := s.recordingFiles.eraseIdx i,
        disk := (s.recordingFiles.get? i).elim s.disk
          fun f => if f ∈ s.disk then deleteFile s.disk f else s.disk } := by
  unfold deleteFileAt
  cases h : s.recordingFiles.get? i
  · rw [List.eraseIdx_of_length_le (List.get?_eq_none.mp h)]
    rfl
  · rfl

theorem deleteRecordingCallback_eq (s : AudioRecorderComponent) (index : Int) :
    deleteRecordingCallback s index 1 =
      { s with
        recordingsContainer :=
          ⟨reindexFrom 0
            ((s.recordingsContainer.tracks.get? (toSizeT index)).elim s.recordingsContainer.tracks
              fun t => eraseFirstTrack t.addr s.recordingsContainer.tracks)⟩,
        recordingThumbnails := s.recordingThumbnails.eraseIdx (toSizeT index),
        recordingCaches := s.recordingCaches.eraseIdx (toSizeT index),
        recordingFiles := s.recordingFiles.eraseIdx (toSizeT index),
        disk := (s.recordingFiles.get? (toSizeT index)).elim s.disk
          fun f => if f ∈ s.disk then deleteFile s.disk f else s.disk } := by
  unfold deleteRecordingCallback
  rw [if_pos rfl]
  dsimp only
  rw [deleteTrackAt_eq, deleteThumbnailAt_eq, deleteCacheAt_eq, deleteFileAt_eq]
  rfl

theorem deleteRecordingCallback_no (s : AudioRecorderComponent) (index result : Int)
    (h : result ≠ 1) : deleteRecordingCallback s index result = s := by
  unfold deleteRecordingCallback
  rw [if_neg h]

end LZarins

namespace LZarins

open Juce

theorem wellFormed_new : WellFormed AudioRecorderComponent.new :=
  ⟨rfl, rfl, rfl, fun _ h => absurd h (List.not_mem_nil _), List.nodup_nil,
    fun i t h => by simp [AudioRecorderComponent.new] at h⟩

theorem wellFormed_of_same (s r : AudioRecorderComponent) (h : WellFormed s)
    (h1 : r.recordingThumbnails.length = s.recordingThumbnails.length)
    (h2 : r.recordingCaches = s.recordingCaches) (h3 : r.recordingFiles = s.recordingFiles)
    (h4 : r.recordingsContainer = s.recordingsContainer) (h5 : r.nextAddr = s.nextAddr) :
    WellFormed r := by
  refine ⟨?_, ?_, ?_, ?_, ?_, ?_⟩
  · rw [h1, h2]; exact h.caches
  · rw [h1, h3]; exact h.files
  · rw [h1, h4]; exact h.tracks
  · rw [h4, h5]; exact h.fresh
  · rw [h4]; exact h.distinct
  · rw [h4]; exact h.indexed

theorem getNextAudioBlock_frame (s : AudioRecorderComponent) (b : AudioSourceChannelInfo) :
    (getNextAudioBlock s b).recordingCaches = s.recordingCaches ∧
    (getNextAudioBlock s b).recordingFiles = s.recordingFiles ∧
    (getNextAudioBlock s b).recordingsContainer = s.recordingsContainer ∧
    (getNextAudioBlock s b).nextAddr = s.nextAddr ∧
    (getNextAudioBlock s b).currentRecordingIndex = s.currentRecordingIndex ∧
    (getNextAudioBlock s b).disk = s.disk := by
  unfold getNextAudioBlock
  dsimp only
  split_ifs <;> exact ⟨rfl, rfl, rfl, rfl, rfl, rfl⟩

theorem stopRecording_frame (s : AudioRecorderComponent) :
    (stopRecording s).recordingCaches = s.recordingCaches ∧
    (stopRecording s).recordingFiles = s.recordingFiles ∧
    (stopRecording s).recordingsContainer = s.recordingsContainer ∧
    (stopRecording s).nextAddr = s.nextAddr ∧
    (stopRecording s).currentRecordingIndex = s.currentRecordingIndex ∧
    (stopRecording s).disk = s.disk := by
  unfold stopRecording showSaveDialog
  dsimp only
  split_ifs <;> exact ⟨rfl, rfl, rfl, rfl, rfl, rfl⟩

theorem deleteRecording_frame (s : AudioRecorderComponent) (index : Int) :
    (deleteRecording s index).recordingCaches = s.recordingCaches ∧
    (deleteRecording s index).recordingFiles = s.recordingFiles ∧
    (deleteRecording s index).recordingsContainer = s.recordingsContainer ∧
    (deleteRecording s index).nextAddr = s.nextAddr ∧
    (deleteRecording s index).currentRecordingIndex = s.currentRecordingIndex ∧
    (deleteRecording s index).disk = s.disk ∧
    (deleteRecording s index).isRecording = s.isRecording := by
  unfold deleteRecording
  split_ifs <;> exact ⟨rfl, rfl, rfl, rfl, rfl, rfl, rfl⟩

theorem startRecording_not_started (s : AudioRecorderComponent) (env : StartEnv)
    (h : ¬(s.recordingThumbnails.length < 6 ∧ s.isRecording = false ∧
      env.streamCreated = true ∧ env.writerCreated = true)) :
    (startRecording s env).recordingThumbnails = s.recordingThumbnails ∧
    (startRecording s env).recordingCaches = s.recordingCaches ∧
    (startRecording s env).recordingFiles = s.recordingFiles ∧
    (startRecording s env).recordingsContainer = s.recordingsContainer ∧
    (startRecording s env).nextAddr = s.nextAddr ∧
    (startRecording s env).isRecording = s.isRecording ∧
    (startRecording s env).currentRecordingIndex = s.currentRecordingIndex := by
  unfold startRecording
  dsimp only
  split_ifs <;> first
    | exact ⟨rfl, rfl, rfl, rfl, rfl, rfl, rfl⟩
    | (exfalso; apply h; simp_all)

theorem startRecording_success_nextAddr (s : AudioRecorderComponent) (env : StartEnv)
    (hlen : s.recordingThumbnails.length < 6) (hrec : s.isRecording = false)
    (hs : env.streamCreated = true) (hw : env.writerCreated = true) :
    (startRecording s env).nextAddr = s.nextAddr + 4 := by
  unfold startRecording
  dsimp only
  rw [if_neg (by omega), hrec, hs, hw]
  simp only [Bool.not_false, if_true]
  split_ifs <;> rfl

end LZarins

namespace LZarins

open Juce

theorem wellFormed_startRecording (s : AudioRecorderComponent) (env : StartEnv)
    (h : WellFormed s) : WellFormed (startRecording s env) := by
  by_cases hc : s.recordingThumbnails.length < 6 ∧ s.isRecording = false ∧
      env.streamCreated = true ∧ env.writerCreated = true
  · obtain ⟨hlen, hrec, hs, hw⟩ := hc
    obtain ⟨-, -, -, -, -, -, h1, h2, h3, h4⟩ := startRecording_success s env hlen hrec hs hw
    have h5 := startRecording_success_nextAddr s env hlen hrec hs hw
    refine ⟨?_, ?_, ?_, ?_, ?_, ?_⟩
    · rw [h1, h2, List.length_append, List.length_append, h.caches]; rfl
    · rw [h1, h3, List.length_append, List.length_append, h.files]; rfl
    · rw [h1, h4, List.length_append, List.length_append, h.tracks]; rfl
    · intro t ht
      rw [h4] at ht
      rw [h5]
      rcases List.mem_append.mp ht with ht | ht
      · have := h.fresh t ht
        omega
      · rw [List.mem_singleton] at ht
        subst ht
        show s.nextAddr + 2 < s.nextAddr + 4
        omega
    · rw [h4, List.map_append, List.nodup_append]
      refine ⟨h.distinct, List.nodup_singleton _, ?_⟩
      intro a ha hb
      rw [List.map_singleton, List.mem_singleton] at hb
      obtain ⟨t, ht, hta⟩ := List.mem_map.mp ha
      have := h.fresh t ht
      have hb2 : a = s.nextAddr + 2 := hb
      omega
    · intro i t hi
      rw [h4] at hi
      by_cases hlt : i < s.recordingsContainer.tracks.length
      · rw [List.get?_eq_getElem?, List.getElem?_append_left hlt,
          ← List.get?_eq_getElem?] at hi
        exact h.indexed i t hi
      · rw [List.get?_eq_getElem?, List.getElem?_append_right (not_lt.mp hlt),
          ← List.get?_eq_getElem?] at hi
        cases hk : i - s.recordingsContainer.tracks.length with
        | zero =>
          rw [hk, List.get?_cons_zero, Option.some.injEq] at hi
          subst hi
          have : (i : Int) = (s.recordingThumbnails.length : Int) := by
            have := h.tracks
            omega
          rw [this]
          exact ⟨rfl, rfl⟩
        | succ k =>
          rw [hk] at hi
          simp at hi
  · obtain ⟨h1, h2, h3, h4, h5, -, -⟩ := startRecording_not_started s env hc
    exact wellFormed_of_same s _ h (by rw [h1]) h2 h3 h4 h5

theorem wellFormed_deleteRecordingCallback (s : AudioRecorderComponent) (index result : Int)
    (h : WellFormed s) : WellFormed (deleteRecordingCallback s index result) := by
  by_cases hr : result = 1
  · subst hr
    rw [deleteRecordingCallback_eq]
    generalize toSizeT index = i
    have hlen : ∀ {α : Type} (xs : List α), xs.length = s.recordingThumbnails.length →
        (xs.eraseIdx i).length = (s.recordingThumbnails.eraseIdx i).length := by
      intro α xs hx
      rw [List.length_eraseIdx, List.length_eraseIdx, hx]
    have htr : (s.recordingsContainer.tracks.get? i).elim s.recordingsContainer.tracks
        (fun t => eraseFirstTrack t.addr s.recordingsContainer.tracks) =
        s.recordingsContainer.tracks.eraseIdx i := by
      cases hg : s.recordingsContainer.tracks.get? i with
      | none => exact (List.eraseIdx_of_length_le (List.get?_eq_none.mp hg)).symm
      | some t => exact eraseFirstTrack_eq_eraseIdx _ i t h.distinct hg
    refine ⟨hlen _ h.caches, hlen _ h.files, ?_, ?_, ?_, ?_⟩
    · show (reindexFrom 0 _).length = _
      rw [length_reindexFrom, htr]
      exact hlen _ h.tracks
    · intro t ht
      have ht2 : t.addr ∈ (reindexFrom 0 ((s.recordingsContainer.tracks.get? i).elim
          s.recordingsContainer.tracks
          (fun t => eraseFirstTrack t.addr s.recordingsContainer.tracks))).map
            fun t => t.addr := List.mem_map.mpr ⟨t, ht, rfl⟩
      rw [map_addr_reindexFrom, htr] at ht2
      obtain ⟨u, hu, hua⟩ := List.mem_map.mp ht2
      have := h.fresh u (List.mem_of_mem_eraseIdx hu)
      show t.addr < s.nextAddr
      omega
    · show ((reindexFrom 0 _).map fun t => t.addr).Nodup
      rw [map_addr_reindexFrom, htr]
      exact List.Nodup.sublist ((List.eraseIdx_sublist _ _).map _) h.distinct
    · exact indexed_reindexFrom _
  · rw [deleteRecordingCallback_no s index result hr]
    exact h

theorem wellFormed_answerDelete (s : AudioRecorderComponent) (k : Nat) (result : Int)
    (h : WellFormed s) : WellFormed (answerDelete s k result) := by
  unfold answerDelete
  split
  · exact wellFormed_deleteRecordingCallback _ _ _ (wellFormed_of_same s _ h rfl rfl rfl rfl rfl)
  · exact h

theorem wellFormed_step (s : AudioRecorderComponent) (op : Op) (h : WellFormed s) :
    WellFormed (step s op) := by
  cases op with
  | prepareToPlay n r => exact wellFormed_of_same s _ h rfl rfl rfl rfl rfl
  | getNextAudioBlock b =>
    have hf := getNextAudioBlock_frame s b
    exact wellFormed_of_same s _ h (getNextAudioBlock_thumbnails_length s b) hf.1 hf.2.1
      hf.2.2.1 hf.2.2.2.1
  | timerCallback => exact wellFormed_of_same s _ h rfl rfl rfl rfl rfl
  | startRecording env => exact wellFormed_startRecording s env h
  | stopRecording =>
    have hf := stopRecording_frame s
    exact wellFormed_of_same s _ h (stopRecording_thumbnails_length s) hf.1 hf.2.1
      hf.2.2.1 hf.2.2.2.1
  | deleteRecording i =>
    have hf := deleteRecording_frame s i
    exact wellFormed_of_same s _ h (by rw [show (step s (.deleteRecording i)) =
      deleteRecording s i from rfl, deleteRecording_thumbnails]) hf.1 hf.2.1 hf.2.2.1 hf.2.2.2.1
  | answerDelete k r => exact wellFormed_answerDelete s k r h

theorem wellFormed_run (s : AudioRecorderComponent) (ops : List Op) (h : WellFormed s) :
    WellFormed (run s ops) := by
  induction ops generalizing s with
  | nil => exact h
  | cons op ops ih => exact ih (step s op) (wellFormed_step s op h)

theorem wellFormed_of_reachable (s : AudioRecorderComponent) (h : Reachable s) :
    WellFormed s := by
  obtain ⟨ops, rfl⟩ := h
  exact wellFormed_run _ ops wellFormed_new

end LZarins

namespace LZarins

open Juce

theorem answerDelete_files_sublist (s : AudioRecorderComponent) (k : Nat) (result : Int) :
    (answerDelete s k result).recordingFiles.Sublist s.recordingFiles := by
  unfold answerDelete
  split
  · by_cases hr : result = 1
    · subst hr
      rw [(deleteRecordingCallback_yes _ _).2.1]
      exact List.eraseIdx_sublist _ _
    · rw [deleteRecordingCallback_no _ _ _ hr]
  · exact List.Sublist.refl _

theorem run_files_sublist (s : AudioRecorderComponent) (ops : List Op) :
    (run s ops).recordingFiles.Sublist (s.recordingFiles ++ startedFiles ops) := by
  induction ops generalizing s with
  | nil =>
    show s.recordingFiles.Sublist (s.recordingFiles ++ [])
    rw [List.append_nil]
  | cons op ops ih =>
    have hstep := ih (step s op)
    refine hstep.trans ?_
    cases op with
    | prepareToPlay n r => exact List.Sublist.refl _
    | getNextAudioBlock b =>
      show ((getNextAudioBlock s b).recordingFiles ++ _).Sublist _
      rw [(getNextAudioBlock_frame s b).2.1]
      exact List.Sublist.refl _
    | timerCallback => exact List.Sublist.refl _
    | startRecording env =>
      show ((startRecording s env).recordingFiles ++ startedFiles ops).Sublist
        (s.recordingFiles ++ (newRecordingFile env :: startedFiles ops))
      by_cases hc : s.recordingThumbnails.length < 6 ∧ s.isRecording = false ∧
          env.streamCreated = true ∧ env.writerCreated = true
      · obtain ⟨hlen, hrec, hs, hw⟩ := hc
        rw [(startRecording_success s env hlen hrec hs hw).2.2.2.2.2.2.2.2.1,
          List.append_assoc]
        exact List.Sublist.refl _
      · rw [(startRecording_not_started s env hc).2.2.1]
        exact List.Sublist.append_left (List.sublist_cons_self _ _) _
    | stopRecording =>
      show ((stopRecording s).recordingFiles ++ _).Sublist _
      rw [(stopRecording_frame s).2.1]
      exact List.Sublist.refl _
    | deleteRecording i =>
      show ((deleteRecording s i).recordingFiles ++ _).Sublist _
      rw [(deleteRecording_frame s i).2.1]
      exact List.Sublist.refl _
    | answerDelete k r =>
      exact List.Sublist.append_right (answerDelete_files_sublist s k r) _

end LZarins

namespace Juce

theorem digitVal_digitChar (d : Nat) (h : d < 10) : digitVal (Nat.digitChar d) = d := by
  interval_cases d <;> rfl

theorem foldl_digitVal (cs : List Char) (a : Nat) :
    cs.foldl (fun acc c => acc * 10 + digitVal c) a = a * 10 ^ cs.length + digitsVal cs := by
  induction cs generalizing a with
  | nil => simp [digitsVal]
  | cons c cs ih =>
    simp only [List.foldl_cons, digitsVal, List.length_cons]
    rw [ih, ih (0 * 10 + digitVal c)]
    ring

theorem digitsVal_toDigitsCore (fuel n : Nat) (ds : List Char) (h : n < fuel) :
    digitsVal (Nat.toDigitsCore 10 fuel n ds) = n * 10 ^ ds.length + digitsVal ds := by
  induction fuel generalizing n ds with
  | zero => omega
  | succ f ih =>
    unfold Nat.toDigitsCore
    dsimp only
    have hd : digitVal (Nat.digitChar (n % 10)) = n % 10 :=
      digitVal_digitChar _ (Nat.mod_lt _ (by norm_num))
    have hcons : digitsVal (Nat.digitChar (n % 10) :: ds) =
        (n % 10) * 10 ^ ds.length + digitsVal ds := by
      unfold digitsVal
      rw [List.foldl_cons, foldl_digitVal, hd]
      simp [digitsVal]
    split_ifs with h0
    · rw [hcons]
      have : n = n % 10 := by omega
      rw [← this]
    · have hlt : n / 10 < f := by omega
      rw [ih (n / 10) _ hlt, hcons, List.length_cons]
      have := Nat.div_add_mod n 10
      have e : n / 10 * 10 ^ (ds.length + 1) = (10 * (n / 10)) * 10 ^ ds.length := by ring
      rw [e]
      have e2 : 10 * (n / 10) * 10 ^ ds.length + (n % 10 * 10 ^ ds.length + digitsVal ds)
          = (10 * (n / 10) + n % 10) * 10 ^ ds.length + digitsVal ds := by ring
      rw [e2, this]

theorem digitsVal_toString (n : Nat) : digitsVal (toString n).data = n := by
  show digitsVal (Nat.toDigitsCore 10 (n + 1) n []) = n
  rw [digitsVal_toDigitsCore _ _ _ (Nat.lt_succ_self n)]
  simp [digitsVal]

theorem toString_nat_injective (a b : Nat) (h : toString a = toString b) : a = b := by
  have := congrArg (fun s => digitsVal s.data) h
  simpa [digitsVal_toString] using this

theorem pad2_length (n : Nat) (h : n < 100) : (pad2 n).data.length = 2 := by
  interval_cases n <;> rfl

theorem pad2_injective (a b : Nat) (ha : a < 100) (hb : b < 100) (h : pad2 a = pad2 b) :
    a = b := by
  have hv : ∀ n, n < 100 → digitsVal (pad2 n).data = n := by
    intro n hn
    interval_cases n <;> rfl
  have := congrArg (fun s => digitsVal s.data) h
  simp only [hv a ha, hv b hb] at this
  exact this

theorem formatted_injective (t u : Time) (ht : t.Valid) (hu : u.Valid)
    (h : t.formatted = u.formatted) : t.toSecond = u.toSecond := by
  obtain ⟨t1, t2, t3, t4, t5⟩ := ht
  obtain ⟨u1, u2, u3, u4, u5⟩ := hu
  have hd := congrArg String.data h
  simp only [Time.formatted, String.data_append] at hd
  have l := fun (n : Nat) (hn : n < 100) => pad2_length n hn
  obtain ⟨hd, hs⟩ := List.append_inj' hd
    (by rw [l _ (by omega), l _ (by omega)])
  obtain ⟨hd, hmi⟩ := List.append_inj' hd
    (by rw [l _ (by omega), l _ (by omega)])
  obtain ⟨hd, hh⟩ := List.append_inj' hd
    (by rw [l _ (by omega), l _ (by omega)])
  obtain ⟨hd, -⟩ := List.append_inj' hd rfl
  obtain ⟨hd, hday⟩ := List.append_inj' hd
    (by rw [l _ (by omega), l _ (by omega)])
  obtain ⟨hy, hmo⟩ := List.append_inj' hd
    (by rw [l _ (by omega), l _ (by omega)])
  have e1 := toString_nat_injective _ _ (String.ext hy)
  have e2 := pad2_injective _ _ (by omega) (by omega) (String.ext hmo)
  have e3 := pad2_injective _ _ (by omega) (by omega) (String.ext hday)
  have e4 := pad2_injective _ _ (by omega) (by omega) (String.ext hh)
  have e5 := pad2_injective _ _ (by omega) (by omega) (String.ext hmi)
  have e6 := pad2_injective _ _ (by omega) (by omega) (String.ext hs)
  simp only [Time.toSecond, e1, e2, e3, e4, e5, e6]

end Juce

namespace LZarins

open Juce

theorem newRecordingFile_injective (e1 e2 : StartEnv) (h1 : e1.currentTime.Valid)
    (h2 : e2.currentTime.Valid) (h : newRecordingFile e1 = newRecordingFile e2) :
    e1.currentTime.toSecond = e2.currentTime.toSecond := by
  unfold newRecordingFile File.getChildFile at h
  rw [File.mk.injEq] at h
  have hn := List.append_inj_right' h rfl
  rw [List.cons.injEq] at hn
  have hd := congrArg String.data hn.1
  simp only [String.data_append] at hd
  have hd2 := List.append_inj_left' hd rfl
  have hd3 := List.append_cancel_left hd2
  exact formatted_injective _ _ h1 h2 (String.ext hd3)

theorem newRecordingFile_same_second (e1 e2 : StartEnv)
    (hdir : e1.userDocumentsDirectory = e2.userDocumentsDirectory)
    (h : e1.currentTime.toSecond = e2.currentTime.toSecond) :
    newRecordingFile e1 = newRecordingFile e2 := by
  simp only [Time.toSecond, Prod.mk.injEq] at h
  obtain ⟨a, b, c, d, e, f⟩ := h
  simp only [newRecordingFile, Time.formatted, hdir, a, b, c, d, e, f]

end LZarins

namespace KERoke

open Juce

theorem click_stuck (s : AudioRecorderComponent) (c : Click)
    (h : s.isRecording = false ∧ s.recordButtonEnabled = false) : click s c = s := by
  cases c with
  | record env =>
    show (if s.recordButtonEnabled then startRecording s env else s) = s
    rw [h.2]
    rfl
  | stop =>
    show (if s.stopButtonEnabled then stopRecording s else s) = s
    rw [stopRecording_of_not_recording_single s h.1, ite_self]

theorem clicks_stuck (s : AudioRecorderComponent) (cs : List Click)
    (h : s.isRecording = false ∧ s.recordButtonEnabled = false) : clicks s cs = s := by
  induction cs with
  | nil => rfl
  | cons c cs ih =>
    show clicks (click s c) cs = s
    rw [click_stuck s c h, ih]

end KERoke

namespace LZarins

open Juce

theorem map_cacheAddr_modifyAt (f : AudioThumbnail → AudioThumbnail)
    (hf : ∀ t, (f t).cacheAddr = t.cacheAddr) (ts : List AudioThumbnail) (i : Nat) :
    (modifyAt f ts i).map (fun t => t.cacheAddr) = ts.map fun t => t.cacheAddr := by
  induction ts generalizing i with
  | nil => rfl
  | cons t ts ih =>
    cases i with
    | zero => simp [modifyAt, hf]
    | succ n => simp [modifyAt, ih]

theorem getNextAudioBlock_cacheAddrs (s : AudioRecorderComponent)
    (b : AudioSourceChannelInfo) :
    ((getNextAudioBlock s b).recordingThumbnails.map fun t => t.cacheAddr) =
      s.recordingThumbnails.map fun t => t.cacheAddr := by
  unfold getNextAudioBlock
  dsimp only
  split_ifs <;>
    first | rfl | (dsimp only; apply map_cacheAddr_modifyAt; intro t; rfl)

theorem stopRecording_cacheAddrs (s : AudioRecorderComponent) :
    ((stopRecording s).recordingThumbnails.map fun t => t.cacheAddr) =
      s.recordingThumbnails.map fun t => t.cacheAddr := by
  unfold stopRecording showSaveDialog
  dsimp only
  split_ifs <;>
    first | rfl | (dsimp only; apply map_cacheAddr_modifyAt; intro t; rfl)

theorem paired_step (s : AudioRecorderComponent) (op : Op) (h : Paired s) :
    Paired (step s op) := by
  unfold Paired at h ⊢
  cases op with
  | prepareToPlay n r => exact h
  | getNextAudioBlock b =>
    show ((getNextAudioBlock s b).recordingThumbnails.map _) = (getNextAudioBlock s b).recordingCaches.map _
    rw [getNextAudioBlock_cacheAddrs, (getNextAudioBlock_frame s b).1, h]
  | timerCallback => exact h
  | startRecording env =>
    show ((startRecording s env).recordingThumbnails.map _) = (startRecording s env).recordingCaches.map _
    by_cases hc : s.recordingThumbnails.length < 6 ∧ s.isRecording = false ∧
        env.streamCreated = true ∧ env.writerCreated = true
    · obtain ⟨hlen, hrec, hs, hw⟩ := hc
      obtain ⟨-, -, -, -, -, -, h1, h2, -, -⟩ := startRecording_success s env hlen hrec hs hw
      rw [h1, h2, List.map_append, List.map_append, h]
      rfl
    · obtain ⟨h1, h2, -⟩ := startRecording_not_started s env hc
      rw [h1, h2, h]
  | stopRecording =>
    show ((stopRecording s).recordingThumbnails.map _) = (stopRecording s).recordingCaches.map _
    rw [stopRecording_cacheAddrs, (stopRecording_frame s).1, h]
  | deleteRecording i =>
    show ((deleteRecording s i).recordingThumbnails.map _) = (deleteRecording s i).recordingCaches.map _
    rw [deleteRecording_thumbnails, (deleteRecording_frame s i).1, h]
  | answerDelete k r =>
    show ((answerDelete s k r).recordingThumbnails.map _) = (answerDelete s k r).recordingCaches.map _
    unfold answerDelete
    split
    · by_cases hr : r = 1
      · subst hr
        rw [deleteRecordingCallback_eq]
        show ((s.recordingThumbnails.eraseIdx _).map _) = (s.recordingCaches.eraseIdx _).map _
        rw [map_eraseIdx, map_eraseIdx, h]
      · rw [deleteRecordingCallback_no _ _ _ hr]
        exact h
    · exact h

theorem paired_of_reachable (s : AudioRecorderComponent) (h : Reachable s) : Paired s := by
  obtain ⟨ops, rfl⟩ := h
  have key : ∀ (ops : List Op) (s : AudioRecorderComponent), Paired s → Paired (run s ops) := by
    intro ops
    induction ops with
    | nil => exact fun _ h => h
    | cons op ops ih => exact fun s h => ih (step s op) (paired_step s op h)
  exact key ops _ rfl

end LZarins

namespace LZarins

open Juce

theorem getNextAudioBlockChecked_eq (s : AudioRecorderComponent) (b : AudioSourceChannelInfo) :
    getNextAudioBlockChecked s b = some (getNextAudioBlock s b) := by
  unfold getNextAudioBlockChecked getNextAudioBlock
  dsimp only
  split_ifs with h1 h2 h3
  · rw [List.get?_eq_get h3.2]
    rfl
  · rfl
  · rfl
  · rfl

theorem showSaveDialogChecked_eq (s : AudioRecorderComponent) :
    showSaveDialogChecked s = some (showSaveDialog s) := by
  unfold showSaveDialogChecked showSaveDialog
  dsimp only
  split_ifs with h
  · rw [List.get?_eq_get h.2, List.getD_eq_getElem _ _ h.2]
    rfl
  · rfl

theorem stopRecordingChecked_eq (s : AudioRecorderComponent)
    (hlen : s.recordingFiles.length ≤ s.recordingThumbnails.length) :
    stopRecordingChecked s = some (stopRecording s) := by
  unfold stopRecordingChecked stopRecording
  dsimp only
  split_ifs with h1 h2 h3
  · rw [List.get?_eq_get h2.2, List.getD_eq_getElem _ _ h2.2] at *
    have hth : s.currentRecordingIndex.toNat < s.recordingThumbnails.length :=
      lt_of_lt_of_le h2.2 hlen
    simp only [Option.some_bind, List.get_eq_getElem]
    rw [if_pos h3, List.get?_eq_get hth]
    exact showSaveDialogChecked_eq _
  · rw [List.get?_eq_get h2.2, List.getD_eq_getElem _ _ h2.2] at *
    simp only [Option.some_bind, List.get_eq_getElem]
    rw [if_neg h3]
    exact showSaveDialogChecked_eq _
  · exact showSaveDialogChecked_eq _
  · rfl

theorem getThumbnailChecked_isSome (s : AudioRecorderComponent) (index : Int) :
    (getThumbnailChecked s index).isSome = true := by
  unfold getThumbnailChecked
  split_ifs with h1 h2
  · rfl
  · rfl
  · rw [List.get?_eq_get (not_le.mp h2)]
    rfl

theorem deleteTrackAtChecked_eq (s : AudioRecorderComponent) (i : Nat) :
    deleteTrackAtChecked s i = some (deleteTrackAt s i) := by
  unfold deleteTrackAtChecked deleteTrackAt
  split_ifs with h
  · rw [List.get?_eq_get h]
    rfl
  · rw [List.get?_eq_none.mpr (not_lt.mp h)]

theorem deleteThumbnailAtChecked_eq (s : AudioRecorderComponent) (i : Nat) :
    deleteThumbnailAtChecked s i = some (deleteThumbnailAt s i) := by
  unfold deleteThumbnailAtChecked deleteThumbnailAt
  split_ifs with h
  · rw [List.get?_eq_get h]
    rfl
  · rfl

theorem deleteCacheAtChecked_eq (s : AudioRecorderComponent) (i : Nat) :
    deleteCacheAtChecked s i = some (deleteCacheAt s i) := by
  unfold deleteCacheAtChecked deleteCacheAt
  split_ifs with h
  · rw [List.get?_eq_get h]
    rfl
  · rfl

theorem deleteFileAtChecked_eq (s : AudioRecorderComponent) (i : Nat) :
    deleteFileAtChecked s i = some (deleteFileAt s i) := by
  unfold deleteFileAtChecked deleteFileAt
  split_ifs with h
  · rw [List.get?_eq_get h]
    rfl
  · rw [List.get?_eq_none.mpr (not_lt.mp h)]

theorem deleteRecordingCallbackChecked_eq (s : AudioRecorderComponent) (index result : Int) :
    deleteRecordingCallbackChecked s index result =
      some (deleteRecordingCallback s index result) := by
  unfold deleteRecordingCallbackChecked deleteRecordingCallback
  split_ifs with h
  · dsimp only
    rw [deleteTrackAtChecked_eq, Option.some_bind, deleteThumbnailAtChecked_eq,
      Option.some_bind, deleteCacheAtChecked_eq, Option.some_bind, deleteFileAtChecked_eq]
    rfl
  · rfl

end LZarins

namespace LZarins

open Juce

theorem stopRecordingChecked_noThumbnail : stopRecordingChecked Example.noThumbnail = none := by
  decide

end LZarins

namespace LZarins

open Juce

theorem lockInvariant_start (c : AudioRecorderComponent)
    (blocks : List AudioSourceChannelInfo) : LockInvariant (Threads.start c blocks) := by
  constructor <;> simp [Threads.start, AudioPc.inCritical, AudioPc.writing]

theorem lockInvariant_audioStep (t r : Threads) (h : LockInvariant t)
    (hs : audioStep t = some r) : LockInvariant r := by
  obtain ⟨ha, hc, hw, hcl⟩ := h
  unfold audioStep at hs
  cases hb : t.blocks with
  | nil => simp [hb] at hs
  | cons b rest =>
    cases hp : t.audioPc <;> simp only [hb, hp] at hs <;>
      (try split_ifs at hs) <;>
      (try (simp only [Option.some.injEq] at hs; subst hs)) <;>
      (try (constructor <;> simp_all [AudioPc.inCritical, AudioPc.writing]))

end LZarins

namespace LZarins

open Juce

theorem finishStop_frame (c : AudioRecorderComponent) :
    (finishStop c).activeWriter = c.activeWriter ∧
    (finishStop c).threadedWriter = c.threadedWriter ∧
    (finishStop c).closedWriters = c.closedWriters ∧
    (finishStop c).nextSampleNum = c.nextSampleNum ∧
    (finishStop c).playheadPosition = c.playheadPosition ∧
    (finishStop c).isRecording = c.isRecording := by
  unfold finishStop showSaveDialog
  dsimp only
  split_ifs <;> exact ⟨rfl, rfl, rfl, rfl, rfl, rfl⟩

theorem inCritical_of_writing (pc : AudioPc) (h : pc.writing = true) :
    pc.inCritical = true := by
  cases pc <;> first | rfl | exact absurd h (by decide)

theorem lockInvariant_controlStep (t r : Threads) (h : LockInvariant t)
    (hs : controlStep t = some r) : LockInvariant r := by
  obtain ⟨ha, hc, hw, hcl⟩ := h
  unfold controlStep at hs
  cases hp : t.stopPc with
  | testRecording =>
    simp only [hp, Option.some.injEq] at hs
    subst hs
    refine ⟨ha, ?_, hw, hcl⟩
    show t.writerLock = some Thread.control ↔ _
    rw [hc, hp]
    split_ifs <;> simp
  | clearFlag =>
    simp only [hp, Option.some.injEq] at hs
    subst hs
    refine ⟨ha, ?_, hw, hcl⟩
    show t.writerLock = some Thread.control ↔ _
    rw [hc, hp]
    simp
  | lock =>
    simp only [hp] at hs
    split_ifs at hs with hfree
    simp only [Option.some.injEq] at hs
    subst hs
    refine ⟨?_, ?_, hw, hcl⟩
    · show some Thread.control = some Thread.audio ↔ _
      rw [← ha, hfree]
      simp
    · show some Thread.control = some Thread.control ↔ _
      simp
  | clearWriter =>
    simp only [hp, Option.some.injEq] at hs
    subst hs
    have hnc : t.audioPc.inCritical ≠ true := by
      intro hcr
      have h1 := ha.mpr hcr
      have h2 := hc.mpr (Or.inl hp)
      rw [h1] at h2
      exact absurd h2 (by decide)
    refine ⟨ha, ?_, ?_, ?_⟩
    · show t.writerLock = some Thread.control ↔ _
      simp [hc.mpr (Or.inl hp)]
    · intro hwr
      exact absurd (inCritical_of_writing _ hwr) hnc
    · intro _
      rfl
  | unlock =>
    simp only [hp, Option.some.injEq] at hs
    subst hs
    have hnc : t.audioPc.inCritical ≠ true := by
      intro hcr
      have h1 := ha.mpr hcr
      have h2 := hc.mpr (Or.inr hp)
      rw [h1] at h2
      exact absurd h2 (by decide)
    refine ⟨?_, ?_, hw, hcl⟩
    · show (none : Option Thread) = some Thread.audio ↔ _
      simp [hnc]
    · show (none : Option Thread) = some Thread.control ↔ _
      simp
  | resetWriter =>
    simp only [hp, Option.some.injEq] at hs
    subst hs
    refine ⟨ha, ?_, hw, hcl⟩
    show t.writerLock = some Thread.control ↔ _
    rw [hc, hp]
    simp
  | finish =>
    simp only [hp, Option.some.injEq] at hs
    subst hs
    refine ⟨ha, ?_, ?_, ?_⟩
    · show t.writerLock = some Thread.control ↔ _
      rw [hc, hp]
      simp
    · intro hwr
      show (finishStop t.component).activeWriter ≠ none
      rw [(finishStop_frame _).1]
      exact hw hwr
    · intro hclr
      show (finishStop t.component).activeWriter = none
      rw [(finishStop_frame _).1]
      exact hcl hclr
  | done => simp [hp] at hs

theorem lockInvariant_threadStep (t : Threads) (th : Thread) (h : LockInvariant t) :
    LockInvariant (threadStep t th) := by
  cases th with
  | audio =>
    show LockInvariant ((audioStep t).getD t)
    cases hs : audioStep t with
    | none => exact h
    | some r => exact lockInvariant_audioStep t r h hs
  | control =>
    show LockInvariant ((controlStep t).getD t)
    cases hs : controlStep t with
    | none => exact h
    | some r => exact lockInvariant_controlStep t r h hs

theorem lockInvariant_schedule (t : Threads) (order : List Thread) (h : LockInvariant t) :
    LockInvariant (schedule t order) := by
  induction order generalizing t with
  | nil => exact h
  | cons th order ih => exact ih (threadStep t th) (lockInvariant_threadStep t th h)

end LZarins

namespace LZarins

open Juce

/-- What `stopRecording` freezes: the number of `write` calls, the sample counter, the playhead
and the blocks handed to the writers. -/
theorem frozen_audioStep (t r : Threads) (h : LockInvariant t) (hc : t.cleared = true)
    (hs : audioStep t = some r) :
    r.cleared = true ∧ r.writeSteps = t.writeSteps ∧
    r.component.nextSampleNum = t.component.nextSampleNum ∧
    r.component.playheadPosition = t.component.playheadPosition ∧
    writtenBlocks r.component = writtenBlocks t.component := by
  have hnw : t.audioPc.writing ≠ true := fun hw => h.writing hw (h.cleared hc)
  unfold audioStep at hs
  cases hb : t.blocks with
  | nil => simp [hb] at hs
  | cons b rest =>
    cases hp : t.audioPc <;> simp only [hb, hp] at hs <;>
      (try split_ifs at hs) <;>
      (try (simp only [Option.some.injEq] at hs; subst hs)) <;>
      first
        | exact ⟨hc, rfl, rfl, rfl, rfl⟩
        | exact absurd (by rw [hp]; rfl) hnw

theorem frozen_controlStep (t r : Threads) (hc : t.cleared = true)
    (hs : controlStep t = some r) :
    r.cleared = true ∧ r.writeSteps = t.writeSteps ∧
    r.component.nextSampleNum = t.component.nextSampleNum ∧
    r.component.playheadPosition = t.component.playheadPosition ∧
    writtenBlocks r.component = writtenBlocks t.component := by
  unfold controlStep at hs
  cases hp : t.stopPc with
  | testRecording =>
    simp only [hp, Option.some.injEq] at hs
    subst hs
    exact ⟨hc, rfl, rfl, rfl, rfl⟩
  | clearFlag =>
    simp only [hp, Option.some.injEq] at hs
    subst hs
    exact ⟨hc, rfl, rfl, rfl, rfl⟩
  | lock =>
    simp only [hp] at hs
    split_ifs at hs
    simp only [Option.some.injEq] at hs
    subst hs
    exact ⟨hc, rfl, rfl, rfl, rfl⟩
  | clearWriter =>
    simp only [hp, Option.some.injEq] at hs
    subst hs
    exact ⟨rfl, rfl, rfl, rfl, rfl⟩
  | unlock =>
    simp only [hp, Option.some.injEq] at hs
    subst hs
    exact ⟨hc, rfl, rfl, rfl, rfl⟩
  | resetWriter =>
    simp only [hp, Option.some.injEq] at hs
    subst hs
    refine ⟨hc, rfl, rfl, rfl, ?_⟩
    simp [writtenBlocks]
  | finish =>
    simp only [hp, Option.some.injEq] at hs
    subst hs
    have hf := finishStop_frame t.component
    refine ⟨hc, rfl, hf.2.2.2.1, hf.2.2.2.2.1, ?_⟩
    show writtenBlocks (finishStop t.component) = _
    unfold writtenBlocks
    rw [hf.2.1, hf.2.2.1]
  | done => simp [hp] at hs

theorem frozen_schedule (t : Threads) (order : List Thread) (h : LockInvariant t)
    (hc : t.cleared = true) :
    (schedule t order).cleared = true ∧ (schedule t order).writeSteps = t.writeSteps ∧
    (schedule t order).component.nextSampleNum = t.component.nextSampleNum ∧
    (schedule t order).component.playheadPosition = t.component.playheadPosition ∧
    writtenBlocks (schedule t order).component = writtenBlocks t.component := by
  induction order generalizing t with
  | nil => exact ⟨hc, rfl, rfl, rfl, rfl⟩
  | cons th order ih =>
    have hstep : (threadStep t th).cleared = true ∧
        (threadStep t th).writeSteps = t.writeSteps ∧
        (threadStep t th).component.nextSampleNum = t.component.nextSampleNum ∧
        (threadStep t th).component.playheadPosition = t.component.playheadPosition ∧
        writtenBlocks (threadStep t th).component = writtenBlocks t.component := by
      cases th with
      | audio =>
        cases hs : audioStep t with
        | none =>
          have e : threadStep t Thread.audio = t := by
            show (audioStep t).getD t = t
            rw [hs]; rfl
          rw [e]
          exact ⟨hc, rfl, rfl, rfl, rfl⟩
        | some r =>
          have e : threadStep t Thread.audio = r := by
            show (audioStep t).getD t = r
            rw [hs]; rfl
          rw [e]
          exact frozen_audioStep t r h hc hs
      | control =>
        cases hs : controlStep t with
        | none =>
          have e : threadStep t Thread.control = t := by
            show (controlStep t).getD t = t
            rw [hs]; rfl
          rw [e]
          exact ⟨hc, rfl, rfl, rfl, rfl⟩
        | some r =>
          have e : threadStep t Thread.control = r := by
            show (controlStep t).getD t = r
            rw [hs]; rfl
          rw [e]
          exact frozen_controlStep t r hc hs
    obtain ⟨h1, h2, h3, h4, h5⟩ := hstep
    obtain ⟨k1, k2, k3, k4, k5⟩ :=
      ih (threadStep t th) (lockInvariant_threadStep t th h) h1
    exact ⟨k1, k2.trans h2, k3.trans h3, k4.trans h4, k5.trans h5⟩

end LZarins

namespace LZarins

open Juce

/-- The control thread running alone through `stopRecording` gives the state `stopRecording`
gives. -/
theorem schedule_control_alone (c : AudioRecorderComponent)
    (blocks : List AudioSourceChannelInfo) :
    (schedule (Threads.start c blocks) (List.replicate 7 Thread.control)).component =
      stopRecording c := by
  by_cases hrec : c.isRecording = true
  · simp [schedule, threadStep, controlStep, Threads.start, List.replicate, hrec,
      stopRecording, finishStop]
  · have hrec2 : c.isRecording = false := by simpa using hrec
    simp [schedule, threadStep, controlStep, Threads.start, List.replicate, hrec2,
      stopRecording]

/-- The audio thread running alone through one `getNextAudioBlock` gives the state
`getNextAudioBlock` gives. -/
theorem schedule_audio_alone (c : AudioRecorderComponent) (b : AudioSourceChannelInfo) :
    (schedule (Threads.start c [b]) (List.replicate 11 Thread.audio)).component =
      getNextAudioBlock c b := by
  by_cases hrec : c.isRecording = true
  · by_cases hw : c.activeWriter = none
    · simp [schedule, threadStep, audioStep, Threads.start, List.replicate, hrec, hw,
        getNextAudioBlock]
    · by_cases hg : 0 ≤ c.currentRecordingIndex ∧
          c.currentRecordingIndex.toNat < c.recordingThumbnails.length
      · simp [schedule, threadStep, audioStep, Threads.start, List.replicate, hrec, hw, hg,
          getNextAudioBlock]
      · simp [schedule, threadStep, audioStep, Threads.start, List.replicate, hrec, hw, hg,
          getNextAudioBlock]
  · have hrec2 : c.isRecording = false := by simpa using hrec
    simp [schedule, threadStep, audioStep, Threads.start, List.replicate, hrec2,
      getNextAudioBlock]

end LZarins

namespace LZarins

open Juce

/-- Clearing `isRecording` alone does not stop a block in progress: with the audio thread past
its test of `isRecording`, the block is written after the control thread has set the flag to
false and before it has cleared `activeWriter`. -/
theorem write_after_flag_before_clear :
    (schedule Example.recordingThreads
      [.audio, .audio, .control, .control]).component.isRecording = false ∧
    (schedule Example.recordingThreads [.audio, .audio, .control, .control]).writeSteps = 0 ∧
    (schedule Example.recordingThreads
      ([.audio, .audio, .control, .control] ++ List.replicate 9 .audio)).writeSteps = 1 ∧
    (schedule Example.recordingThreads
      ([.audio, .audio, .control, .control] ++ List.replicate 9 .audio)).cleared = false := by
  refine ⟨?_, ?_, ?_, ?_⟩ <;> decide

/-- While the audio thread holds `writerLock` the control thread waits at its own
`ScopedLock`: its steps change nothing. -/
theorem control_waits_for_lock :
    (schedule Example.recordingThreads
      [.audio, .audio, .audio, .control, .control]).writerLock = some Thread.audio ∧
    (schedule Example.recordingThreads
      [.audio, .audio, .audio, .control, .control]).stopPc = StopPc.lock ∧
    (schedule Example.recordingThreads
      ([.audio, .audio, .audio, .control, .control] ++ List.replicate 3 .control)).stopPc =
        StopPc.lock ∧
    (schedule Example.recordingThreads
      ([.audio, .audio, .audio, .control, .control] ++ List.replicate 3 .control)).cleared =
        false := by
  refine ⟨?_, ?_, ?_, ?_⟩ <;> decide

end LZarins

/-! ## The claims -/

open Juce

/-- C1. For a recording started by `startRecording` (in either variant) and any finite list of
blocks delivered to `getNextAudioBlock` while it is active, the sample counter `nextSampleNum`
after the list equals the sum of the frame counts of the blocks, provided that sum fits in an
`int64_t`; when every block has `F` frames this is `N * F` for `N` blocks. -/
theorem C1_sample_count_is_sum_of_frames (blocks : List AudioSourceChannelInfo)
    (hfit : -2 ^ 63 ≤ (blocks.map fun b => b.numSamples).sum ∧
      (blocks.map fun b => b.numSamples).sum < 2 ^ 63) :
    (∀ (s0 : LZarins.AudioRecorderComponent) (env : StartEnv),
      s0.isRecording = false → (LZarins.startRecording s0 env).isRecording = true →
      (LZarins.deliver (LZarins.startRecording s0 env) blocks).nextSampleNum =
          (blocks.map fun b => b.numSamples).sum ∧
        ∀ F : Int, (∀ b ∈ blocks, b.numSamples = F) →
          (LZarins.deliver (LZarins.startRecording s0 env) blocks).nextSampleNum =
            blocks.length * F) ∧
    (∀ (s0 : KERoke.AudioRecorderComponent) (env : StartEnv),
      s0.isRecording = false → (KERoke.startRecording s0 env).isRecording = true →
      (KERoke.deliver (KERoke.startRecording s0 env) blocks).nextSampleNum =
          (blocks.map fun b => b.numSamples).sum ∧
        ∀ F : Int, (∀ b ∈ blocks, b.numSamples = F) →
          (KERoke.deliver (KERoke.startRecording s0 env) blocks).nextSampleNum =
            blocks.length * F) := by
  have hsum : ∀ F : Int, (∀ b ∈ blocks, b.numSamples = F) →
      (blocks.map fun b => b.numSamples).sum = blocks.length * F := by
    intro F hF
    rw [List.map_congr_left hF]
    simp
  constructor
  · intro s0 env h0 h1
    obtain ⟨hz, hw⟩ := LZarins.startRecording_started s0 env h0 h1
    have key := LZarins.deliver_nextSampleNum _ blocks h1 hw (by rw [hz]; norm_num)
    rw [hz, zero_add, wrapInt64_of_fits _ hfit] at key
    exact ⟨key, fun F hF => by rw [key, hsum F hF]⟩
  · intro s0 env h0 h1
    obtain ⟨hz, hw⟩ := KERoke.startRecording_started_single s0 env h0 h1
    have key := KERoke.deliver_nextSampleNum_single _ blocks h1 hw (by rw [hz]; norm_num)
    rw [hz, zero_add, wrapInt64_of_fits _ hfit] at key
    exact ⟨key, fun F hF => by rw [key, hsum F hF]⟩

/-- C1, on ten blocks of 512 frames pushed after a successful start from the constructor
state: the counter is 5120 in both variants. -/
theorem C1_sample_count_ten_blocks_of_512 :
    (LZarins.deliver (LZarins.startRecording LZarins.AudioRecorderComponent.new Example.startOk)
        Example.tenBlocks).nextSampleNum = 5120 ∧
    (KERoke.deliver (KERoke.startRecording KERoke.AudioRecorderComponent.new Example.startOk)
        Example.tenBlocks).nextSampleNum = 5120 := by
  have hsum : (Example.tenBlocks.map fun b => b.numSamples).sum = 5120 := by
    have hn : Example.block512.numSamples = 512 := rfl
    simp [Example.tenBlocks, hn]
  have h := C1_sample_count_is_sum_of_frames Example.tenBlocks (by rw [hsum]; norm_num)
  rw [hsum] at h
  exact ⟨(h.1 LZarins.AudioRecorderComponent.new Example.startOk rfl rfl).1,
    (h.2 KERoke.AudioRecorderComponent.new Example.startOk rfl rfl).1⟩

/-- C2. When the configured sample rate is positive and a block is processed for the active
recording (recording flag set, active writer non-null), `playheadPosition` afterwards equals
`nextSampleNum` divided by `sampleRate`, over the rationals. -/
theorem C2_playhead_is_samples_over_rate (s : LZarins.AudioRecorderComponent)
    (b : AudioSourceChannelInfo) (hrate : 0 < s.sampleRate) (hrec : s.isRecording = true)
    (hw : s.activeWriter ≠ none) :
    (LZarins.getNextAudioBlock s b).playheadPosition =
      ((LZarins.getNextAudioBlock s b).nextSampleNum : ℚ) /
        (LZarins.getNextAudioBlock s b).sampleRate ∧
    0 < (LZarins.getNextAudioBlock s b).sampleRate := by
  rw [LZarins.getNextAudioBlock_sampleRate]
  exact ⟨LZarins.getNextAudioBlock_playheadPosition s b hrec hw, hrate⟩

/-- C2, on the example of the specification: configured at 44100 Hz, started, ten blocks of 512
frames pushed; the counter is 5120 and the playhead is 5120/44100 seconds, which rounds to
0.1161 (1161 ten-thousandths). -/
theorem C2_playhead_ten_blocks_at_44100 :
    0 < Example.afterNineBlocks.sampleRate ∧
    (LZarins.getNextAudioBlock Example.afterNineBlocks Example.block512).nextSampleNum = 5120 ∧
    (LZarins.getNextAudioBlock Example.afterNineBlocks Example.block512).playheadPosition =
      5120 / 44100 ∧
    round ((LZarins.getNextAudioBlock Example.afterNineBlocks Example.block512).playheadPosition
      * 10000) = 1161 := by
  have hst : Example.startedAt44100.nextSampleNum = 0 ∧
      Example.startedAt44100.activeWriter ≠ none :=
    LZarins.startRecording_started (LZarins.prepareToPlay LZarins.AudioRecorderComponent.new 512 44100)
      Example.startOk rfl rfl
  have hrec : Example.afterNineBlocks.isRecording = true := by
    unfold Example.afterNineBlocks
    rw [LZarins.deliver_isRecording]
    rfl
  have hw : Example.afterNineBlocks.activeWriter ≠ none := by
    unfold Example.afterNineBlocks
    rw [LZarins.deliver_activeWriter]
    exact hst.2
  have hrate : Example.afterNineBlocks.sampleRate = 44100 := by
    unfold Example.afterNineBlocks
    rw [LZarins.deliver_sampleRate]
    rfl
  have hn : Example.block512.numSamples = 512 := rfl
  have hnine : Example.afterNineBlocks.nextSampleNum = 4608 := by
    unfold Example.afterNineBlocks
    rw [LZarins.deliver_nextSampleNum _ _ rfl hst.2 (by rw [hst.1]; norm_num), hst.1]
    simp [hn, wrapInt64]
  have hten : (LZarins.getNextAudioBlock Example.afterNineBlocks Example.block512).nextSampleNum
      = 5120 := by
    rw [LZarins.getNextAudioBlock_nextSampleNum _ _ hrec hw, hnine, hn]
    simp [wrapInt64]
  have h := C2_playhead_is_samples_over_rate Example.afterNineBlocks Example.block512
    (by rw [hrate]; norm_num) hrec hw
  have hp : (LZarins.getNextAudioBlock Example.afterNineBlocks Example.block512).playheadPosition
      = 5120 / 44100 := by
    rw [h.1, hten, LZarins.getNextAudioBlock_sampleRate, hrate]
    norm_num
  refine ⟨by rw [hrate]; norm_num, hten, hp, ?_⟩
  rw [hp, round_eq, Int.floor_eq_iff]
  constructor <;> norm_num

/-- C3. For a block with at least one frame delivered while recording, `currentLevel`
afterwards is the mean absolute value of channel 0 over the block: the sum of
`|channel0[startSample + i]|` for `i` below `numSamples`, divided by `numSamples`, over the
rationals. It is the same for any two recording states and any two blocks that agree on
channel 0, `startSample` and `numSamples`, so neither the other channels nor the previous
level matter. Both variants. -/
theorem C3_level_is_mean_abs_of_channel0 (b : AudioSourceChannelInfo) (hn : 0 < b.numSamples) :
    (∀ s : LZarins.AudioRecorderComponent, s.isRecording = true →
      (LZarins.getNextAudioBlock s b).currentLevel =
        (∑ i in Finset.range b.numSamples.toNat,
          |b.buffer.getSample 0 (b.startSample + (i : Int))|) / (b.numSamples.toNat : ℚ) ∧
      ∀ (s2 : LZarins.AudioRecorderComponent) (b2 : AudioSourceChannelInfo),
        s2.isRecording = true → b2.buffer.channels.getD 0 [] = b.buffer.channels.getD 0 [] →
        b2.startSample = b.startSample → b2.numSamples = b.numSamples →
        (LZarins.getNextAudioBlock s2 b2).currentLevel =
          (LZarins.getNextAudioBlock s b).currentLevel) ∧
    (∀ s : KERoke.AudioRecorderComponent, s.isRecording = true →
      (KERoke.getNextAudioBlock s b).currentLevel =
        (∑ i in Finset.range b.numSamples.toNat,
          |b.buffer.getSample 0 (b.startSample + (i : Int))|) / (b.numSamples.toNat : ℚ) ∧
      ∀ (s2 : KERoke.AudioRecorderComponent) (b2 : AudioSourceChannelInfo),
        s2.isRecording = true → b2.buffer.channels.getD 0 [] = b.buffer.channels.getD 0 [] →
        b2.startSample = b.startSample → b2.numSamples = b.numSamples →
        (KERoke.getNextAudioBlock s2 b2).currentLevel =
          (KERoke.getNextAudioBlock s b).currentLevel) := by
  have hcast : (b.numSamples : ℚ) = (b.numSamples.toNat : ℚ) := by
    have h : ((b.numSamples.toNat : Int) : ℚ) = (b.numSamples : ℚ) := by
      rw [Int.toNat_of_nonneg hn.le]
    rw [← h]
    norm_cast
  have hch : ∀ b2 : AudioSourceChannelInfo,
      b2.buffer.channels.getD 0 [] = b.buffer.channels.getD 0 [] →
      b2.startSample = b.startSample →
      b2.buffer.getReadPointer 0 b2.startSample = b.buffer.getReadPointer 0 b.startSample := by
    intro b2 h0 h1
    funext i
    simp only [AudioBuffer.getReadPointer, AudioBuffer.getSample, h0, h1]
  constructor
  · intro s hrec
    refine ⟨?_, fun s2 b2 hrec2 h0 h1 h2 => ?_⟩
    · rw [LZarins.getNextAudioBlock_currentLevel s b hrec, sumAbs_eq_sum, hcast]
      rfl
    · rw [LZarins.getNextAudioBlock_currentLevel s b hrec,
        LZarins.getNextAudioBlock_currentLevel s2 b2 hrec2, hch b2 h0 h1, h2]
  · intro s hrec
    refine ⟨?_, fun s2 b2 hrec2 h0 h1 h2 => ?_⟩
    · rw [KERoke.getNextAudioBlock_currentLevel_single s b hrec, sumAbs_eq_sum, hcast]
      rfl
    · rw [KERoke.getNextAudioBlock_currentLevel_single s b hrec,
        KERoke.getNextAudioBlock_currentLevel_single s2 b2 hrec2, hch b2 h0 h1, h2]

/-- C3, on a block whose active region holds 1, -2, 3 on channel 0 (read from frame 1): the
level is (1 + 2 + 3) / 3 = 2 in both variants, whatever channel 1 holds. -/
theorem C3_level_of_three_frames :
    (LZarins.getNextAudioBlock Example.startedAt44100 Example.block3).currentLevel = 2 ∧
    (KERoke.getNextAudioBlock
      (KERoke.startRecording KERoke.AudioRecorderComponent.new Example.startOk)
      Example.block3).currentLevel = 2 := by
  have h := C3_level_is_mean_abs_of_channel0 Example.block3 (by decide)
  have hv : (∑ i in Finset.range Example.block3.numSamples.toNat,
      |Example.block3.buffer.getSample 0 (Example.block3.startSample + (i : Int))|) /
        (Example.block3.numSamples.toNat : ℚ) = 2 := by
    have hN : Example.block3.numSamples.toNat = 3 := rfl
    rw [hN]
    simp [Finset.sum_range_succ, Example.block3, AudioBuffer.getSample]
    norm_num [abs_of_nonneg, abs_of_neg]
  exact ⟨(h.1 Example.startedAt44100 rfl).1.trans hv,
    (h.2 (KERoke.startRecording KERoke.AudioRecorderComponent.new Example.startOk) rfl).1.trans hv⟩

/-- C4. In a state where the registry already holds 6 takes (or more), or where a recording
is already active, `startRecording` leaves the recorder state as it was: the three registry
vectors, the track list, `currentRecordingIndex`, `isRecording`, `nextSampleNum`,
`playheadPosition`, the active writer and the threaded writer are unchanged. -/
theorem C4_start_rejected_changes_nothing (s : LZarins.AudioRecorderComponent) (env : StartEnv)
    (h : 6 ≤ s.recordingThumbnails.length ∨ s.isRecording = true) :
    (LZarins.startRecording s env).recordingThumbnails = s.recordingThumbnails ∧
    (LZarins.startRecording s env).recordingCaches = s.recordingCaches ∧
    (LZarins.startRecording s env).recordingFiles = s.recordingFiles ∧
    (LZarins.startRecording s env).recordingsContainer = s.recordingsContainer ∧
    (LZarins.startRecording s env).currentRecordingIndex = s.currentRecordingIndex ∧
    (LZarins.startRecording s env).isRecording = s.isRecording ∧
    (LZarins.startRecording s env).nextSampleNum = s.nextSampleNum ∧
    (LZarins.startRecording s env).playheadPosition = s.playheadPosition ∧
    (LZarins.startRecording s env).activeWriter = s.activeWriter ∧
    (LZarins.startRecording s env).threadedWriter = s.threadedWriter := by
  unfold LZarins.startRecording
  dsimp only
  by_cases h6 : s.recordingThumbnails.length ≥ 6
  · rw [if_pos h6]
    simp
  · have hrec : s.isRecording = true := h.resolve_left h6
    rw [if_neg h6]
    simp [hrec]

/-- C4, on a recorder that is already recording: a second `startRecording` changes none of
the listed parts. -/
theorem C4_start_while_recording_changes_nothing :
    Example.startedAt44100.isRecording = true ∧
    (LZarins.startRecording Example.startedAt44100 Example.startOk).recordingThumbnails =
      Example.startedAt44100.recordingThumbnails ∧
    (LZarins.startRecording Example.startedAt44100 Example.startOk).isRecording = true ∧
    (LZarins.startRecording Example.startedAt44100 Example.startOk).nextSampleNum =
      Example.startedAt44100.nextSampleNum :=
  have h := C4_start_rejected_changes_nothing Example.startedAt44100 Example.startOk (Or.inr rfl)
  ⟨rfl, h.1, h.2.2.2.2.2.1.trans rfl, h.2.2.2.2.2.2.1⟩

/-- C5. In every state reachable from the constructor state by calls of `prepareToPlay`,
`getNextAudioBlock`, `timerCallback`, `startRecording`, `stopRecording`, `deleteRecording` and
answers to its confirmation, the registry holds at most 6 takes. -/
theorem C5_registry_holds_at_most_six (s : LZarins.AudioRecorderComponent)
    (h : LZarins.Reachable s) : s.recordingThumbnails.length ≤ 6 := by
  obtain ⟨ops, rfl⟩ := h
  exact LZarins.run_thumbnails_length_le _ ops (Nat.zero_le 6)

/-- C5, on six takes recorded one after the other followed by a seventh `startRecording`: the
state is reachable and still holds six takes. -/
theorem C5_seventh_start_keeps_six :
    LZarins.Reachable (LZarins.startRecording Example.sixTakes (Example.startAt 6)) ∧
    (LZarins.startRecording Example.sixTakes (Example.startAt 6)).recordingThumbnails.length
      ≤ 6 ∧
    Example.sixTakes.recordingThumbnails.length = 6 :=
  have hr : LZarins.Reachable (LZarins.startRecording Example.sixTakes (Example.startAt 6)) :=
    ⟨Example.sixTakesOps ++ [LZarins.Op.startRecording (Example.startAt 6)], rfl⟩
  ⟨hr, C5_registry_holds_at_most_six _ hr, rfl⟩

/-- C6. From a state with 6 takes (six entries in each of the four collections) and no
recording active, `startRecording` is rejected: the registry stays at 6 and `isRecording`
stays false. After a confirmed `deleteRecording(i)` with `0 ≤ i < 6` the registry holds 5
takes, and a following `startRecording` whose output stream and writer are created succeeds,
leaving 6 takes and `isRecording` true. -/
theorem C6_full_registry_rejects_until_delete (s : LZarins.AudioRecorderComponent)
    (env1 env2 : StartEnv) (i : Int)
    (h6 : s.recordingThumbnails.length = 6) (hc : s.recordingCaches.length = 6)
    (hf : s.recordingFiles.length = 6) (ht : s.recordingsContainer.tracks.length = 6)
    (hrec : s.isRecording = false) (hi : 0 ≤ i ∧ i < 6)
    (hs : env2.streamCreated = true) (hw : env2.writerCreated = true) :
    ((LZarins.startRecording s env1).recordingThumbnails.length = 6 ∧
      (LZarins.startRecording s env1).isRecording = false) ∧
    ((LZarins.confirmedDelete s i).recordingThumbnails.length = 5 ∧
      (LZarins.confirmedDelete s i).recordingCaches.length = 5 ∧
      (LZarins.confirmedDelete s i).recordingFiles.length = 5 ∧
      (LZarins.confirmedDelete s i).recordingsContainer.tracks.length = 5) ∧
    ((LZarins.startRecording (LZarins.confirmedDelete s i) env2).recordingThumbnails.length = 6 ∧
      (LZarins.startRecording (LZarins.confirmedDelete s i) env2).isRecording = true) := by
  have hsz : toSizeT i = i.toNat := toSizeT_of_nonneg i hi.1 (by omega)
  have hlt : i.toNat < 6 := by omega
  have hcd := LZarins.confirmedDelete_eq s i hi.1 (by rw [hsz, ht]; exact hlt)
  have hth : (LZarins.confirmedDelete s i).recordingThumbnails.length = 5 := by
    rw [hcd, LZarins.deleteRecordingCallback_thumbnails, List.length_eraseIdx, hsz]
    show (if i.toNat < s.recordingThumbnails.length then _ else _) = 5
    rw [h6, if_pos hlt]
  have hy := LZarins.deleteRecordingCallback_yes
    { s with alerts := s.alerts ++ [LZarins.Alert.deleteRecording i] } i
  have hrec2 : (LZarins.confirmedDelete s i).isRecording = false := by
    rw [hcd, hy.2.2.1]
    exact hrec
  refine ⟨⟨?_, ?_⟩, ⟨hth, ?_, ?_, ?_⟩, ?_⟩
  · unfold LZarins.startRecording
    rw [if_pos (by omega)]
    exact h6
  · unfold LZarins.startRecording
    rw [if_pos (by omega)]
    exact hrec
  · rw [hcd, hy.1, List.length_eraseIdx, hsz]
    show (if i.toNat < s.recordingCaches.length then _ else _) = 5
    rw [hc, if_pos hlt]
  · rw [hcd, hy.2.1, List.length_eraseIdx, hsz]
    show (if i.toNat < s.recordingFiles.length then _ else _) = 5
    rw [hf, if_pos hlt]
  · rw [hcd, hy.2.2.2, LZarins.length_reindexFrom, hsz]
    have := LZarins.deleteTrackAt_tracks_length
      { s with alerts := s.alerts ++ [LZarins.Alert.deleteRecording i] } i.toNat
      (by show i.toNat < s.recordingsContainer.tracks.length; rw [ht]; exact hlt)
    have ht2 : ({ s with alerts := s.alerts ++ [LZarins.Alert.deleteRecording i] } :
        LZarins.AudioRecorderComponent).recordingsContainer.tracks.length = 6 := ht
    omega
  · have hok := LZarins.startRecording_success (LZarins.confirmedDelete s i) env2
      (by rw [hth]; norm_num) hrec2 hs hw
    refine ⟨?_, hok.1⟩
    rw [hok.2.2.2.2.2.2.1, List.length_append, hth]
    rfl

/-- C6, on six recorded takes: a seventh start is rejected; after the take at index 2 is
deleted (confirmed) five takes are left and the next start succeeds. -/
theorem C6_six_takes_delete_then_start :
    (LZarins.startRecording Example.sixTakes (Example.startAt 6)).recordingThumbnails.length = 6 ∧
    (LZarins.startRecording Example.sixTakes (Example.startAt 6)).isRecording = false ∧
    (LZarins.confirmedDelete Example.sixTakes 2).recordingThumbnails.length = 5 ∧
    (LZarins.startRecording (LZarins.confirmedDelete Example.sixTakes 2)
      (Example.startAt 7)).recordingThumbnails.length = 6 ∧
    (LZarins.startRecording (LZarins.confirmedDelete Example.sixTakes 2)
      (Example.startAt 7)).isRecording = true :=
  have h := C6_full_registry_rejects_until_delete Example.sixTakes (Example.startAt 6)
    (Example.startAt 7) 2 rfl rfl rfl rfl rfl (by decide) rfl rfl
  ⟨h.1.1, h.1.2, h.2.1.1, h.2.2.1, h.2.2.2⟩

/-- C7. When no recording is active, the registry holds fewer than 6 takes and the output
stream and the WAV writer are created, `startRecording` leaves `isRecording` true,
`nextSampleNum` 0, `playheadPosition` 0, the active writer non-null (it is the new threaded
writer) and `currentRecordingIndex` equal to the last position of the registry, where the new
take is. In the single-take variant the same holds for the flag, the counters and the
writer. -/
theorem C7_successful_start_installs_session (env : StartEnv)
    (hs : env.streamCreated = true) (hw : env.writerCreated = true) :
    (∀ s : LZarins.AudioRecorderComponent,
      s.isRecording = false → s.recordingThumbnails.length < 6 →
      (LZarins.startRecording s env).isRecording = true ∧
      (LZarins.startRecording s env).nextSampleNum = 0 ∧
      (LZarins.startRecording s env).playheadPosition = 0 ∧
      (LZarins.startRecording s env).activeWriter ≠ none ∧
      (LZarins.startRecording s env).activeWriter =
        (LZarins.startRecording s env).threadedWriter.map (fun w => w.addr) ∧
      (LZarins.startRecording s env).currentRecordingIndex =
        ((LZarins.startRecording s env).recordingThumbnails.length : Int) - 1 ∧
      (LZarins.startRecording s env).recordingThumbnails.length =
        s.recordingThumbnails.length + 1) ∧
    (∀ s : KERoke.AudioRecorderComponent,
      s.isRecording = false →
      (KERoke.startRecording s env).isRecording = true ∧
      (KERoke.startRecording s env).nextSampleNum = 0 ∧
      (KERoke.startRecording s env).playheadPosition = 0 ∧
      (KERoke.startRecording s env).activeWriter ≠ none ∧
      (KERoke.startRecording s env).activeWriter =
        (KERoke.startRecording s env).threadedWriter.map (fun w => w.addr)) := by
  constructor
  · intro s hrec hlen
    have h := LZarins.startRecording_success s env hlen hrec hs hw
    refine ⟨h.1, h.2.1, h.2.2.1, ?_, ?_, ?_, ?_⟩
    · rw [h.2.2.2.1]; simp
    · rw [h.2.2.2.1, h.2.2.2.2.1]; rfl
    · rw [h.2.2.2.2.2.1, h.2.2.2.2.2.2.1]; simp
    · rw [h.2.2.2.2.2.2.1]; simp
  · intro s hrec
    have h := KERoke.startRecording_success_single s env hrec hs hw
    refine ⟨h.1, h.2.1, h.2.2.1, ?_, ?_⟩
    · rw [h.2.2.2.1]; simp
    · rw [h.2.2.2.1, h.2.2.2.2]; rfl

/-- C7, on the first start after construction: the recorder is recording take 0 with both
counters at 0. -/
theorem C7_first_start_after_construction :
    (LZarins.startRecording LZarins.AudioRecorderComponent.new Example.startOk).isRecording
      = true ∧
    (LZarins.startRecording LZarins.AudioRecorderComponent.new Example.startOk).nextSampleNum
      = 0 ∧
    (LZarins.startRecording LZarins.AudioRecorderComponent.new Example.startOk).playheadPosition
      = 0 ∧
    (LZarins.startRecording LZarins.AudioRecorderComponent.new
      Example.startOk).currentRecordingIndex = 0 ∧
    (KERoke.startRecording KERoke.AudioRecorderComponent.new Example.startOk).isRecording
      = true :=
  have h := C7_successful_start_installs_session Example.startOk rfl rfl
  have hl := h.1 LZarins.AudioRecorderComponent.new rfl (by decide)
  ⟨hl.1, hl.2.1, hl.2.2.1, hl.2.2.2.2.2.1.trans (by rw [hl.2.2.2.2.2.2]; rfl),
    (h.2 KERoke.AudioRecorderComponent.new rfl).1⟩

/-- C8. A successful `startRecording` on a registry of `n` takes appends exactly one take:
each of the four collections (thumbnails, caches, files, tracks) is the old one followed by
one new entry, so it has `n + 1` entries with the first `n` unchanged and in order, and the new
track and its display panel carry the index `n`, the new size minus 1. -/
theorem C8_successful_start_appends_one_take (s : LZarins.AudioRecorderComponent)
    (env : StartEnv) (n : Nat)
    (hth : s.recordingThumbnails.length = n) (hc : s.recordingCaches.length = n)
    (hf : s.recordingFiles.length = n) (ht : s.recordingsContainer.tracks.length = n)
    (hn : n < 6) (hrec : s.isRecording = false)
    (hs : env.streamCreated = true) (hw : env.writerCreated = true) :
    ∃ (thumbnail : AudioThumbnail) (cache : AudioThumbnailCache) (file : File)
      (track : LZarins.RecordingTrack),
      (LZarins.startRecording s env).recordingThumbnails = s.recordingThumbnails ++ [thumbnail] ∧
      (LZarins.startRecording s env).recordingCaches = s.recordingCaches ++ [cache] ∧
      (LZarins.startRecording s env).recordingFiles = s.recordingFiles ++ [file] ∧
      (LZarins.startRecording s env).recordingsContainer.tracks =
        s.recordingsContainer.tracks ++ [track] ∧
      (LZarins.startRecording s env).recordingThumbnails.length = n + 1 ∧
      (LZarins.startRecording s env).recordingCaches.length = n + 1 ∧
      (LZarins.startRecording s env).recordingFiles.length = n + 1 ∧
      (LZarins.startRecording s env).recordingsContainer.tracks.length = n + 1 ∧
      track.trackIndex =
        ((LZarins.startRecording s env).recordingsContainer.tracks.length : Int) - 1 ∧
      track.display.recordingIndex =
        ((LZarins.startRecording s env).recordingsContainer.tracks.length : Int) - 1 := by
  have h := LZarins.startRecording_success s env (by omega) hrec hs hw
  obtain ⟨-, -, -, -, -, -, h1, h2, h3, h4⟩ := h
  refine ⟨_, _, _, _, h1, h2, h3, h4, ?_, ?_, ?_, ?_, ?_, ?_⟩
  · rw [h1, List.length_append, hth]; rfl
  · rw [h2, List.length_append, hc]; rfl
  · rw [h3, List.length_append, hf]; rfl
  · rw [h4, List.length_append, ht]; rfl
  · rw [h4, List.length_append, ht, hth]; simp [LZarins.RecordingTrack.new]
  · rw [h4, List.length_append, ht, hth]; simp [LZarins.RecordingTrack.new]

/-- C8, on the first start after construction: the registry goes from no take to one take,
whose track carries index 0. -/
theorem C8_first_take_has_index_zero :
    (LZarins.startRecording LZarins.AudioRecorderComponent.new
      Example.startOk).recordingsContainer.tracks.length = 1 ∧
    ((LZarins.startRecording LZarins.AudioRecorderComponent.new
      Example.startOk).recordingsContainer.tracks.map fun t => t.trackIndex) = [0] := by
  obtain ⟨_, _, _, track, -, -, -, h4, -, -, -, h8, h9, -⟩ :=
    C8_successful_start_appends_one_take LZarins.AudioRecorderComponent.new Example.startOk 0
      rfl rfl rfl rfl (by decide) rfl rfl rfl
  refine ⟨h8, ?_⟩
  rw [h8] at h9
  rw [h4]
  simpa [LZarins.AudioRecorderComponent.new] using h9

/-- C9. If the output stream cannot be created, or the WAV writer cannot be created for it,
`startRecording` makes no session active: `isRecording`, the active writer and the threaded
writer are unchanged (so they stay false and null when they were), and the registry
(thumbnails, caches, files, tracks), `currentRecordingIndex`, `nextSampleNum` and
`playheadPosition` are unchanged. -/
theorem C9_failed_open_never_activates (s : LZarins.AudioRecorderComponent) (env : StartEnv)
    (h : env.streamCreated = false ∨ env.writerCreated = false) :
    ((s.isRecording = false → (LZarins.startRecording s env).isRecording = false) ∧
      (s.activeWriter = none → (LZarins.startRecording s env).activeWriter = none)) ∧
    (LZarins.startRecording s env).isRecording = s.isRecording ∧
    (LZarins.startRecording s env).activeWriter = s.activeWriter ∧
    (LZarins.startRecording s env).threadedWriter = s.threadedWriter ∧
    (LZarins.startRecording s env).recordingThumbnails = s.recordingThumbnails ∧
    (LZarins.startRecording s env).recordingCaches = s.recordingCaches ∧
    (LZarins.startRecording s env).recordingFiles = s.recordingFiles ∧
    (LZarins.startRecording s env).recordingsContainer = s.recordingsContainer ∧
    (LZarins.startRecording s env).currentRecordingIndex = s.currentRecordingIndex ∧
    (LZarins.startRecording s env).nextSampleNum = s.nextSampleNum ∧
    (LZarins.startRecording s env).playheadPosition = s.playheadPosition := by
  have hf := LZarins.startRecording_failure s env h
  exact ⟨⟨fun h0 => hf.1.trans h0, fun h0 => hf.2.1.trans h0⟩, hf⟩

/-- C9, on a start after construction at which the output stream cannot be created: the
recorder is not recording, has no active writer and holds no take. -/
theorem C9_no_stream_after_construction :
    (LZarins.startRecording LZarins.AudioRecorderComponent.new
      Example.startNoStream).isRecording = false ∧
    (LZarins.startRecording LZarins.AudioRecorderComponent.new
      Example.startNoStream).activeWriter = none ∧
    (LZarins.startRecording LZarins.AudioRecorderComponent.new
      Example.startNoStream).recordingThumbnails = [] :=
  have h := C9_failed_open_never_activates LZarins.AudioRecorderComponent.new
    Example.startNoStream (Or.inl rfl)
  ⟨h.1.1 rfl, h.1.2 rfl, h.2.2.2.2.1⟩

/-- C10. When no recording is active `stopRecording` returns the state it was given, in both
variants: registry, `currentRecordingIndex`, counters, level, writer and flag are unchanged, no
message box is added and no thumbnail is reloaded. Hence `stopRecording` applied twice in a
row gives the same state as applied once, from any state. -/
theorem C10_stop_when_idle_changes_nothing (s : LZarins.AudioRecorderComponent)
    (k : KERoke.AudioRecorderComponent)
    (hs : s.isRecording = false) (hk : k.isRecording = false) :
    LZarins.stopRecording s = s ∧ KERoke.stopRecording k = k ∧
    (∀ t : LZarins.AudioRecorderComponent,
      LZarins.stopRecording (LZarins.stopRecording t) = LZarins.stopRecording t) ∧
    (∀ t : KERoke.AudioRecorderComponent,
      KERoke.stopRecording (KERoke.stopRecording t) = KERoke.stopRecording t) :=
  ⟨LZarins.stopRecording_of_not_recording s hs,
    KERoke.stopRecording_of_not_recording_single k hk,
    fun t => LZarins.stopRecording_of_not_recording _ (LZarins.stopRecording_isRecording t),
    fun t => KERoke.stopRecording_of_not_recording_single _
      (KERoke.stopRecording_isRecording_single t)⟩

/-- C10, on the recorders as constructed and on six recorded takes: a stop with nothing
active changes nothing. -/
theorem C10_stop_after_construction :
    LZarins.stopRecording Example.sixTakes = Example.sixTakes ∧
    KERoke.stopRecording KERoke.AudioRecorderComponent.new = KERoke.AudioRecorderComponent.new :=
  have h := C10_stop_when_idle_changes_nothing Example.sixTakes
    KERoke.AudioRecorderComponent.new rfl rfl
  ⟨h.1, h.2.1⟩

/-- C11. After `stopRecording` has returned, any list of blocks delivered to
`getNextAudioBlock` leaves the whole state as `stopRecording` left it, in both variants: no
block reaches a writer (the writer stopped is closed, with what it had received, and both
writer pointers are null) or a thumbnail, and `nextSampleNum` and `playheadPosition` keep the
values they had when `stopRecording` returned. -/
theorem C11_blocks_after_stop_change_nothing :
    (∀ (s : LZarins.AudioRecorderComponent) (blocks : List AudioSourceChannelInfo),
      LZarins.deliver (LZarins.stopRecording s) blocks = LZarins.stopRecording s ∧
      (LZarins.deliver (LZarins.stopRecording s) blocks).nextSampleNum =
        (LZarins.stopRecording s).nextSampleNum ∧
      (LZarins.deliver (LZarins.stopRecording s) blocks).playheadPosition =
        (LZarins.stopRecording s).playheadPosition ∧
      (s.isRecording = true →
        (LZarins.deliver (LZarins.stopRecording s) blocks).activeWriter = none ∧
        (LZarins.deliver (LZarins.stopRecording s) blocks).threadedWriter = none ∧
        (LZarins.deliver (LZarins.stopRecording s) blocks).closedWriters =
          s.closedWriters ++ s.threadedWriter.toList)) ∧
    (∀ (s : KERoke.AudioRecorderComponent) (blocks : List AudioSourceChannelInfo),
      KERoke.deliver (KERoke.stopRecording s) blocks = KERoke.stopRecording s ∧
      (KERoke.deliver (KERoke.stopRecording s) blocks).nextSampleNum =
        (KERoke.stopRecording s).nextSampleNum ∧
      (KERoke.deliver (KERoke.stopRecording s) blocks).playheadPosition =
        (KERoke.stopRecording s).playheadPosition ∧
      (s.isRecording = true →
        (KERoke.deliver (KERoke.stopRecording s) blocks).activeWriter = none ∧
        (KERoke.deliver (KERoke.stopRecording s) blocks).threadedWriter = none ∧
        (KERoke.deliver (KERoke.stopRecording s) blocks).closedWriters =
          s.closedWriters ++ s.threadedWriter.toList)) := by
  constructor
  · intro s blocks
    have h := LZarins.deliver_of_not_recording _ blocks (LZarins.stopRecording_isRecording s)
    rw [h]
    refine ⟨rfl, rfl, rfl, fun hrec => ?_⟩
    refine ⟨(LZarins.stopRecording_writers s hrec).1, (LZarins.stopRecording_writers s hrec).2, ?_⟩
    unfold LZarins.stopRecording LZarins.showSaveDialog
    dsimp only
    rw [if_pos hrec]
    split_ifs <;> rfl
  · intro s blocks
    have h := KERoke.deliver_of_not_recording_single _ blocks
      (KERoke.stopRecording_isRecording_single s)
    rw [h]
    refine ⟨rfl, rfl, rfl, fun hrec => ?_⟩
    refine ⟨(KERoke.stopRecording_writers_single s hrec).1,
      (KERoke.stopRecording_writers_single s hrec).2, ?_⟩
    unfold KERoke.stopRecording
    dsimp only
    rw [if_pos hrec]

/-- C11, on the recorder stopped after nine blocks of 512 frames: ten more blocks leave the
counter at 4608. -/
theorem C11_counter_frozen_after_stop :
    (LZarins.deliver (LZarins.stopRecording Example.afterNineBlocks)
      Example.tenBlocks).nextSampleNum =
      (LZarins.stopRecording Example.afterNineBlocks).nextSampleNum :=
  (C11_blocks_after_stop_change_nothing.1 Example.afterNineBlocks Example.tenBlocks).2.1

/-- C16 (the code at a block read from frame 1). The block holds 9, 1, -2, 3, 7 on channel 0
and `startSample = 1`, `numSamples = 3`: the thumbnail receives the frames 1, -2, 3 of the
active region while the writer receives 9, 1, -2, the frames from offset 0. Both variants. -/
theorem C16_writer_reads_from_offset_zero :
    ((LZarins.getNextAudioBlock Example.startedAt44100 Example.block3).threadedWriter.map
      fun w => w.received) = some [[[9, 1, -2], [5, 5, 5]]] ∧
    ((LZarins.getNextAudioBlock Example.startedAt44100 Example.block3).recordingThumbnails.map
      fun t => t.blocks.map fun b => b.frames) = [[[[1, -2, 3], [5, 5, 5]]]] ∧
    ((KERoke.getNextAudioBlock Example.startedSingle Example.block3).threadedWriter.map
      fun w => w.received) = some [[[9, 1, -2], [5, 5, 5]]] ∧
    ((KERoke.getNextAudioBlock Example.startedSingle Example.block3).thumbnail.blocks.map
      fun b => b.frames) = [[[1, -2, 3], [5, 5, 5]]] := by
  refine ⟨?_, ?_, ?_, ?_⟩ <;> decide

/-- C20 (the code after one take was started and stopped). Nothing is being recorded and
`currentRecordingIndex` is 0, not -1. -/
theorem C20_index_stays_after_stop :
    LZarins.Reachable Example.recordedOnce ∧
    Example.recordedOnce.isRecording = false ∧
    Example.recordedOnce.currentRecordingIndex = 0 :=
  ⟨⟨_, rfl⟩, rfl, rfl⟩

/-- C18. Every WAV writer created by `startRecording` (it creates one exactly when the start
succeeds) has 2 channels, 16 bits per sample, empty metadata, and the sample rate most recently
passed to `prepareToPlay` in the calls made since construction, 44100 when there was none. Both
variants. -/
theorem C18_writer_format (env : StartEnv)
    (hs : env.streamCreated = true) (hw : env.writerCreated = true) :
    (∀ ops : List LZarins.Op,
      (LZarins.run LZarins.AudioRecorderComponent.new ops).isRecording = false →
      (LZarins.run LZarins.AudioRecorderComponent.new ops).recordingThumbnails.length < 6 →
      ∃ w : ThreadedWriter,
        (LZarins.startRecording (LZarins.run LZarins.AudioRecorderComponent.new ops)
          env).threadedWriter = some w ∧
        w.writer.numChannels = 2 ∧ w.writer.bitsPerSample = 16 ∧ w.writer.metadata = [] ∧
        w.writer.sampleRate = LZarins.lastPreparedRate ops) ∧
    (∀ ops : List KERoke.Op,
      (KERoke.run KERoke.AudioRecorderComponent.new ops).isRecording = false →
      ∃ w : ThreadedWriter,
        (KERoke.startRecording (KERoke.run KERoke.AudioRecorderComponent.new ops)
          env).threadedWriter = some w ∧
        w.writer.numChannels = 2 ∧ w.writer.bitsPerSample = 16 ∧ w.writer.metadata = [] ∧
        w.writer.sampleRate = KERoke.lastPreparedRate ops) := by
  constructor
  · intro ops hrec hlen
    have h := LZarins.startRecording_success _ env hlen hrec hs hw
    exact ⟨_, h.2.2.2.2.1, rfl, rfl, rfl, LZarins.run_sampleRate _ ops⟩
  · intro ops hrec
    have h := KERoke.startRecording_success_single _ env hrec hs hw
    exact ⟨_, h.2.2.2.2, rfl, rfl, rfl, KERoke.run_sampleRate_single _ ops⟩

/-- C18, on a recorder prepared at 44100 Hz and then at 48000 Hz: the writer of the next
take is a 48000 Hz, 2 channel, 16 bit writer without metadata; without any `prepareToPlay`
the single-take recorder makes a 44100 Hz writer. -/
theorem C18_writer_after_two_prepares :
    ((LZarins.startRecording
      (LZarins.run LZarins.AudioRecorderComponent.new
        [.prepareToPlay 512 44100, .prepareToPlay 480 48000])
      Example.startOk).threadedWriter.map
        fun w => (w.writer.sampleRate, w.writer.numChannels, w.writer.bitsPerSample,
          w.writer.metadata)) = some (48000, 2, 16, []) ∧
    ((KERoke.startRecording (KERoke.run KERoke.AudioRecorderComponent.new [])
      Example.startOk).threadedWriter.map
        fun w => (w.writer.sampleRate, w.writer.numChannels, w.writer.bitsPerSample,
          w.writer.metadata)) = some (44100, 2, 16, []) := by
  have h := C18_writer_format Example.startOk rfl rfl
  obtain ⟨w, hw, h1, h2, h3, h4⟩ :=
    h.1 [.prepareToPlay 512 44100, .prepareToPlay 480 48000] rfl (by decide)
  obtain ⟨v, hv, k1, k2, k3, k4⟩ := h.2 [] rfl
  rw [hw, hv]
  have e1 : LZarins.lastPreparedRate [.prepareToPlay 512 44100, .prepareToPlay 480 48000]
      = 48000 := rfl
  have e2 : KERoke.lastPreparedRate [] = 44100 := rfl
  simp [h1, h2, h3, h4, k1, k2, k3, k4, e1, e2]

/-- C12. In a reachable state whose registry holds `n` takes, a confirmed `deleteRecording(i)`
with `i < n` leaves `n - 1` takes: in each of the four collections the entries before `i` keep
their position, the entries after `i` move down by one and only the entry at `i` is gone (for
the tracks: the same objects, by address), so every remaining take keeps its file, thumbnail,
cache and track; and every remaining track and display panel carries its new position as
index. -/
theorem C12_delete_removes_one_and_reindexes (s : LZarins.AudioRecorderComponent) (i : Nat)
    (h : LZarins.Reachable s) (hi : i < s.recordingThumbnails.length) :
    LZarins.RemovedAt i s.recordingThumbnails
      (LZarins.confirmedDelete s (i : Int)).recordingThumbnails ∧
    LZarins.RemovedAt i s.recordingCaches
      (LZarins.confirmedDelete s (i : Int)).recordingCaches ∧
    LZarins.RemovedAt i s.recordingFiles
      (LZarins.confirmedDelete s (i : Int)).recordingFiles ∧
    LZarins.RemovedAt i (s.recordingsContainer.tracks.map fun t => t.addr)
      ((LZarins.confirmedDelete s (i : Int)).recordingsContainer.tracks.map fun t => t.addr) ∧
    LZarins.Indexed (LZarins.confirmedDelete s (i : Int)).recordingsContainer.tracks ∧
    (LZarins.confirmedDelete s (i : Int)).recordingThumbnails.length + 1 =
      s.recordingThumbnails.length := by
  have hwf := LZarins.wellFormed_of_reachable s h
  have h6 : s.recordingThumbnails.length ≤ 6 := by
    obtain ⟨ops, rfl⟩ := h
    exact LZarins.run_thumbnails_length_le _ ops (Nat.zero_le 6)
  have hsz : toSizeT (i : Int) = i := by
    rw [toSizeT_of_nonneg _ (Int.natCast_nonneg i) (by omega)]
    rfl
  have hit : i < s.recordingsContainer.tracks.length := by rw [hwf.tracks]; exact hi
  rw [LZarins.confirmedDelete_eq s i (Int.natCast_nonneg i) (by rw [hsz]; exact hit),
    LZarins.deleteRecordingCallback_eq, hsz]
  obtain ⟨t, ht⟩ : ∃ t, s.recordingsContainer.tracks.get? i = some t :=
    ⟨_, List.get?_eq_get hit⟩
  have htr : (s.recordingsContainer.tracks.get? i).elim s.recordingsContainer.tracks
      (fun t => LZarins.eraseFirstTrack t.addr s.recordingsContainer.tracks) =
      s.recordingsContainer.tracks.eraseIdx i := by
    rw [ht]
    exact LZarins.eraseFirstTrack_eq_eraseIdx _ i t hwf.distinct ht
  refine ⟨LZarins.removedAt_eraseIdx i _ hi,
    LZarins.removedAt_eraseIdx i _ (by rw [hwf.caches]; exact hi),
    LZarins.removedAt_eraseIdx i _ (by rw [hwf.files]; exact hi), ?_, ?_,
    (LZarins.removedAt_eraseIdx i _ hi).1⟩
  · show LZarins.RemovedAt i _ ((LZarins.reindexFrom 0 _).map fun t => t.addr)
    rw [LZarins.map_addr_reindexFrom, htr, LZarins.map_eraseIdx]
    exact LZarins.removedAt_eraseIdx i _ (by rw [List.length_map]; exact hit)
  · exact LZarins.indexed_reindexFrom _

/-- C12, on six recorded takes with the take at index 2 deleted: five tracks are left, they are
the tracks created first, second, fourth, fifth and sixth (addresses 2, 6, 14, 18, 22), and
their indices are 0 to 4. -/
theorem C12_delete_third_of_six :
    LZarins.RemovedAt 2 Example.sixTakes.recordingFiles
      (LZarins.confirmedDelete Example.sixTakes 2).recordingFiles ∧
    ((LZarins.confirmedDelete Example.sixTakes 2).recordingsContainer.tracks.map
      fun t => (t.addr, t.trackIndex, t.display.recordingIndex)) =
      [(2, 0, 0), (6, 1, 1), (14, 2, 2), (18, 3, 3), (22, 4, 4)] ∧
    (Example.sixTakes.recordingsContainer.tracks.map fun t => t.addr) =
      [2, 6, 10, 14, 18, 22] :=
  have h := C12_delete_removes_one_and_reindexes Example.sixTakes 2
    ⟨Example.sixTakesOps, rfl⟩ (by decide)
  ⟨h.2.2.1, by decide, by decide⟩

/-- C13. `deleteRecording` called with an `int` index that names no take (`index < 0` or
`index >= ` number of tracks) returns the state it was given: nothing is removed, no file is
deleted, nothing is reindexed and no confirmation is opened. Likewise, in a reachable state, the
confirmation callback run for such an index (a confirmation that arrives when the index is no
longer within the registry), whatever the button, leaves the state unchanged. -/
theorem C13_delete_of_invalid_index_rejected (s : LZarins.AudioRecorderComponent)
    (index : Int) (hint : -2 ^ 31 ≤ index ∧ index < 2 ^ 31)
    (h : index < 0 ∨ (s.recordingsContainer.tracks.length : Int) ≤ index) :
    LZarins.deleteRecording s index = s ∧
    LZarins.confirmedDelete s index = s ∧
    (LZarins.Reachable s →
      ∀ result : Int, LZarins.deleteRecordingCallback s index result = s) := by
  have hd : LZarins.deleteRecording s index = s := by
    unfold LZarins.deleteRecording
    by_cases h0 : index < 0
    · rw [if_pos h0]
    · rw [if_neg h0, if_pos]
      have hge := h.resolve_left h0
      rw [toSizeT_of_nonneg index (not_lt.mp h0) (by omega)]
      show s.recordingsContainer.tracks.length ≤ index.toNat
      omega
  refine ⟨hd, ?_, fun hr result => ?_⟩
  · unfold LZarins.confirmedDelete
    dsimp only
    rw [hd, if_neg (by omega)]
  · have hwf := LZarins.wellFormed_of_reachable s hr
    have h6 : s.recordingThumbnails.length ≤ 6 := by
      obtain ⟨ops, rfl⟩ := hr
      exact LZarins.run_thumbnails_length_le _ ops (Nat.zero_le 6)
    have hbig : s.recordingThumbnails.length ≤ toSizeT index := by
      have htl := hwf.tracks
      by_cases h0 : index < 0
      · unfold toSizeT
        have : index % 2 ^ 64 = index + 2 ^ 64 := by
          rw [← Int.add_emod_self, Int.emod_eq_of_lt (by omega) (by omega)]
        rw [this]
        omega
      · have hge := h.resolve_left h0
        rw [toSizeT_of_nonneg index (not_lt.mp h0) (by omega)]
        omega
    by_cases hres : result = 1
    · subst hres
      rw [LZarins.deleteRecordingCallback_eq]
      have e1 := List.eraseIdx_of_length_le hbig
      have e2 : s.recordingCaches.eraseIdx (toSizeT index) = s.recordingCaches :=
        List.eraseIdx_of_length_le (by rw [hwf.caches]; exact hbig)
      have e3 : s.recordingFiles.eraseIdx (toSizeT index) = s.recordingFiles :=
        List.eraseIdx_of_length_le (by rw [hwf.files]; exact hbig)
      have e4 : s.recordingsContainer.tracks.get? (toSizeT index) = none :=
        List.get?_eq_none.mpr (by rw [hwf.tracks]; exact hbig)
      have e5 : s.recordingFiles.get? (toSizeT index) = none :=
        List.get?_eq_none.mpr (by rw [hwf.files]; exact hbig)
      rw [e1, e2, e3, e4, e5]
      simp only [Option.elim]
      rw [LZarins.reindexFrom_of_indexed _ hwf.indexed]
    · exact LZarins.deleteRecordingCallback_no s index result hres

/-- C13, on six recorded takes: `deleteRecording(6)` and `deleteRecording(-1)` change nothing,
and a confirmation for index 6 changes nothing. -/
theorem C13_delete_out_of_range_on_six_takes :
    LZarins.deleteRecording Example.sixTakes 6 = Example.sixTakes ∧
    LZarins.deleteRecording Example.sixTakes (-1) = Example.sixTakes ∧
    LZarins.deleteRecordingCallback Example.sixTakes 6 1 = Example.sixTakes :=
  have h6 := C13_delete_of_invalid_index_rejected Example.sixTakes 6 (by decide)
    (Or.inr (by decide))
  have hm := C13_delete_of_invalid_index_rejected Example.sixTakes (-1) (by decide)
    (Or.inl (by decide))
  ⟨h6.1, hm.1, h6.2.2 ⟨Example.sixTakesOps, rfl⟩ 1⟩

/-- C17. In every reachable state of the multi-take recorder position equals display index:
the track stored at position `i` of the container has `trackIndex == i` and its display panel
has `recordingIndex == i`; and the container holds as many tracks as there are thumbnails,
caches and files, so the panel at position `i` shows and deletes the take at position `i` of
those vectors. -/
theorem C17_position_equals_display_index (s : LZarins.AudioRecorderComponent)
    (h : LZarins.Reachable s) :
    (∀ (i : Nat) (t : LZarins.RecordingTrack), s.recordingsContainer.tracks.get? i = some t →
      t.trackIndex = (i : Int) ∧ t.display.recordingIndex = (i : Int)) ∧
    s.recordingsContainer.tracks.length = s.recordingThumbnails.length ∧
    s.recordingsContainer.tracks.length = s.recordingFiles.length ∧
    s.recordingsContainer.tracks.length = s.recordingCaches.length := by
  have hwf := LZarins.wellFormed_of_reachable s h
  exact ⟨hwf.indexed, hwf.tracks, hwf.tracks.trans hwf.files.symm,
    hwf.tracks.trans hwf.caches.symm⟩

/-- C17, on six takes recorded and the third deleted: the five tracks left carry the indices
0, 1, 2, 3, 4 in this order, on the track and on its display panel. -/
theorem C17_indices_after_delete :
    LZarins.Reachable Example.fiveTakes ∧
    (Example.fiveTakes.recordingsContainer.tracks.map
      fun t => (t.trackIndex, t.display.recordingIndex)) =
      [(0, 0), (1, 1), (2, 2), (3, 3), (4, 4)] ∧
    (∀ (i : Nat) (t : LZarins.RecordingTrack),
      Example.fiveTakes.recordingsContainer.tracks.get? i = some t → t.trackIndex = (i : Int)) :=
  have hr : LZarins.Reachable Example.fiveTakes := ⟨_, rfl⟩
  have h := C17_position_equals_display_index Example.fiveTakes hr
  ⟨hr, by decide, fun i t hi => (h.1 i t hi).1⟩

/-- C14 (the claim fails). The recorder is recording take 0, whose file is on disk; a confirmed
`deleteRecording(0)` is not rejected: the take leaves the registry and its file is deleted. -/
theorem C14_active_take_is_deleted :
    Example.startedAt44100.isRecording = true ∧
    Example.startedAt44100.currentRecordingIndex = 0 ∧
    Example.startedAt44100.recordingFiles = [LZarins.newRecordingFile Example.startOk] ∧
    LZarins.newRecordingFile Example.startOk ∈ Example.startedAt44100.disk ∧
    (LZarins.confirmedDelete Example.startedAt44100 0).recordingFiles = [] ∧
    (LZarins.confirmedDelete Example.startedAt44100 0).recordingThumbnails = [] ∧
    LZarins.newRecordingFile Example.startOk ∉
      (LZarins.confirmedDelete Example.startedAt44100 0).disk := by
  refine ⟨rfl, rfl, rfl, ?_, ?_, ?_, ?_⟩ <;> decide

/-- C14 as amended. `deleteRecording` does not look at the recording state. In a reachable
state that is recording the take at `currentRecordingIndex`, a confirmed `deleteRecording` of
that index removes the take from the registry (thumbnail, cache, file entry and track) and
deletes its file from the disk, while `isRecording`, the active writer and
`currentRecordingIndex` stay as they were. -/
theorem C14_delete_ignores_recording_state (s : LZarins.AudioRecorderComponent)
    (h : LZarins.Reachable s) (hrec : s.isRecording = true)
    (hidx : 0 ≤ s.currentRecordingIndex ∧
      s.currentRecordingIndex.toNat < s.recordingThumbnails.length) :
    LZarins.RemovedAt s.currentRecordingIndex.toNat s.recordingThumbnails
      (LZarins.confirmedDelete s s.currentRecordingIndex).recordingThumbnails ∧
    LZarins.RemovedAt s.currentRecordingIndex.toNat s.recordingCaches
      (LZarins.confirmedDelete s s.currentRecordingIndex).recordingCaches ∧
    LZarins.RemovedAt s.currentRecordingIndex.toNat s.recordingFiles
      (LZarins.confirmedDelete s s.currentRecordingIndex).recordingFiles ∧
    (LZarins.confirmedDelete s s.currentRecordingIndex).recordingsContainer.tracks.length + 1 =
      s.recordingsContainer.tracks.length ∧
    (∀ f, s.recordingFiles.get? s.currentRecordingIndex.toNat = some f →
      f ∉ (LZarins.confirmedDelete s s.currentRecordingIndex).disk) ∧
    (LZarins.confirmedDelete s s.currentRecordingIndex).isRecording = true ∧
    (LZarins.confirmedDelete s s.currentRecordingIndex).activeWriter = s.activeWriter ∧
    (LZarins.confirmedDelete s s.currentRecordingIndex).currentRecordingIndex =
      s.currentRecordingIndex := by
  have hwf := LZarins.wellFormed_of_reachable s h
  have h6 : s.recordingThumbnails.length ≤ 6 := by
    obtain ⟨ops, rfl⟩ := h
    exact LZarins.run_thumbnails_length_le _ ops (Nat.zero_le 6)
  obtain ⟨h0, hlt⟩ := hidx
  have hsz : toSizeT s.currentRecordingIndex = s.currentRecordingIndex.toNat :=
    toSizeT_of_nonneg _ h0 (by omega)
  have hit : s.currentRecordingIndex.toNat < s.recordingsContainer.tracks.length := by
    rw [hwf.tracks]; exact hlt
  rw [LZarins.confirmedDelete_eq s _ h0 (by rw [hsz]; exact hit),
    LZarins.deleteRecordingCallback_eq, hsz]
  refine ⟨LZarins.removedAt_eraseIdx _ _ hlt,
    LZarins.removedAt_eraseIdx _ _ (by rw [hwf.caches]; exact hlt),
    LZarins.removedAt_eraseIdx _ _ (by rw [hwf.files]; exact hlt), ?_, ?_, hrec, rfl, rfl⟩
  · show (LZarins.reindexFrom 0 _).length + 1 = _
    rw [LZarins.length_reindexFrom, List.get?_eq_get hit]
    exact LZarins.length_eraseFirstTrack _ _ ⟨_, List.get_mem _ _ _, rfl⟩
  · intro f hf
    show f ∉ (s.recordingFiles.get? s.currentRecordingIndex.toNat).elim s.disk _
    rw [hf]
    show f ∉ (if f ∈ s.disk then deleteFile s.disk f else s.disk)
    split_ifs with hmem
    · simp [deleteFile]
    · exact hmem

/-- C14 as amended, on the recorder recording its first take: the take and its file are gone
after the confirmed delete, and the recorder is still recording with the same active writer. -/
theorem C14_delete_while_recording_first_take :
    (LZarins.confirmedDelete Example.startedAt44100 0).recordingThumbnails.length + 1 =
      Example.startedAt44100.recordingThumbnails.length ∧
    LZarins.newRecordingFile Example.startOk ∉
      (LZarins.confirmedDelete Example.startedAt44100 0).disk ∧
    (LZarins.confirmedDelete Example.startedAt44100 0).isRecording = true ∧
    (LZarins.confirmedDelete Example.startedAt44100 0).activeWriter =
      Example.startedAt44100.activeWriter :=
  have h := C14_delete_ignores_recording_state Example.startedAt44100
    ⟨[.prepareToPlay 512 44100, .startRecording Example.startOk], rfl⟩ rfl
    ⟨by decide, by decide⟩
  ⟨h.1.1, h.2.2.2.2.1 _ rfl, h.2.2.2.2.2.1, h.2.2.2.2.2.2.1⟩

/-- C15 (the claim fails). A take is recorded and stopped and a second take is started half a
second later, within the same second of the clock: the state is reachable and the two takes of
the registry have the same file. -/
theorem C15_same_second_same_file :
    LZarins.Reachable Example.sameSecondTwice ∧
    Example.sameSecondTwice.recordingFiles =
      [LZarins.newRecordingFile (Example.startAt 0), LZarins.newRecordingFile (Example.startAt 0)] ∧
    ¬ Example.sameSecondTwice.recordingFiles.Nodup := by
  have hf : Example.sameSecondTwice.recordingFiles =
      [LZarins.newRecordingFile (Example.startAt 0),
        LZarins.newRecordingFile (Example.startAt 0)] := rfl
  refine ⟨⟨_, rfl⟩, hf, ?_⟩
  rw [hf]
  simp

/-- C15 as amended. When the `startRecording` calls made since construction read valid clock
readings that differ pairwise once truncated to the whole second, any two distinct takes of the
registry have distinct files, in the state reached. The file chosen depends on the clock only
through the reading truncated to the second: two starts with the same documents directory and
the same second choose the same file. -/
theorem C15_files_distinct_when_seconds_differ (ops : List LZarins.Op)
    (hvalid : ∀ e ∈ LZarins.startEnvs ops, e.currentTime.Valid)
    (hsec : ((LZarins.startEnvs ops).map fun e => e.currentTime.toSecond).Nodup) :
    (LZarins.run LZarins.AudioRecorderComponent.new ops).recordingFiles.Nodup ∧
    (∀ e1 e2 : StartEnv, e1.userDocumentsDirectory = e2.userDocumentsDirectory →
      e1.currentTime.toSecond = e2.currentTime.toSecond →
      LZarins.newRecordingFile e1 = LZarins.newRecordingFile e2) := by
  refine ⟨?_, LZarins.newRecordingFile_same_second⟩
  have hsub := LZarins.run_files_sublist LZarins.AudioRecorderComponent.new ops
  refine List.Nodup.sublist hsub ?_
  show (([] : List File) ++ (LZarins.startEnvs ops).map LZarins.newRecordingFile).Nodup
  rw [List.nil_append]
  refine List.Nodup.map_on ?_ (List.Nodup.of_map _ hsec)
  intro x hx y hy hxy
  exact List.inj_on_of_nodup_map hsec hx hy
    (LZarins.newRecordingFile_injective x y (hvalid x hx) (hvalid y hy) hxy)

/-- C15 as amended, on six takes started in six different seconds: their six files are
pairwise distinct. -/
theorem C15_six_takes_six_files :
    Example.sixTakes.recordingFiles.length = 6 ∧ Example.sixTakes.recordingFiles.Nodup :=
  ⟨rfl, (C15_files_distinct_when_seconds_differ Example.sixTakesOps
    (by decide) (by decide)).1⟩

/-- C21 (the code after a click on Record and a click on Stop, single-take variant). The
state is reachable by clicks, no recording is active, and yet the Record button is disabled
and the Stop button enabled; every further sequence of clicks leaves the recorder in this
state, so no new recording can be started. -/
theorem C21_buttons_not_restored_after_stop :
    KERoke.ReachableByClicks Example.stoppedSingle ∧
    Example.stoppedSingle.isRecording = false ∧
    Example.stoppedSingle.recordButtonEnabled = false ∧
    Example.stoppedSingle.stopButtonEnabled = true ∧
    (∀ cs : List KERoke.Click, KERoke.clicks Example.stoppedSingle cs = Example.stoppedSingle) :=
  ⟨⟨_, rfl⟩, rfl, rfl, rfl, fun cs => KERoke.clicks_stuck _ cs ⟨rfl, rfl⟩⟩

/-- C22. In every reachable state of the multi-take recorder the four parallel collections
have the same length: `recordingThumbnails`, `recordingCaches`, `recordingFiles` and the track
list of the container. Position `i` describes the same take in each: the thumbnail at `i` is
the one built on the cache at `i`, and the track at `i` carries the index `i`. -/
theorem C22_parallel_collections_same_length (s : LZarins.AudioRecorderComponent)
    (h : LZarins.Reachable s) :
    s.recordingThumbnails.length = s.recordingCaches.length ∧
    s.recordingCaches.length = s.recordingFiles.length ∧
    s.recordingFiles.length = s.recordingsContainer.tracks.length ∧
    (∀ (i : Nat) (t : AudioThumbnail) (c : AudioThumbnailCache),
      s.recordingThumbnails.get? i = some t → s.recordingCaches.get? i = some c →
      t.cacheAddr = c.addr) ∧
    (∀ (i : Nat) (t : LZarins.RecordingTrack), s.recordingsContainer.tracks.get? i = some t →
      t.trackIndex = (i : Int)) := by
  have hwf := LZarins.wellFormed_of_reachable s h
  have hp := LZarins.paired_of_reachable s h
  refine ⟨hwf.caches.symm, hwf.caches.trans hwf.files.symm, hwf.files.trans hwf.tracks.symm,
    fun i t c ht hc => ?_, fun i t hi => (hwf.indexed i t hi).1⟩
  have h1 : (s.recordingThumbnails.map fun t => t.cacheAddr).get? i = some t.cacheAddr := by
    rw [List.get?_eq_getElem?, List.getElem?_map, ← List.get?_eq_getElem?, ht]; rfl
  have h2 : (s.recordingCaches.map fun c => c.addr).get? i = some c.addr := by
    rw [List.get?_eq_getElem?, List.getElem?_map, ← List.get?_eq_getElem?, hc]; rfl
  unfold LZarins.Paired at hp
  rw [hp, h2] at h1
  exact (Option.some.inj h1).symm

/-- C22, on six takes recorded and the third deleted: each of the four collections holds five
entries. -/
theorem C22_five_entries_after_delete :
    Example.fiveTakes.recordingThumbnails.length = 5 ∧
    Example.fiveTakes.recordingCaches.length = 5 ∧
    Example.fiveTakes.recordingFiles.length = 5 ∧
    Example.fiveTakes.recordingsContainer.tracks.length = 5 :=
  have h := C22_parallel_collections_same_length Example.fiveTakes ⟨_, rfl⟩
  have h5 : Example.fiveTakes.recordingThumbnails.length = 5 := rfl
  ⟨h5, h.1.symm.trans h5, (h.2.1.symm.trans h.1.symm).trans h5,
    (h.2.2.1.symm.trans (h.2.1.symm.trans h.1.symm)).trans h5⟩

/-- C23. In every reachable state, also when `currentRecordingIndex` is stale after a delete,
the element accesses into `recordingThumbnails`, `recordingCaches`, `recordingFiles` and the
track list made by `getNextAudioBlock`, `stopRecording`, `showSaveDialog`, `getThumbnail` and
the delete confirmation are all within bounds: the functions with checked accesses return the
result of the functions themselves. In particular the index that `stopRecording` guards
against `recordingFiles.size()` is also below `recordingThumbnails.size()`. -/
theorem C23_element_accesses_within_bounds (s : LZarins.AudioRecorderComponent)
    (h : LZarins.Reachable s) :
    (∀ b : AudioSourceChannelInfo,
      LZarins.getNextAudioBlockChecked s b = some (LZarins.getNextAudioBlock s b)) ∧
    LZarins.stopRecordingChecked s = some (LZarins.stopRecording s) ∧
    LZarins.showSaveDialogChecked s = some (LZarins.showSaveDialog s) ∧
    (∀ index : Int, (LZarins.getThumbnailChecked s index).isSome = true) ∧
    (∀ index result : Int,
      LZarins.deleteRecordingCallbackChecked s index result =
        some (LZarins.deleteRecordingCallback s index result)) ∧
    (0 ≤ s.currentRecordingIndex →
      s.currentRecordingIndex.toNat < s.recordingFiles.length →
      s.currentRecordingIndex.toNat < s.recordingThumbnails.length) := by
  have hwf := LZarins.wellFormed_of_reachable s h
  exact ⟨LZarins.getNextAudioBlockChecked_eq s,
    LZarins.stopRecordingChecked_eq s (le_of_eq hwf.files),
    LZarins.showSaveDialogChecked_eq s,
    LZarins.getThumbnailChecked_isSome s,
    LZarins.deleteRecordingCallbackChecked_eq s,
    fun _ hlt => by rw [← hwf.files]; exact hlt⟩

/-- C23, on a recorder whose first take was deleted while the second was being recorded:
`currentRecordingIndex` is 1 while the registry holds one take, and `stopRecording` and
`getNextAudioBlock` make no access outside the vectors. -/
theorem C23_stale_index_stays_in_bounds :
    Example.staleIndex.isRecording = true ∧
    Example.staleIndex.currentRecordingIndex = 1 ∧
    Example.staleIndex.recordingThumbnails.length = 1 ∧
    LZarins.stopRecordingChecked Example.staleIndex =
      some (LZarins.stopRecording Example.staleIndex) ∧
    LZarins.getNextAudioBlockChecked Example.staleIndex Example.block3 =
      some (LZarins.getNextAudioBlock Example.staleIndex Example.block3) :=
  have h := C23_element_accesses_within_bounds Example.staleIndex ⟨_, rfl⟩
  ⟨rfl, rfl, rfl, h.2.1, h.1 Example.block3⟩

/-- C19. For every interleaving of the audio thread running `getNextAudioBlock` on any list
of blocks with the control thread running `stopRecording`, from any state of the component:
once `stopRecording` has cleared `activeWriter` under `writerLock`, whatever the two threads do
next, no `write` call is made, the blocks handed to the writers stay the same, `nextSampleNum`
and `playheadPosition` are not changed, and the audio thread is never inside
`if (activeWriter.load() != nullptr)`. -/
theorem C19_no_write_after_clear (c : LZarins.AudioRecorderComponent)
    (blocks : List AudioSourceChannelInfo) (before after : List LZarins.Thread)
    (h : (LZarins.schedule (LZarins.Threads.start c blocks) before).cleared = true) :
    (LZarins.schedule (LZarins.schedule (LZarins.Threads.start c blocks) before)
        after).writeSteps =
      (LZarins.schedule (LZarins.Threads.start c blocks) before).writeSteps ∧
    LZarins.writtenBlocks (LZarins.schedule
        (LZarins.schedule (LZarins.Threads.start c blocks) before) after).component =
      LZarins.writtenBlocks (LZarins.schedule (LZarins.Threads.start c blocks) before).component ∧
    (LZarins.schedule (LZarins.schedule (LZarins.Threads.start c blocks) before)
        after).component.nextSampleNum =
      (LZarins.schedule (LZarins.Threads.start c blocks) before).component.nextSampleNum ∧
    (LZarins.schedule (LZarins.schedule (LZarins.Threads.start c blocks) before)
        after).component.playheadPosition =
      (LZarins.schedule (LZarins.Threads.start c blocks) before).component.playheadPosition ∧
    (LZarins.schedule (LZarins.schedule (LZarins.Threads.start c blocks) before)
        after).audioPc.writing = false := by
  have hinv := LZarins.lockInvariant_schedule _ before (LZarins.lockInvariant_start c blocks)
  obtain ⟨k1, k2, k3, k4, k5⟩ := LZarins.frozen_schedule _ after hinv h
  have hinv2 := LZarins.lockInvariant_schedule _ after hinv
  refine ⟨k2, k5, k3, k4, ?_⟩
  cases hw : (LZarins.schedule (LZarins.schedule (LZarins.Threads.start c blocks) before)
      after).audioPc.writing with
  | false => rfl
  | true => exact absurd (hinv2.cleared k1) (hinv2.writing hw)

/-- C19, on a stop that falls in the middle of the first of two blocks. The audio thread has
read `isRecording` before the control thread sets it to false, so the first block is still
written (one `write`, 512 samples) although `isRecording` is already false; after
`activeWriter` is cleared under the lock the second block is processed without a write and
the counter stays at 512. -/
theorem C19_stop_during_first_block :
    (LZarins.schedule Example.recordingThreads Example.stopDuringFirstBlock).cleared = true ∧
    (LZarins.schedule Example.recordingThreads Example.stopDuringFirstBlock).writeSteps = 1 ∧
    (LZarins.schedule Example.recordingThreads
      Example.stopDuringFirstBlock).component.nextSampleNum = 512 ∧
    (LZarins.schedule (LZarins.schedule Example.recordingThreads Example.stopDuringFirstBlock)
      Example.secondBlockAfterClear).writeSteps = 1 ∧
    (LZarins.schedule (LZarins.schedule Example.recordingThreads Example.stopDuringFirstBlock)
      Example.secondBlockAfterClear).component.nextSampleNum = 512 ∧
    (LZarins.schedule (LZarins.schedule Example.recordingThreads Example.stopDuringFirstBlock)
      Example.secondBlockAfterClear).blocks = [] ∧
    (LZarins.schedule (LZarins.schedule Example.recordingThreads Example.stopDuringFirstBlock)
      Example.secondBlockAfterClear).stopPc = LZarins.StopPc.done := by
  have hc : (LZarins.schedule Example.recordingThreads
      Example.stopDuringFirstBlock).cleared = true := by decide
  have hw : (LZarins.schedule Example.recordingThreads
      Example.stopDuringFirstBlock).writeSteps = 1 := by decide
  have hn : (LZarins.schedule Example.recordingThreads
      Example.stopDuringFirstBlock).component.nextSampleNum = 512 := by decide
  have h := C19_no_write_after_clear Example.startedAt44100
    [Example.block512, Example.block512] Example.stopDuringFirstBlock
    Example.secondBlockAfterClear hc
  refine ⟨hc, hw, hn, h.1.trans hw, h.2.2.1.trans hn, ?_, ?_⟩ <;> decide
